import Mathlib

/-!
# FogLAMP SQLite readings engine: purge, append, fetch and retrieve

A shallow embedding of `Connection::purgeReadings`, `Connection::appendReadings`,
`Connection::fetchReadings`, `Connection::retrieveReadings`,
`Connection::deleteRows` and `Connection::mapResultSet` from
`C/plugins/storage/sqlite/readings.cpp`, and of `plugin_ingest` from
`C/plugins/filter/python27/plugin.cpp`, followed by the properties proved about
them. The functions `jsonWhereClause`, `jsonAggregates`, `jsonModifiers` and
`returnJson`, which `retrieveReadings` and `deleteRows` call, are compiled out
of readings.cpp (`#ifdef AAAA`) and their compiled text is not under src/: they
are modelled from the spec.

Conventions.
* `unsigned long` is a `Nat` below `2 ^ 64`, `unsigned int` a `Nat` below `2 ^ 32`;
  every operation that can wrap is written with an explicit `%`.
* `int` and `long` are `Int`; conversions from the unsigned types go through
  `toInt32` and `toInt64` (two's complement).
* Every SQL statement the function executes is a field of `Sql`: the embedding
  does not interpret SQL, it only records what the code does with the answers.
  `tableSql` gives the usual relational meaning over a list of rows.
* Loops whose termination depends on the data take a fuel argument and report
  `Status.outOfFuel` when it is used up.
* The query compiler works on a parsed document, `Json`, and on the two SQL
  buffers, `Buffers`; a function that returns `bool` returns a `Res`.
* The `float` statements of the block-size update are computed on fractions
  rounded to 24 significant bits (`roundSingle`).
* Python objects are values of `PyObj`; the calls of the Python C API are
  functions on them.
-/

namespace FogLAMP

/-! ## Machine integers -/

/-- Number of values of an `unsigned long`. -/
def U64 : Nat := 2 ^ 64

/-- Number of values of an `unsigned int`. -/
def U32 : Nat := 2 ^ 32

/-- Conversion of an unsigned value to `long`. -/
def toInt64 (x : Nat) : Int :=
  if x % U64 < 2 ^ 63 then ((x % U64 : Nat) : Int) else ((x % U64 : Nat) : Int) - (U64 : Int)

/-- Conversion of an unsigned value to `int`. -/
def toInt32 (x : Nat) : Int :=
  if x % U32 < 2 ^ 31 then ((x % U32 : Nat) : Int) else ((x % U32 : Nat) : Int) - (U32 : Int)

/-- Conversion of a signed value to `unsigned long`. -/
def toU64 (x : Int) : Nat := (x % (U64 : Int)).toNat

/-- Conversion of a signed value to `unsigned int`. -/
def toU32 (x : Int) : Nat := (x % (U32 : Int)).toNat

/-- Wrap of a signed result into the range of `int`. -/
def wrapInt32 (x : Int) : Int := toInt32 (toU32 x)

/-! ## Constants of readings.cpp -/

def PURGE_DELETE_BLOCK_SIZE : Int := 20
def TARGET_PURGE_BLOCK_DEL_TIME : Int := 70 * 1000
def PURGE_BLOCK_SZ_GRANULARITY : Int := 5
def MIN_PURGE_DELETE_BLOCK_SIZE : Int := 20
def MAX_PURGE_DELETE_BLOCK_SIZE : Int := 1500
def RECALC_PURGE_BLOCK_SIZE_NUM_BLOCKS : Nat := 30

/-! ## The statements purgeReadings executes -/

/-- The answers of the database to the statements of `purgeReadings`, over a
database state `σ`. `none` is a result code other than `SQLITE_OK`.

* `selectMaxRowid`: `select max(rowid) from foglamp.readings;` as left in the
  `unsigned long` by `rowidCallback` (0 when the table is empty).
* `selectMinRowid`: `select min(rowid) from foglamp.readings;`.
* `selectOldest s limit`: the `/360` age query over `rowid <= limit`, as left in
  the `int purge_readings`.
* `selectIdOlder s m age`: `select id ... where rowid = m AND user_ts <
  datetime('now', '-age hours');` as left in `midRowId`, 0 when no row answers.
* `selectId s m`: `select id ... where rowid = m;` as left in `int lastPurgedId`.
* `deleteUpTo s c`: `DELETE ... WHERE rowid <= c;` giving the new state,
  `sqlite3_changes` and the measured microseconds; on failure only the
  microseconds. -/
structure Sql (σ : Type) where
  selectMaxRowid : σ → Option Nat
  selectMinRowid : σ → Option Nat
  selectOldest : σ → Nat → Option Int
  selectIdOlder : σ → Nat → Nat → Option Nat
  selectId : σ → Nat → Option Int
  deleteUpTo : σ → Nat → Option (σ × Nat) × Int

/-- How a run of a loop or of the whole function ended. -/
inductive Status where
  | completed
  | earlyReturn
  | outOfFuel
  deriving DecidableEq, Repr

/-! ## The binary-search locator (lines 1131-1174) -/

/-- Outcome of the locator loop: how it ended, the final midpoint `m`, the
rowids it queried in order, and the number of times the loop body was entered. -/
structure Located where
  status : Status
  m : Nat
  probed : List Nat
  iters : Nat
  deriving DecidableEq, Repr

/-- Puts an iteration and its probe in front of the rest of the run. -/
def Located.after (x : Located) (p : Nat) : Located :=
  { x with probed := p :: x.probed, iters := x.iters + 1 }

/-- The loop `while (l <= r)` of lines 1133-1172. `probe m` is the answer left
in `midRowId` by the query on rowid `m`, `none` on an SQL error. -/
def locate (probe : Nat → Option Nat) : Nat → Nat → Nat → Nat → Located
  | 0, _, _, m => { status := Status.outOfFuel, m := m, probed := [], iters := 0 }
  | fuel + 1, l, r, m =>
    if l ≤ r then
      let prev_m := m
      let m := l + (r - l) / 2
      if prev_m = m then
        { status := Status.completed, m := m, probed := [], iters := 1 }
      else
        match probe m with
        | none => { status := Status.earlyReturn, m := m, probed := [m], iters := 1 }
        | some midRowId =>
          if midRowId = 0 then
            (locate probe fuel l ((m + U64 - 1) % U64) m).after m
          else
            (locate probe fuel ((m + 1) % U64) r m).after m
    else
      { status := Status.completed, m := m, probed := [], iters := 0 }

/-! ## The adaptive block size (lines 1284-1308) -/

/-- Counters of the delete loop together with the static `purgeBlockSize`.
`blocks` is the `int` block counter, the other three are `unsigned int`. -/
structure Ctl where
  purgeBlockSize : Int
  blocks : Nat
  totTime : Nat
  prevBlocks : Nat
  prevTotTime : Nat
  deriving DecidableEq, Repr

/-- Lines 1301-1304: the two clamps, applied in the order of the source. -/
def clampBlockSize (b : Int) : Int :=
  let b := if b < MIN_PURGE_DELETE_BLOCK_SIZE then MIN_PURGE_DELETE_BLOCK_SIZE else b
  if b > MAX_PURGE_DELETE_BLOCK_SIZE then MAX_PURGE_DELETE_BLOCK_SIZE else b

/-- Lines 1291-1305 for a given `avg`. `scale b avg` stands for the value that
the float statements of lines 1296-1299 store back into the `int`
`purgeBlockSize`; it is a parameter because the embedding does not model
float arithmetic. -/
def resize (scale : Int → Int → Int) (purgeBlockSize avg : Int) : Int :=
  let deviation := |avg - TARGET_PURGE_BLOCK_DEL_TIME|
  if deviation > Int.tdiv TARGET_PURGE_BLOCK_DEL_TIME 10 then
    let b := scale purgeBlockSize avg
    let b := Int.tdiv b PURGE_BLOCK_SZ_GRANULARITY * PURGE_BLOCK_SZ_GRANULARITY
    clampBlockSize b
  else
    purgeBlockSize

/-- The weighted average of lines 1286-1288. Signed overflow is undefined in
the source; the embedding computes the exact value. -/
def average (c : Ctl) : Int :=
  let prevAvg : Int := toInt32 (c.prevTotTime / (if c.prevBlocks ≠ 0 then c.prevBlocks else 1))
  let currAvg : Int :=
    toInt32 (((c.totTime + U32 - c.prevTotTime) % U32) / ((c.blocks % U32 + U32 - c.prevBlocks) % U32))
  Int.tdiv ((if prevAvg ≠ 0 then prevAvg else currAvg) * 5 + currAvg * 5) 10

/-- The body of `if (blocks % RECALC_PURGE_BLOCK_SIZE_NUM_BLOCKS == 0)`. -/
def recalc (scale : Int → Int → Int) (c : Ctl) : Ctl :=
  { purgeBlockSize := resize scale c.purgeBlockSize (average c)
    blocks := c.blocks
    totTime := c.totTime
    prevBlocks := c.blocks % U32
    prevTotTime := c.totTime }

/-- Bookkeeping of one block that took `usecs` microseconds: lines 1232, 1262
and 1284-1308. -/
def afterBlock (scale : Int → Int → Int) (c : Ctl) (usecs : Int) : Ctl :=
  let c1 : Ctl := { c with blocks := c.blocks + 1, totTime := (c.totTime + toU32 usecs) % U32 }
  if c1.blocks % RECALC_PURGE_BLOCK_SIZE_NUM_BLOCKS = 0 then recalc scale c1 else c1

/-- Counters at the start of a call of `purgeReadings`, with the static block
size it finds. -/
def Ctl.start (purgeBlockSize : Int) : Ctl :=
  { purgeBlockSize := purgeBlockSize, blocks := 0, totTime := 0, prevBlocks := 0, prevTotTime := 0 }

/-- Value of the static `purgeBlockSize` after a sequence of calls of
`purgeReadings`, each given by the measured times of its blocks, starting from
the initial value of line 70. -/
def blockSizeAfter (scale : Int → Int → Int) (calls : List (List Int)) : Int :=
  calls.foldl (fun b times => (times.foldl (afterBlock scale) (Ctl.start b)).purgeBlockSize)
    PURGE_DELETE_BLOCK_SIZE

/-! ## The delete loop (lines 1226-1310) -/

/-- Outcome of the delete loop: the cursors of the `DELETE` statements it
executed, in order, the final counters and database state. -/
structure Deleted (σ : Type) where
  status : Status
  db : σ
  ctl : Ctl
  deletedRows : Nat
  cursors : List Nat

/-- Puts the cursor of an executed block in front of the rest of the run. -/
def Deleted.after {σ : Type} (d : Deleted σ) (cursor : Nat) : Deleted σ :=
  { d with cursors := cursor :: d.cursors }

/-- The loop `while (rowidMin < rowidLimit)`. -/
def deleteLoop {σ : Type} (ops : Sql σ) (scale : Int → Int → Int) (rowidLimit : Nat) :
    Nat → σ → Nat → Ctl → Nat → Deleted σ
  | 0, s, _, c, deletedRows =>
    { status := Status.outOfFuel, db := s, ctl := c, deletedRows := deletedRows, cursors := [] }
  | fuel + 1, s, rowidMin, c, deletedRows =>
    if rowidMin < rowidLimit then
      let rowidMin := (rowidMin + toU64 c.purgeBlockSize) % U64
      let rowidMin := if rowidMin > rowidLimit then rowidLimit else rowidMin
      match ops.deleteUpTo s rowidMin with
      | (none, usecs) =>
        { status := Status.earlyReturn, db := s
          ctl := { c with blocks := c.blocks + 1, totTime := (c.totTime + toU32 usecs) % U32 }
          deletedRows := deletedRows, cursors := [rowidMin] }
      | (some (s1, rowsAffected), usecs) =>
        (deleteLoop ops scale rowidLimit fuel s1 rowidMin (afterBlock scale c usecs)
          ((deletedRows + rowsAffected) % U32)).after rowidMin
    else
      { status := Status.completed, db := s, ctl := c, deletedRows := deletedRows, cursors := [] }

/-! ## purgeReadings (lines 1017-1337) -/

/-- The four numbers of the result document. -/
structure PurgeResult where
  removed : Int
  unsentPurged : Int
  unsentRetained : Int
  readings : Int
  deriving DecidableEq, Repr

/-- The document written at lines 1031-1034. -/
def PurgeResult.zero : PurgeResult :=
  { removed := 0, unsentPurged := 0, unsentRetained := 0, readings := 0 }

/-- What a call of `purgeReadings` leaves behind: its return value, the result
document, the static block size, the cursors of the `DELETE` statements it
executed and the database state. -/
structure Purged (σ : Type) where
  status : Status
  ret : Nat
  result : PurgeResult
  purgeBlockSize : Int
  cursors : List Nat
  db : σ

/-- A `return 0` before the delete loop. -/
def Purged.early {σ : Type} (st : Status) (purgeBlockSize : Int) (s : σ) : Purged σ :=
  { status := st, ret := 0, result := PurgeResult.zero, purgeBlockSize := purgeBlockSize
    cursors := [], db := s }

/-- Lines 1121-1123: the bounds `l` and `r` of the search. -/
def searchBounds (flags sent minrowidLimit rowidLimit : Nat) : Nat × Nat :=
  let l := minrowidLimit
  let r := if flags % 2 = 1 ∧ sent ≠ 0 then min sent rowidLimit else rowidLimit
  (l, max r l)

/-- Lines 1079-1113: the age used by the search. -/
def effectiveAge {σ : Type} (ops : Sql σ) (s : σ) (age rowidLimit : Nat) : Option Nat :=
  if age = 0 then (ops.selectOldest s rowidLimit).map toU64 else some age

/-- Lines 1185-1217: the value of `unsentPurged` before the delete loop. -/
def unsentBefore {σ : Type} (ops : Sql σ) (s : σ) (flags sent rowidLimit : Nat) : Option Int :=
  if flags % 2 = 0 then
    (ops.selectId s rowidLimit).map fun lastPurgedId =>
      if sent ≠ 0 ∧ toU64 lastPurgedId > sent then toInt32 ((rowidLimit + U64 - sent) % U64) else 0
  else
    some 0

/-- Lines 1312-1328: the result document after the delete loop. -/
def finalResult (maxrowidLimit minrowidLimit rowidLimit sent deletedRows : Nat)
    (unsentPurged : Int) : PurgeResult :=
  { removed := (deletedRows : Int)
    unsentPurged := if sent = 0 then (deletedRows : Int) else unsentPurged
    unsentRetained := toInt64 ((maxrowidLimit + U64 - rowidLimit) % U64)
    readings := toInt64 (((maxrowidLimit + U64 - minrowidLimit) % U64 + U64 - deletedRows) % U64) }

/-- The function `Connection::purgeReadings`. `purgeBlockSize` is the value of
the static on entry. The wait for writers of lines 1218-1224 executes no
statement and is left out. -/
def purgeReadings {σ : Type} (ops : Sql σ) (scale : Int → Int → Int) (fuel : Nat) (s : σ)
    (purgeBlockSize : Int) (age flags sent : Nat) : Purged σ :=
  match ops.selectMaxRowid s with
  | none => Purged.early Status.earlyReturn purgeBlockSize s
  | some maxrowidLimit =>
    match ops.selectMinRowid s with
    | none => Purged.early Status.earlyReturn purgeBlockSize s
    | some minrowidLimit =>
      match effectiveAge ops s age maxrowidLimit with
      | none => Purged.early Status.earlyReturn purgeBlockSize s
      | some age =>
        let (l, r) := searchBounds flags sent minrowidLimit maxrowidLimit
        if l = r then Purged.early Status.earlyReturn purgeBlockSize s
        else
          let loc := locate (fun m => ops.selectIdOlder s m age) fuel l r l
          if loc.status ≠ Status.completed then Purged.early loc.status purgeBlockSize s
          else
            let rowidLimit := loc.m
            if minrowidLimit = rowidLimit then Purged.early Status.earlyReturn purgeBlockSize s
            else
              match unsentBefore ops s flags sent rowidLimit with
              | none => Purged.early Status.earlyReturn purgeBlockSize s
              | some unsentPurged =>
                let d := deleteLoop ops scale rowidLimit fuel s minrowidLimit
                  (Ctl.start purgeBlockSize) 0
                match d.status with
                | Status.completed =>
                  { status := Status.completed, ret := d.deletedRows
                    result := finalResult maxrowidLimit minrowidLimit rowidLimit sent
                      d.deletedRows unsentPurged
                    purgeBlockSize := d.ctl.purgeBlockSize, cursors := d.cursors, db := d.db }
                | st =>
                  { status := st, ret := 0, result := PurgeResult.zero
                    purgeBlockSize := d.ctl.purgeBlockSize, cursors := d.cursors, db := d.db }

/-! ## A readings table and the meaning of the statements over it -/

/-- One row of `foglamp.readings` as far as purge looks at it: its rowid (which
is its `id`) and its `user_ts` in seconds. -/
structure Row where
  rowid : Nat
  userTs : Int
  deriving DecidableEq, Repr

/-- A table snapshot together with the clock. -/
structure Table where
  rows : List Row
  now : Int
  deriving DecidableEq, Repr

/-- The rows older than `age` hours. -/
def Row.older (now : Int) (age : Nat) (x : Row) : Bool :=
  decide (x.userTs < now - (age : Int) * 3600)

/-- The statements of `purgeReadings` evaluated over a `Table`. An aggregate over
no rows is NULL and is read as 0; `lastPurgedId` is taken as 0 when no row has
the rowid; the measured time of every `DELETE` is 0 and no statement fails. -/
def tableSql : Sql Table where
  selectMaxRowid t := some ((t.rows.map Row.rowid).foldl max 0)
  selectMinRowid t :=
    some (match t.rows.map Row.rowid with
      | [] => 0
      | x :: xs => xs.foldl min x)
  selectOldest t limit :=
    some (match (t.rows.filter fun x => x.rowid ≤ limit).map Row.userTs with
      | [] => 0
      | x :: xs => Int.tdiv (t.now - xs.foldl min x) 360)
  selectIdOlder t m age :=
    some (match t.rows.find? fun x => x.rowid = m && x.older t.now age with
      | some x => x.rowid
      | none => 0)
  selectId t m :=
    some (match t.rows.find? fun x => x.rowid = m with
      | some x => toInt32 x.rowid
      | none => 0)
  deleteUpTo t c :=
    (some ({ t with rows := t.rows.filter fun x => ¬ x.rowid ≤ c },
      (t.rows.filter fun x => x.rowid ≤ c).length), 0)

/-- A table whose rowids are `lo, lo+1, ..., lo+n-1`, the rows up to `lastOld`
one day old and the rest fresh; the clock reads 1000000. -/
def Table.range (lo n lastOld : Nat) : Table :=
  { rows := (List.range n).map fun i =>
      { rowid := lo + i, userTs := if lo + i ≤ lastOld then 1000000 - 86400 else 1000000 }
    now := 1000000 }

/-- The float statements replaced by exact arithmetic on the clamped ratio; used
to run the model on concrete tables. -/
def scaleExact (purgeBlockSize avg : Int) : Int :=
  if avg ≤ 0 then purgeBlockSize * 2
  else if 2 * avg < TARGET_PURGE_BLOCK_DEL_TIME then purgeBlockSize * 2
  else if avg > 2 * TARGET_PURGE_BLOCK_DEL_TIME then Int.tdiv purgeBlockSize 2
  else Int.tdiv (purgeBlockSize * TARGET_PURGE_BLOCK_DEL_TIME) avg

/-! ## Predicates used in the statements -/

/-- The rowids a snapshot of `foglamp.readings` shows to `purgeReadings`, with
`lo` read from `min(rowid)` and `hi` from `max(rowid)`: AUTOINCREMENT hands out
rowids from 1 up to the largest SQLite rowid `2 ^ 63 - 1`, so `min(rowid)` reads
0 only when the table is empty and `max(rowid)` reads 0 as well. -/
def RowidsValid (lo hi : Nat) : Prop :=
  (lo = 0 → hi = 0) ∧ hi < 2 ^ 63

/-- A block size within the bounds of lines 24-25 and on the granularity of
line 23. -/
def BlockSizeOk (b : Int) : Prop := 20 ≤ b ∧ b ≤ 1500 ∧ 5 ∣ b

/-! ## appendReadings (lines 429-580) -/

/-- An element of the `readings` array that is an object, as `appendReadings`
reads it: the C strings returned by `GetString()` for `user_ts`, `asset_code`
and `read_key` (absent when `HasMember("read_key")` is false) and the text the
rapidjson `Writer` produces for the member `reading`. An absent `user_ts`,
`asset_code` or `reading` and a member that is not a string fail an assertion
of rapidjson; the type holds the objects on which the loop body is defined. -/
structure ReadingObject where
  user_ts : String
  asset_code : String
  read_key : Option String
  reading : String
  deriving DecidableEq, Repr

/-- An element of the `readings` array. -/
inductive ReadingValue where
  | object (o : ReadingObject)
  | other
  deriving DecidableEq, Repr

/-- The payload after `doc.Parse`: not JSON, without a `readings` member, with a
`readings` member that is not an array, or with the array. -/
inductive Payload where
  | malformed
  | noReadings
  | notArray
  | readings (rs : List ReadingValue)
  deriving DecidableEq, Repr

/-- The text of line 444. -/
def INSERT_HEADER : String :=
  "INSERT INTO foglamp.readings ( user_ts, asset_code, read_key, reading ) VALUES "

/-- Lines 472-479 and 493-500: what opens a value tuple. -/
def opener (row : Nat) : String := if row ≠ 0 then ", (" else "("

/-- Lines 468-506: the handling of `user_ts`. `formatDate str` is the content of
`formatted_date` when `Connection::formatDate` returns true and `none` when it
returns false; `now` is the text of the macro `SQLITE3_NOW_READING`. The result
is the buffer and the flag `add_row`. -/
def appendUserTs (formatDate : String → Option String) (now : String) (sql : String)
    (row : Nat) (str : String) : String × Bool :=
  if str = "now()" then
    ((sql ++ opener row) ++ now, true)
  else
    match formatDate str with
    | none => (sql, false)
    | some formatted_date => ((((sql ++ opener row) ++ "'") ++ formatted_date) ++ "'", true)

/-- Lines 512-537: asset code, read key and reading of a row that is added. -/
def appendColumns (sql : String) (o : ReadingObject) : String :=
  let sql := (sql ++ ",'") ++ o.asset_code
  let sql :=
    match o.read_key with
    | some k => if k ≠ "None" then ((sql ++ "', '") ++ k) ++ "', '" else sql ++ "', NULL, '"
    | none => sql ++ "', NULL, '"
  ((sql ++ o.reading) ++ "'") ++ ")"

/-- The body of the `for` loop for an element that is an object: the buffer and
the counter `row` afterwards. -/
def appendElement (formatDate : String → Option String) (now : String) (sql : String)
    (row : Nat) (o : ReadingObject) : String × Nat :=
  match appendUserTs formatDate now sql row o.user_ts with
  | (sql, true) => (appendColumns sql o, row + 1)
  | (sql, false) => (sql, row)

/-- The `for` loop of lines 457-540; `none` is the `return -1` of line 463. -/
def appendLoop (formatDate : String → Option String) (now : String) :
    List ReadingValue → String → Nat → Option String
  | [], sql, _ => some sql
  | ReadingValue.other :: _, _, _ => none
  | ReadingValue.object o :: rest, sql, row =>
    appendLoop formatDate now rest (appendElement formatDate now sql row o).1
      (appendElement formatDate now sql row o).2

/-- The statement `appendReadings` hands to `SQLexec`, `none` when it returns -1
before building one. -/
def appendReadingsSql (formatDate : String → Option String) (now : String) :
    Payload → Option String
  | Payload.malformed => none
  | Payload.noReadings => none
  | Payload.notArray => none
  | Payload.readings rs => (appendLoop formatDate now rs INSERT_HEADER 0).map (· ++ ";")

/-- The function `Connection::appendReadings`: `exec` is `SQLexec` followed by
`sqlite3_changes`, `none` when the result code is not `SQLITE_OK`. -/
def appendReadings (formatDate : String → Option String) (now : String)
    (exec : String → Option Nat) (readings : Payload) : Int :=
  match appendReadingsSql formatDate now readings with
  | none => -1
  | some query =>
    match exec query with
    | some changes => (changes : Int)
    | none => -1

/-! ### The date validator

`Connection::formatDate` is declared in connection.h and defined outside
readings.cpp. -/

/-- Reads `n` decimal digits. -/
def takeDigits : Nat → List Char → Option (List Char)
  | 0, cs => some cs
  | _ + 1, [] => none
  | n + 1, c :: cs => if c.isDigit then takeDigits n cs else none

/-- Reads one given character. -/
def takeChar (c : Char) : List Char → Option (List Char)
  | [] => none
  | d :: cs => if d = c then some cs else none

/-- Reads the optional fraction `.f` to `.ffffff`. -/
def takeFraction : List Char → Option (List Char)
  | '.' :: c :: cs =>
    if c.isDigit then some ((cs.take 5).dropWhile Char.isDigit ++ cs.drop 5) else none
  | cs => some cs

/-- Reads the optional offset `±HH:MM` at the end of the text. -/
def takeOffset : List Char → Bool
  | [] => true
  | s :: cs =>
    (s = '+' || s = '-') &&
      ((takeDigits 2 cs).bind fun cs => (takeChar ':' cs).bind (takeDigits 2)) = some []

/-- The accepted form `YYYY-MM-DD HH:MM:SS[.ffffff][±HH:MM]`. -/
def validDate (str : String) : Bool :=
  match (((((((((((takeDigits 4 str.data).bind (takeChar '-')).bind (takeDigits 2)).bind
      (takeChar '-')).bind (takeDigits 2)).bind (takeChar ' ')).bind (takeDigits 2)).bind
      (takeChar ':')).bind (takeDigits 2)).bind (takeChar ':')).bind (takeDigits 2)).bind
      takeFraction with
  | some rest => takeOffset rest
  | none => false

/-- Modelled from the spec: `Connection::formatDate`, which readings.cpp calls
and does not define. The spec has it validate `user_ts` against the accepted
form and store the text verbatim, never rewritten: the buffer `formatted_date`
receives the text as supplied. -/
def formatDate (str : String) : Option String :=
  if validDate str then some str else none

/-! ### The value tuples, in the words of the spec -/

/-- An element gets a tuple when its `user_ts` is the literal `now()` or is
accepted by the date validator. -/
def accepted (formatDate : String → Option String) (o : ReadingObject) : Bool :=
  o.user_ts = "now()" || (formatDate o.user_ts).isSome

/-- The `user_ts` position of a tuple: the database clock for `now()`, the
quoted validated text otherwise. -/
def userTsLiteral (formatDate : String → Option String) (now : String) (o : ReadingObject) :
    String :=
  if o.user_ts = "now()" then now
  else
    match formatDate o.user_ts with
    | some d => ("'" ++ d) ++ "'"
    | none => ""

/-- The `read_key` position of a tuple: `NULL` when the reading has no read key
or its read key is the string `None`, the quoted text otherwise. -/
def readKeyLiteral : Option String → String
  | none => "NULL"
  | some k => if k = "None" then "NULL" else ("'" ++ k) ++ "'"

/-- The value tuple of an accepted element. -/
def valueTuple (formatDate : String → Option String) (now : String) (o : ReadingObject) :
    String :=
  "(" ++ (userTsLiteral formatDate now o ++ (",'" ++ (o.asset_code ++ ("', " ++
    (readKeyLiteral o.read_key ++ (", '" ++ (o.reading ++ "')")))))))

/-- What separates a tuple from the text before it. -/
def separator (row : Nat) : String := if row ≠ 0 then ", " else ""

/-- The texts of a list, each preceded by the separator `sep`. -/
def tailText (sep : String) : List String → String
  | [] => ""
  | a :: as => (sep ++ a) ++ tailText sep as

/-! ## Query documents (rapidjson values) -/

/-- A parsed JSON value as rapidjson classifies it. `int i` is a number for
which `IsInt64()` holds, an integer with `-2 ^ 63 ≤ i < 2 ^ 63`; `IsInt()` holds
for it when it is in the range of `int`. `real text` is any other number, given
by the text `SQLBuffer::append(double)` writes for its `GetDouble()`. -/
inductive Json where
  | null
  | bool (b : Bool)
  | int (i : Int)
  | real (text : String)
  | str (s : String)
  | arr (xs : List Json)
  | obj (kvs : List (String × Json))
  deriving Repr

/-- The value `FindMember` finds for a key: the first member with that name. -/
def lookup (key : String) : List (String × Json) → Option Json
  | [] => none
  | (k, v) :: rest => if k = key then some v else lookup key rest

/-- The test `HasMember(key)` on the members of an object. -/
def hasMember (key : String) (kvs : List (String × Json)) : Bool :=
  (lookup key kvs).isSome

/-- Modelled from the spec: `SQLBuffer::append` for `int` and `long`, defined
outside readings.cpp. The spec has numbers formatted in the C locale: the
number is written in decimal. -/
def decimal (i : Int) : String := toString i

/-- The two SQL buffers of `retrieveReadings`: the statement and the extra
constraints for the where clause. `SQLBuffer::append` adds text at the end and
`coalesce` returns the text. -/
structure Buffers where
  sql : String
  jsonConstraints : String
  deriving DecidableEq, Repr

/-- An append to the buffer `sql`. -/
def Buffers.append (b : Buffers) (s : String) : Buffers :=
  { b with sql := b.sql ++ s }

/-- An append to the buffer `jsonConstraints`. -/
def Buffers.constrain (b : Buffers) (s : String) : Buffers :=
  { b with jsonConstraints := b.jsonConstraints ++ s }

/-- How a function of the query compiler ends: `ok` is `return true`, `error`
is `raiseError` followed by `return false`, both with the buffers as they are
left; `undefined` is a failed assertion of rapidjson (a member that is read but
absent, `GetString()` on a value that is not a string, `HasMember` on a value
that is not an object). -/
inductive Res where
  | ok (b : Buffers)
  | error (b : Buffers)
  | undefined
  deriving DecidableEq, Repr

/-- Continues after a call that returned true. -/
def Res.andThen (r : Res) (f : Buffers → Res) : Res :=
  match r with
  | Res.ok b => f b
  | Res.error b => Res.error b
  | Res.undefined => Res.undefined

/-- The call `GetString()` on a member that is read with `operator[]`. -/
def getString (v : Option Json) (f : String → Res) : Res :=
  match v with
  | some (Json.str s) => f s
  | _ => Res.undefined

/-- What the query compiler takes from outside readings.cpp and the spec does
not spell out: the two helpers that write a date-formatted column (the one with
`localtime` is called at line 784), the expression of the Julian-day bucket of
a `timebucket` object (`none` when the object has not the shape
`{timestamp, size?, format?, alias?}`), and the default value of the argument
`convertLocaltime` of `jsonWhereClause`, declared in connection.h. -/
structure Helpers where
  applyColumnDateFormat : String → String → String
  applyColumnDateFormatLocaltime : String → String → String
  timebucket : List (String × Json) → Option String
  convertLocaltime : Bool

/-- The macro `F_DATEH24_SEC`. It is defined outside readings.cpp; line 610
spells the format out for the same column in the fetch statement. -/
def F_DATEH24_SEC : String := "%Y-%m-%d %H:%M:%S"

/-- The macro `F_DATEH24_MS`. It is defined outside readings.cpp; the comment of
lines 120-128 gives the text of the default formatting that line 151 applies
with it, and line 612 spells the same format out in the fetch statement. -/
def F_DATEH24_MS : String := "%Y-%m-%d %H:%M:%f"

/-- Lines 807-808, 833-834 and 867-868: the text for the column `user_ts` of the
readings table, with the third argument of `strftime`. -/
def userTsExpression (timezone : String) : String :=
  ("strftime('" ++ F_DATEH24_SEC ++ "', user_ts, '" ++ timezone ++ "') ") ++
    " || substr(user_ts, instr(user_ts, '.'), 7) "

/-! ## The query compiler, from the spec

`retrieveReadings` and `deleteRows` call `jsonWhereClause`, `jsonAggregates`,
`jsonModifiers` and `returnJson`. The text of these four functions in
readings.cpp (lines 1339-2198) stands between `#ifdef AAAA` and `#endif`, `AAAA`
is defined nowhere, and the functions that are compiled are defined outside
src/. They are modelled here from sections 4.2 and 7 of the spec: a document
that violates the shape of section 4.2 makes the function return false. Where
the spec names a text and does not spell out its blanks, the model writes
single blanks. -/

/-- Modelled from the spec: `Connection::escape`, which is not defined under
src/. The spec has the strings of a where clause escaped by doubling single
quotes. -/
def escape (s : String) : String :=
  String.mk (s.data.flatMap fun c => if c = Char.ofNat 39 then [c, c] else [c])

/-- Modelled from the spec: the scalars of a where clause (part of
`jsonWhereClause`). The spec has the value of a comparison and the elements of
an `in` list be an integer, a double or a string. -/
def isScalar : Json → Bool
  | Json.int _ => true
  | Json.real _ => true
  | Json.str _ => true
  | _ => false

/-- Modelled from the spec: the text of a scalar (part of `jsonWhereClause`). The
spec has numbers formatted in the C locale and strings single-quoted, with
embedded quotes doubled. -/
def scalarText : Json → String
  | Json.int i => decimal i
  | Json.real text => text
  | Json.str s => ("'" ++ escape s) ++ "'"
  | _ => ""

/-- Modelled from the spec: the comparison conditions of a where clause (part of
`jsonWhereClause`), as the spec enumerates them. -/
def comparisons : List String := ["=", "!=", "<", "<=", ">", ">="]

/-- Modelled from the spec: the text of `older` and `newer` (part of
`jsonWhereClause`). The spec has them compiled to
`< datetime('now', '-N seconds' [,'localtime'])` and to the same with `>`. -/
def ageText (convertLocaltime : Bool) (op : String) (n : Int) : String :=
  (((op ++ " datetime('now', '-") ++ decimal n) ++ " seconds'") ++
    (if convertLocaltime then ", 'localtime')" else ")")

/-- Modelled from the spec: the list of `in` and `not in` (part of
`jsonWhereClause`): the elements in input order, between parentheses. -/
def inListText (vs : List Json) : String :=
  ("( " ++ ", ".intercalate (vs.map scalarText)) ++ " )"

/-- Modelled from the spec: the condition and the value of a where object (part
of `jsonWhereClause`). The spec enumerates the conditions: a comparison takes a
scalar, `older` and `newer` an integer, `in` and `not in` a non-empty array of
scalars; anything else violates the shape. -/
def conditionText (convertLocaltime : Bool) (cond : String) (value : Json) : Option String :=
  if cond ∈ comparisons then
    if isScalar value then some ((cond ++ " ") ++ scalarText value) else none
  else if cond = "older" then
    match value with
    | Json.int n => some (ageText convertLocaltime "<" n)
    | _ => none
  else if cond = "newer" then
    match value with
    | Json.int n => some (ageText convertLocaltime ">" n)
    | _ => none
  else if cond = "in" ∨ cond = "not in" then
    match value with
    | Json.arr vs =>
      if vs.isEmpty = false ∧ vs.all isScalar = true then some ((cond ++ " ") ++ inListText vs)
      else none
    | _ => none
  else none

/-- Modelled from the spec: the text of the condition of one where object
`{column, condition, value}` (part of `jsonWhereClause`), `none` when a member
is missing or has the wrong type. -/
def whereLeaf (convertLocaltime : Bool) (kvs : List (String × Json)) : Option String :=
  match lookup "column" kvs, lookup "condition" kvs, lookup "value" kvs with
  | some (Json.str column), some (Json.str cond), some value =>
    (conditionText convertLocaltime cond value).map fun t => (column ++ " ") ++ t
  | _, _, _ => none

/-- Modelled from the spec: the pieces of the text that `jsonWhereClause`
writes: the text of a condition, the two connectives and the two
parentheses. -/
inductive Token where
  | leaf (text : String)
  | and
  | or
  | opening
  | closing
  deriving DecidableEq, Repr

mutual
/-- Modelled from the spec: the pieces of the text of a where tree (part of
`jsonWhereClause`). The spec has `and` and `or` hold a nested clause, read from
left to right, and has the compiler emit parentheses matching the tree: the
condition of the object, then `AND` and the nested clause of `and` between
parentheses, then `OR` and the nested clause of `or` between parentheses. -/
def whereTokens (convertLocaltime : Bool) : Json → Option (List Token)
  | Json.obj kvs =>
    match whereLeaf convertLocaltime kvs,
      memberTokens convertLocaltime Token.and "and" kvs,
      memberTokens convertLocaltime Token.or "or" kvs with
    | some text, some conj, some disj => some (Token.leaf text :: (conj ++ disj))
    | _, _, _ => none
  | _ => none
/-- Modelled from the spec: the connective and the parenthesised pieces of the
member `key` of a where object, when there is one (part of
`jsonWhereClause`). -/
def memberTokens (convertLocaltime : Bool) (connective : Token) (key : String) :
    List (String × Json) → Option (List Token)
  | [] => some []
  | (k, v) :: rest =>
    if k = key then
      match whereTokens convertLocaltime v with
      | some ts => some (connective :: Token.opening :: (ts ++ [Token.closing]))
      | none => none
    else memberTokens convertLocaltime connective key rest
end

/-- Modelled from the spec: the text of a sequence of pieces (part of
`jsonWhereClause`); the connectives are written ` AND ` and ` OR `. -/
def renderTokens : List Token → String
  | [] => ""
  | Token.leaf text :: rest => text ++ renderTokens rest
  | Token.and :: rest => " AND " ++ renderTokens rest
  | Token.or :: rest => " OR " ++ renderTokens rest
  | Token.opening :: rest => "(" ++ renderTokens rest
  | Token.closing :: rest => ")" ++ renderTokens rest

/-- Modelled from the spec: `Connection::jsonWhereClause`, whose compiled text is
not under src/. The spec has it append the text of the where tree to the
statement and return true, and return false for a tree that violates the
shape. -/
def jsonWhereClause (_ : Helpers) (convertLocaltime : Bool) (whereClause : Json)
    (b : Buffers) : Res :=
  match whereTokens convertLocaltime whereClause with
  | some ts => Res.ok (b.append (renderTokens ts))
  | none => Res.error b

/-- Modelled from the spec: the strings of an array of `properties` (part of
`returnJson` and `jsonAggregates`), `none` when an element is not a string. -/
def propertyNames : List Json → Option (List String)
  | [] => some []
  | Json.str p :: rest => (propertyNames rest).map fun ps => p :: ps
  | _ :: _ => none

/-- Modelled from the spec: the path `$.p1.p2…` of a `properties` member, a
string or an array of strings (part of `returnJson` and `jsonAggregates`). -/
def jsonPath : Json → Option String
  | Json.str p => some ("$." ++ p)
  | Json.arr ps => (propertyNames ps).map fun names => "$." ++ ".".intercalate names
  | _ => none

/-- Modelled from the spec: the two texts of a target `{column, properties}`
(part of `returnJson` and `jsonAggregates`). The spec has it compile to
`json_extract(column, '$.p1.p2…')` with the companion
`json_type(column, '$.p1.p2…') IS NOT NULL`. -/
def jsonTarget : Json → Option (String × String)
  | Json.obj kvs =>
    match lookup "column" kvs, lookup "properties" kvs with
    | some (Json.str column), some properties =>
      (jsonPath properties).map fun path =>
        (((("json_extract(" ++ column) ++ ", '") ++ path) ++ "')",
          ((("json_type(" ++ column) ++ ", '") ++ path) ++ "') IS NOT NULL")
    | _, _ => none
  | _ => none

/-- Modelled from the spec: one more conjunct in the buffer of the extra
constraints (part of `returnJson` and `jsonAggregates`); the conjuncts are
joined by ` AND `. -/
def Buffers.conjoin (b : Buffers) (constraint : String) : Buffers :=
  if b.jsonConstraints ≠ "" then b.constrain (" AND " ++ constraint) else b.constrain constraint

/-- Modelled from the spec: `Connection::returnJson`, whose compiled text is not
under src/. The expression goes to the statement and the companion to the extra
constraints. -/
def returnJson (json : Json) (b : Buffers) : Res :=
  match jsonTarget json with
  | some target => Res.ok ((b.append target.1).conjoin target.2)
  | none => Res.error b

/-- Modelled from the spec: the argument of an aggregate over a column (part of
`jsonAggregates`). The spec has `*` compiled to `ROWID` and, for the readings
table, `user_ts` replaced by its formatted expression. -/
def aggregateArgument (isTableReading : Bool) (col : String) : String :=
  if col = "*" then "ROWID"
  else if isTableReading ∧ col = "user_ts" then userTsExpression "localtime"
  else col

/-- Modelled from the spec: the alias of an aggregate (part of `jsonAggregates`):
the member `alias` when there is one, `fallback` otherwise. -/
def aggregateAlias (kvs : List (String × Json)) (fallback : String) : Option String :=
  match lookup "alias" kvs with
  | none => some fallback
  | some (Json.str a) => some ((" AS \"" ++ a) ++ "\"")
  | some _ => none

/-- Modelled from the spec: one aggregate `{operation, column | json, alias?}`
(part of `jsonAggregates`): its select item and, for a `json` target, the
companion constraint. Scenario 3 of section 8 names the result column of
`count` over `*` without alias `count_*`: the alias of a column target
defaults to the operation, an underscore and the column as written. The spec
gives no default for a `json` target: the model writes no alias then. -/
def aggregateItem (isTableReading : Bool) : Json → Option (String × Option String)
  | Json.obj kvs =>
    match lookup "operation" kvs with
    | some (Json.str op) =>
      match lookup "column" kvs with
      | some (Json.str c) =>
        (aggregateAlias kvs ((((" AS \"" ++ op) ++ "_") ++ c) ++ "\"")).map fun a =>
          ((((op ++ "(") ++ aggregateArgument isTableReading c) ++ ")") ++ a, none)
      | some _ => none
      | none =>
        match (lookup "json" kvs).bind jsonTarget, aggregateAlias kvs "" with
        | some target, some a => some ((((op ++ "(") ++ target.1) ++ ")") ++ a, some target.2)
        | _, _ => none
    | _ => none
  | _ => none

/-- Modelled from the spec: the aggregates of an array, in order (part of
`jsonAggregates`). -/
def aggregateItems (isTableReading : Bool) : List Json → Option (List (String × Option String))
  | [] => some []
  | v :: rest =>
    match aggregateItem isTableReading v, aggregateItems isTableReading rest with
    | some item, some items => some (item :: items)
    | _, _ => none

/-- Modelled from the spec: the companion constraints of the items, in order
(part of `jsonAggregates`). -/
def Buffers.conjoinAll (b : Buffers) : List (Option String) → Buffers
  | [] => b
  | some c :: rest => (b.conjoin c).conjoinAll rest
  | none :: rest => b.conjoinAll rest

/-- Modelled from the spec: `Connection::jsonAggregates`, whose compiled text is
not under src/, with the members of the payload and the value of its member
`aggregate`: one aggregate or an array of them, the select items separated by
a comma. The spec gives the other members of the payload no part in the select
list. -/
def jsonAggregates (_ : Helpers) (_ : List (String × Json)) (aggregates : Json)
    (b : Buffers) (isTableReading : Bool) : Res :=
  match aggregates with
  | Json.arr xs =>
    match aggregateItems isTableReading xs with
    | some items =>
      Res.ok ((b.append (", ".intercalate (items.map Prod.fst))).conjoinAll (items.map Prod.snd))
    | none => Res.error b
  | single =>
    match aggregateItem isTableReading single with
    | some item => Res.ok ((b.append item.1).conjoinAll [item.2])
    | none => Res.error b

/-- Modelled from the spec: the grouping expression of a `group` member, a
string or `{column, format?, alias?}` (part of `jsonModifiers`): the column, or
the date-formatted column when there is a `format`. -/
def groupExpression (H : Helpers) : Json → Option String
  | Json.str c => some c
  | Json.obj grp =>
    match lookup "column" grp, lookup "format" grp with
    | some (Json.str c), none => some c
    | some (Json.str c), some (Json.str format) => some (H.applyColumnDateFormat format c)
    | _, _ => none
  | _ => none

/-- Modelled from the spec: the `GROUP BY` of the member `group` (part of
`jsonModifiers`). -/
def modifiersGroup (H : Helpers) (payload : List (String × Json)) (b : Buffers) : Res :=
  match lookup "group" payload with
  | none => Res.ok b
  | some group =>
    match groupExpression H group with
    | some e => Res.ok ((b.append " GROUP BY ").append e)
    | none => Res.error b

/-- Modelled from the spec: one sort column `{column, direction?}` (part of
`jsonModifiers`); the default direction is ascending. -/
def sortColumn : Json → Option String
  | Json.obj s =>
    match lookup "column" s, lookup "direction" s with
    | some (Json.str c), none => some (c ++ " ASC")
    | some (Json.str c), some (Json.str direction) => some ((c ++ " ") ++ direction)
    | _, _ => none
  | _ => none

/-- Modelled from the spec: the sort columns of an array, in order (part of
`jsonModifiers`). -/
def sortColumns : List Json → Option (List String)
  | [] => some []
  | v :: rest =>
    match sortColumn v, sortColumns rest with
    | some t, some ts => some (t :: ts)
    | _, _ => none

/-- Modelled from the spec: the `ORDER BY` of the member `sort`, one sort column
or an array of them (part of `jsonModifiers`). -/
def modifiersSort (payload : List (String × Json)) (b : Buffers) : Res :=
  match lookup "sort" payload with
  | none => Res.ok b
  | some (Json.arr xs) =>
    match sortColumns xs with
    | some ts => Res.ok ((b.append " ORDER BY ").append (", ".intercalate ts))
    | none => Res.error b
  | some single =>
    match sortColumn single with
    | some t => Res.ok ((b.append " ORDER BY ").append t)
    | none => Res.error b

/-- Modelled from the spec: the member `timebucket` groups and orders by the
bucket (part of `jsonModifiers`); after a `group` the bucket is one more
grouping expression. -/
def modifiersTimebucket (H : Helpers) (payload : List (String × Json)) (b : Buffers) : Res :=
  match lookup "timebucket" payload with
  | none => Res.ok b
  | some (Json.obj tb) =>
    match H.timebucket tb with
    | some e =>
      Res.ok ((((if hasMember "group" payload then b.append ", " else b.append " GROUP BY ").append
        e).append " ORDER BY ").append e)
    | none => Res.error b
  | some _ => Res.error b

/-- Modelled from the spec: the `LIMIT` of the member `limit` (part of
`jsonModifiers`). The spec has numeric values validated by type: an integer is
written as it is, a value of another type violates the shape. -/
def modifiersLimit (payload : List (String × Json)) (b : Buffers) : Res :=
  match lookup "limit" payload with
  | none => Res.ok b
  | some (Json.int n) => Res.ok ((b.append " LIMIT ").append (decimal n))
  | some _ => Res.error b

/-- Modelled from the spec: the `OFFSET` of the member `skip` (part of
`jsonModifiers`), an integer, validated by type as `limit` is. Without a `limit`
the sentinel of an unbounded limit is emitted first; the spec does not spell
the sentinel out, and the model writes the one of SQLite, a negative limit:
`LIMIT -1`. -/
def modifiersSkip (payload : List (String × Json)) (b : Buffers) : Res :=
  match lookup "skip" payload with
  | none => Res.ok b
  | some (Json.int s) =>
    Res.ok (((if hasMember "limit" payload then b else b.append " LIMIT -1").append
      " OFFSET ").append (decimal s))
  | some _ => Res.error b

/-- Modelled from the spec: the modifiers before `limit` and `skip` (part of
`jsonModifiers`). The spec has `timebucket` and `sort` exclude each other and
the clauses in the order `GROUP BY`, `ORDER BY`. -/
def modifiersBeforeLimit (H : Helpers) (payload : List (String × Json)) (b : Buffers) : Res :=
  if hasMember "timebucket" payload ∧ hasMember "sort" payload then Res.error b
  else
    (modifiersGroup H payload b).andThen fun b =>
      (modifiersSort payload b).andThen fun b => modifiersTimebucket H payload b

/-- Modelled from the spec: `Connection::jsonModifiers`, whose compiled text is
not under src/, with the members of the payload: the clauses in the order
`GROUP BY`, `ORDER BY`, `LIMIT`, `OFFSET`. -/
def jsonModifiers (H : Helpers) (payload : List (String × Json)) (b : Buffers) : Res :=
  if hasMember "timebucket" payload ∧ hasMember "sort" payload then Res.error b
  else
    (modifiersGroup H payload b).andThen fun b =>
      (modifiersSort payload b).andThen fun b =>
        (modifiersTimebucket H payload b).andThen fun b =>
          (modifiersLimit payload b).andThen fun b => modifiersSkip payload b

/-! ## retrieveReadings (lines 671-1012) -/

/-- The text of lines 689-698, appended for an empty condition. -/
def SELECT_ALL : String :=
  "\n\t\t\t\t\tSELECT\n\t\t\t\t\t\tid,\n\t\t\t\t\t\tasset_code,\n\t\t\t\t\t\tread_key,\n\t\t\t\t\t\treading,\n\t\t\t\t\t\tstrftime('" ++
    F_DATEH24_SEC ++
    "', user_ts, 'localtime')  ||\n\t\t\t\t\t\tsubstr(user_ts, instr(user_ts, '.'), 7) AS user_ts,\n\t\t\t\t\t\tstrftime('" ++
    F_DATEH24_MS ++
    "', ts, 'localtime') AS ts\n\t\t\t\t\tFROM foglamp.readings"

/-- The text of lines 922-930, appended when the payload has neither `aggregate` nor `return`. -/
def DEFAULT_COLUMNS : String :=
  "\n\t\t\t\t\t\tid,\n\t\t\t\t\t\tasset_code,\n\t\t\t\t\t\tread_key,\n\t\t\t\t\t\treading,\n\t\t\t\t\t\tstrftime('" ++
    F_DATEH24_SEC ++
    "', user_ts, 'localtime')  ||\n\t\t\t\t\t\tsubstr(user_ts, instr(user_ts, '.'), 7) AS user_ts,\n\t\t\t\t\t\tstrftime('" ++
    F_DATEH24_MS ++
    "', ts, 'localtime') AS ts\n\t\t\t\t\tFROM foglamp."

/-- The condition string of `retrieveReadings` after the test `empty()` and
`document.Parse`: the empty string, a string that is not JSON, or the parsed
document. -/
inductive Condition where
  | empty
  | malformed
  | document (j : Json)

/-- The test `strncasecmp(tz, name, n) == 0` with `n` the length of `name`: the
first `n` characters of `tz`, in lower case, are `name`. -/
def startsWithNoCase (tz name : String) : Bool :=
  (tz.data.take name.length).map Char.toLower = name.data

/-- Lines 803-825, 829-851 and 863-885: the date column of a `return` object,
with the third argument of `strftime`; `hasAlias` is `HasMember("alias")`. -/
def dateColumn (timezone column : String) (hasAlias : Bool) (b : Buffers) : Buffers :=
  let b :=
    if column = "user_ts" then b.append (userTsExpression timezone)
    else ((b.append ("strftime('" ++ F_DATEH24_MS ++ "', ")).append column).append
      (", '" ++ timezone ++ "')")
  if ¬ hasAlias then (b.append " AS ").append column else b

/-- Lines 765-888: a `return` object with the member `column`. -/
def returnColumn (H : Helpers) (e : List (String × Json)) (b : Buffers) : Res :=
  match lookup "column" e with
  | some (Json.str column) =>
    (if hasMember "format" e then
      match lookup "format" e with
      | some (Json.str format) => Res.ok (b.append (H.applyColumnDateFormatLocaltime format column))
      | _ => Res.error b
    else if hasMember "timezone" e then
      match lookup "timezone" e with
      | some (Json.str tz) =>
        if startsWithNoCase tz "utc" then Res.ok (dateColumn "utc" column (hasMember "alias" e) b)
        else if startsWithNoCase tz "localtime" then
          Res.ok (dateColumn "localtime" column (hasMember "alias" e) b)
        else Res.error b
      | _ => Res.error b
    else Res.ok (dateColumn "localtime" column (hasMember "alias" e) b)).andThen fun b =>
      Res.ok (b.append " ")
  | _ => Res.error b

/-- Lines 741-909: one element of the `return` array; `col` counts the elements
already written. -/
def returnElement (H : Helpers) (col : Nat) (v : Json) (b : Buffers) : Res :=
  let b := if col ≠ 0 then b.append ", " else b
  match v with
  | Json.obj e =>
    (if hasMember "column" e then returnColumn H e b
    else
      match lookup "json" e with
      | some json => returnJson json b
      | none => Res.error b).andThen fun b =>
      if hasMember "alias" e then
        getString (lookup "alias" e) fun a => Res.ok (((b.append " AS \"").append a).append "\"")
      else Res.ok b
  | other =>
    getString (some other) fun s =>
      if s = "user_ts" then
        Res.ok (((b.append (" strftime('" ++ F_DATEH24_SEC ++ "', user_ts, 'localtime') ")).append
          " || substr(user_ts, instr(user_ts, '.'), 7) ").append " as  user_ts ")
      else if s = "ts" then
        Res.ok ((b.append (" strftime('" ++ F_DATEH24_MS ++ "', ts, 'localtime') ")).append
          " as ts ")
      else Res.ok (b.append s)

/-- The loop of lines 739-910. -/
def returnLoop (H : Helpers) : List Json → Nat → Buffers → Res
  | [], _, b => Res.ok b
  | v :: rest, col, b =>
    match returnElement H col v b with
    | Res.ok b => returnLoop H rest (col + 1) b
    | r => r

/-- Lines 713-717, 734-738 and 916-920: the member `modifier` after `SELECT`. -/
def selectModifier (payload : List (String × Json)) (b : Buffers) : Res :=
  if hasMember "modifier" payload then
    getString (lookup "modifier" payload) fun m => Res.ok ((b.append m).append " ")
  else Res.ok b

/-- Lines 709-933: the statement up to `FROM foglamp.`. -/
def selectSection (H : Helpers) (payload : List (String × Json)) (b : Buffers) : Res :=
  match lookup "aggregate" payload with
  | some aggregate =>
    (selectModifier payload (b.append "SELECT ")).andThen fun b =>
      (jsonAggregates H payload aggregate b true).andThen fun b =>
        Res.ok (b.append " FROM foglamp.")
  | none =>
    match lookup "return" payload with
    | some (Json.arr columns) =>
      (selectModifier payload (b.append "SELECT ")).andThen fun b =>
        (returnLoop H columns 0 b).andThen fun b => Res.ok (b.append " FROM foglamp.")
    | some _ => Res.error b
    | none =>
      (selectModifier payload (b.append "SELECT ")).andThen fun b =>
        Res.ok (b.append DEFAULT_COLUMNS)

/-- Lines 935-967: what follows the table name, up to the modifiers;
`isAggregate` is the flag of line 711. -/
def whereSection (H : Helpers) (payload : List (String × Json)) (isAggregate : Bool)
    (b : Buffers) : Res :=
  match lookup "where" payload with
  | some whereClause =>
    (jsonWhereClause H H.convertLocaltime whereClause (b.append " WHERE ")).andThen fun b =>
      if b.jsonConstraints ≠ "" then Res.ok ((b.append " AND ").append b.jsonConstraints)
      else Res.ok b
  | none =>
    if isAggregate then Res.ok (b.append " WHERE asset_code = asset_code") else Res.ok b

/-- The statement `retrieveReadings` hands to `sqlite3_prepare_v2`, in the buffer
`sql` of an `ok` result; with any other result no statement is prepared. The
database handle is taken to be open. -/
def retrieveReadingsSql (H : Helpers) (condition : Condition) : Res :=
  match condition with
  | Condition.empty => Res.ok (((Buffers.mk "" "").append SELECT_ALL).append ";")
  | Condition.malformed => Res.error (Buffers.mk "" "")
  | Condition.document (Json.obj payload) =>
    (selectSection H payload (Buffers.mk "" "")).andThen fun b =>
      (whereSection H payload (hasMember "aggregate" payload) (b.append "readings")).andThen fun b =>
        (jsonModifiers H payload b).andThen fun b => Res.ok (b.append ";")
  | Condition.document _ => Res.undefined

/-! ## fetchReadings (lines 594-663) -/

/-- The format `sql_cmd` of lines 604-617. -/
def FETCH_SQL_CMD : String :=
  "\n\tSELECT\n\t\tid,\n\t\tasset_code,\n\t\tread_key,\n\t\treading,\n\t\tstrftime('%%Y-%%m-%%d %%H:%%M:%%S', user_ts, 'utc')  ||\n\t\tsubstr(user_ts, instr(user_ts, '.'), 7) AS user_ts,\n\t\tstrftime('%%Y-%%m-%%d %%H:%%M:%%f', ts, 'utc') AS ts\n\tFROM foglamp.readings\n\tWHERE id >= %lu\n\tORDER BY id ASC\n\tLIMIT %u;\n\t"

/-- The conversions of `snprintf` that the format uses: `%%` writes a percent
sign, `%lu` the next argument as an `unsigned long` and `%u` the next argument
as an `unsigned int`, in decimal. -/
def formatC : List Char → List Nat → List Char
  | '%' :: '%' :: rest, args => '%' :: formatC rest args
  | '%' :: 'l' :: 'u' :: rest, a :: args => (toString (a % U64)).data ++ formatC rest args
  | '%' :: 'u' :: rest, a :: args => (toString (a % U32)).data ++ formatC rest args
  | c :: rest, args => c :: formatC rest args
  | [], _ => []

/-- The call `snprintf(buffer, size, format, args...)`: at most `size - 1`
characters are stored. -/
def snprintf (size : Nat) (format : String) (args : List Nat) : String :=
  String.mk ((formatC format.data args).take (size - 1))

/-- The statement `fetchReadings` builds in `sqlbuffer` for the id `id` and the
block size `blksize`. -/
def fetchReadingsSql (id blksize : Nat) : String :=
  snprintf 512 FETCH_SQL_CMD [id, blksize]

/-- The statement of `fetchReadings` before the id, with the conversions `%%`
done. -/
def FETCH_HEAD : String :=
  "\n\tSELECT\n\t\tid,\n\t\tasset_code,\n\t\tread_key,\n\t\treading,\n\t\tstrftime('%Y-%m-%d %H:%M:%S', user_ts, 'utc')  ||\n\t\tsubstr(user_ts, instr(user_ts, '.'), 7) AS user_ts,\n\t\tstrftime('%Y-%m-%d %H:%M:%f', ts, 'utc') AS ts\n\tFROM foglamp.readings\n\tWHERE id >= "

/-- A row of the readings table as the fetch statement sees it: its `id`, the
primary key. -/
structure ReadingRow where
  id : Nat
  asset_code : String
  deriving DecidableEq, Repr

/-- The relational meaning of `SELECT ... FROM foglamp.readings WHERE id >= k
ORDER BY id ASC LIMIT n` over the rows of the table. -/
def selectFromId (rows : List ReadingRow) (k n : Nat) : List ReadingRow :=
  ((rows.filter fun r => decide (k ≤ r.id)).insertionSort fun a b => a.id ≤ b.id).take n

/-- The words of a statement: its maximal runs of characters other than
white space. Two statements are equal up to white space when they have the
same words. -/
def sqlWords (s : String) : List String :=
  ((s.data.splitOnP Char.isWhitespace).filter fun w => w ≠ []).map String.mk

/-- The statement that is prepared: the buffer `sql` of an `ok` result, and
none when the function returned false or stopped on an assertion. -/
def Res.statement : Res → Option String
  | Res.ok b => some b.sql
  | _ => none

/-- A word of a statement with the keyword `AS` in upper case, so that
statements can be compared up to the case of that keyword. -/
def normalizeKeyword (w : String) : String :=
  if w.data.map Char.toLower = ['a', 's'] then "AS" else w

/-- Helpers to run the compiler on concrete payloads: the column date formats as
a plain `strftime` call, the bucket as the Julian day of the member
`timestamp`, and `convertLocaltime` false. -/
def sampleHelpers : Helpers where
  applyColumnDateFormat format column := "strftime('" ++ format ++ "', " ++ column ++ ")"
  applyColumnDateFormatLocaltime format column :=
    "strftime('" ++ format ++ "', " ++ column ++ ", 'localtime')"
  timebucket tb :=
    match lookup "timestamp" tb with
    | some (Json.str timestamp) => some ("julianday(" ++ timestamp ++ ")")
    | _ => none
  convertLocaltime := false

/-! ### The tree of a where clause and the reading of its text -/

/-- The tagged tree of a where clause, as the design notes of the spec name it:
a condition, a conjunction or a disjunction. -/
inductive Where where
  | leaf (text : String)
  | and (l r : Where)
  | or (l r : Where)
  deriving DecidableEq, Repr

mutual
/-- The tree a where document denotes by its nesting, read from left to right:
the condition of the object, in conjunction with the tree of its member `and`,
the whole in disjunction with the tree of its member `or`. -/
def whereTree (convertLocaltime : Bool) : Json → Option Where
  | Json.obj kvs =>
    match whereLeaf convertLocaltime kvs with
    | some text =>
      match memberTree convertLocaltime Where.and "and" kvs (Where.leaf text) with
      | some conj => memberTree convertLocaltime Where.or "or" kvs conj
      | none => none
    | none => none
  | _ => none
/-- The tree `left` combined with the tree of the member `key`, when there is
one. -/
def memberTree (convertLocaltime : Bool) (combine : Where → Where → Where) (key : String) :
    List (String × Json) → Where → Option Where
  | [], left => some left
  | (k, v) :: rest, left =>
    if k = key then
      match whereTree convertLocaltime v with
      | some t => some (combine left t)
      | none => none
    else memberTree convertLocaltime combine key rest left
end

mutual
/-- A disjunction read from the start of the pieces, with the precedence of SQL:
`AND` binds tighter than `OR`, both associate to the left, parentheses group.
The result is the tree and the pieces that follow it. -/
def readExpr : Nat → List Token → Option (Where × List Token)
  | 0, _ => none
  | fuel + 1, ts =>
    match readTerm fuel ts with
    | some (t, rest) => readOrs fuel t rest
    | none => none
/-- The further operands of a disjunction whose left part is `left`. -/
def readOrs : Nat → Where → List Token → Option (Where × List Token)
  | 0, _, _ => none
  | fuel + 1, left, Token.or :: ts =>
    match readTerm fuel ts with
    | some (t, rest) => readOrs fuel (Where.or left t) rest
    | none => none
  | _ + 1, left, ts => some (left, ts)
/-- A conjunction read from the start of the pieces. -/
def readTerm : Nat → List Token → Option (Where × List Token)
  | 0, _ => none
  | fuel + 1, ts =>
    match readAtom fuel ts with
    | some (a, rest) => readAnds fuel a rest
    | none => none
/-- The further operands of a conjunction whose left part is `left`. -/
def readAnds : Nat → Where → List Token → Option (Where × List Token)
  | 0, _, _ => none
  | fuel + 1, left, Token.and :: ts =>
    match readAtom fuel ts with
    | some (a, rest) => readAnds fuel (Where.and left a) rest
    | none => none
  | _ + 1, left, ts => some (left, ts)
/-- A condition or a parenthesised disjunction. -/
def readAtom : Nat → List Token → Option (Where × List Token)
  | 0, _ => none
  | _ + 1, Token.leaf text :: ts => some (Where.leaf text, ts)
  | fuel + 1, Token.opening :: ts =>
    match readExpr fuel ts with
    | some (e, Token.closing :: rest) => some (e, rest)
    | _ => none
  | _ + 1, _ => none
end

/-- The text is not empty and its last character is not the letter `e`, the
last character of the index hint. -/
def EndsSafe (t : String) : Prop := ∃ (u : List Char) (c : Char), t.data = u ++ [c] ∧ c ≠ 'e'

/-- A condition `column = value` with further members, as a where object. -/
def equalsCondition (column : String) (value : Int) (more : List (String × Json)) : Json :=
  Json.obj
    (("column", Json.str column) :: ("condition", Json.str "=") :: ("value", Json.int value) ::
      more)

/-- The where tree `a = 1` with `and` = (`b = 2` with `or` = `c = 3`). -/
def nestedOrTree : Json :=
  equalsCondition "a" 1 [("and", equalsCondition "b" 2 [("or", equalsCondition "c" 3 [])])]

/-- The where tree `a = 1` with `and` = `b = 2` and `or` = `c = 3`. -/
def siblingOrTree : Json :=
  equalsCondition "a" 1 [("and", equalsCondition "b" 2 []), ("or", equalsCondition "c" 3 [])]

/-- The where leaf `id in ( 1, 'a''b' )`. -/
def idInList : List (String × Json) :=
  [("column", Json.str "id"), ("condition", Json.str "in"),
    ("value", Json.arr [Json.int 1, Json.str "a'b"])]

/-- The aggregate `count` over `*`, without alias. -/
def countStar : List (String × Json) :=
  [("operation", Json.str "count"), ("column", Json.str "*")]

/-- A payload with a time bucket on `user_ts` and a sort on `id`. -/
def bucketAndSort : List (String × Json) :=
  [("timebucket", Json.obj [("timestamp", Json.str "user_ts")]),
    ("sort", Json.obj [("column", Json.str "id")])]

/-- The value of `purgeBlockSize` read at line 1233 by each block of the delete
loop, in order: one for each `DELETE` statement of `deleteLoop`. -/
def deleteLoopSizes {σ : Type} (ops : Sql σ) (scale : Int → Int → Int) (rowidLimit : Nat) :
    Nat → σ → Nat → Ctl → List Int
  | 0, _, _, _ => []
  | fuel + 1, s, rowidMin, c =>
    if rowidMin < rowidLimit then
      let rowidMin := (rowidMin + toU64 c.purgeBlockSize) % U64
      let rowidMin := if rowidMin > rowidLimit then rowidLimit else rowidMin
      match ops.deleteUpTo s rowidMin with
      | (none, _) => [c.purgeBlockSize]
      | (some (s1, _), usecs) =>
        c.purgeBlockSize ::
          deleteLoopSizes ops scale rowidLimit fuel s1 rowidMin (afterBlock scale c usecs)
    else []

/-! ## mapResultSet (lines 215-348) -/

/-- The value of `sqlite3_column_type` for a column of a row; `blob` stands for
every type the `switch` leaves to its `default`. -/
inductive ColumnType where
  | null
  | text
  | integer
  | float
  | blob
  deriving DecidableEq, Repr

/-- A column of a row of the result set: its name, its type, the text
`sqlite3_column_text` returns for it (`none` is NULL) and the text that
`applyColumnDateTimeFormat` leaves in `newDate` when it returns true (`none`
when it returns false). -/
structure Column where
  name : String
  type : ColumnType
  text : Option String
  newDate : Option String

/-- What `mapResultSet` takes from libraries: `parse` is rapidjson's
`Document::Parse` (`none` when `HasParseError()`), `atol` and `atof` are the C
functions, `atof` giving the double by the text the writer prints for it. -/
structure Library where
  parse : String → Option Json
  atol : String → Int
  atof : String → String

/-- The test `IsNumber()`. -/
def Json.isNumber : Json → Bool
  | Json.int _ => true
  | Json.real _ => true
  | _ => false

/-- The test for an object or an array, the structured values. -/
def Json.isStructured : Json → Bool
  | Json.obj _ => true
  | Json.arr _ => true
  | _ => false

/-- Lines 274-286: the value for a text `str` of a `SQLITE3_TEXT` column. -/
def mapText (L : Library) (str : String) : Json :=
  match L.parse str with
  | some d => if d.isNumber then Json.str str else d
  | none => Json.str str

/-- Lines 252-321: the value added to the row for a column. -/
def mapColumn (L : Library) (col : Column) : Json :=
  match col.type with
  | ColumnType.null => Json.str ""
  | ColumnType.text =>
    mapText L (match col.newDate with
      | some newDate => newDate
      | none => col.text.getD "")
  | ColumnType.integer => Json.int (L.atol (col.text.getD ""))
  | ColumnType.float => Json.real (L.atof (col.text.getD ""))
  | ColumnType.blob => Json.str (col.text.getD "")

/-- Lines 237-330: the object of a row, a member for each column. -/
def mapRow (L : Library) (row : List Column) : Json :=
  Json.obj (row.map fun col => (col.name, mapColumn L col))

/-- The document `mapResultSet` writes for the rows that `SQLstep` returned:
the members `count` and `rows`. -/
def mapResultSet (L : Library) (rows : List (List Column)) : Json :=
  Json.obj [("count", Json.int (toInt32 rows.length)), ("rows", Json.arr (rows.map (mapRow L)))]

/-- The values rapidjson gives for the texts of the examples, and the C
conversions of the numerals of the examples; every other text is left as one
that does not parse. -/
def sampleLibrary : Library where
  parse s :=
    if s = "true" then some (Json.bool true)
    else if s = "false" then some (Json.bool false)
    else if s = "null" then some Json.null
    else if s = "\"abc\"" then some (Json.str "abc")
    else if s = "42" then some (Json.int 42)
    else if s = "1.5" then some (Json.real "1.5")
    else if s = "[]" then some (Json.arr [])
    else if s = "\x7b\"a\":1\x7d" then some (Json.obj [("a", Json.int 1)])
    else none
  atol s := if s = "42" then 42 else 0
  atof s := s

/-- A text column that is not reformatted as a date. -/
def textColumn (name str : String) : Column :=
  { name := name, type := ColumnType.text, text := some str, newDate := none }

/-! ## The writers counter (lines 67-69, 396-405, 546-561, 1245-1268) -/

/-- The statements that write to the database. -/
inductive WriteStatement where
  | insertReadings
  | deleteCommon
  | deletePurgeBlock
  deriving DecidableEq, Repr

/-- The operations on `m_writeAccessOngoing`, `db_mutex` and `db_cv` around a
write, and the write itself. -/
inductive SyncOp where
  | fetchAdd
  | fetchSub
  | lock
  | unlock
  | waitIfWriters
  | notifyAll
  | notifyIfZero
  | exec (statement : WriteStatement)
  deriving DecidableEq, Repr

/-- Lines 396-405: the write of `deleteRows`. -/
def deleteRowsWrite : List SyncOp :=
  [SyncOp.fetchAdd, SyncOp.exec WriteStatement.deleteCommon, SyncOp.fetchSub,
    SyncOp.notifyIfZero]

/-- Lines 547-561: the write of `appendReadings`. -/
def appendReadingsWrite : List SyncOp :=
  [SyncOp.fetchAdd, SyncOp.lock, SyncOp.exec WriteStatement.insertReadings, SyncOp.fetchSub,
    SyncOp.notifyAll, SyncOp.unlock]

/-- Lines 1245-1268: the write of one block of `purgeReadings`. -/
def purgeBlockWrite : List SyncOp :=
  [SyncOp.lock, SyncOp.waitIfWriters, SyncOp.exec WriteStatement.deletePurgeBlock,
    SyncOp.unlock]

/-- A thread that runs the operations while no other thread changes the
counter, which starts at `counter`: the value of the counter at every statement
it executes. At `waitIfWriters` with the counter not zero the thread waits for
a notification that does not come, and executes nothing more. -/
def counterDuring (counter : Int) : List SyncOp → List (WriteStatement × Int)
  | [] => []
  | SyncOp.fetchAdd :: rest => counterDuring (counter + 1) rest
  | SyncOp.fetchSub :: rest => counterDuring (counter - 1) rest
  | SyncOp.waitIfWriters :: rest => if counter ≠ 0 then [] else counterDuring counter rest
  | SyncOp.exec statement :: rest => (statement, counter) :: counterDuring counter rest
  | _ :: rest => counterDuring counter rest

/-- The value of the counter after the operations, for the same thread. -/
def counterAfter (counter : Int) : List SyncOp → Int
  | [] => counter
  | SyncOp.fetchAdd :: rest => counterAfter (counter + 1) rest
  | SyncOp.fetchSub :: rest => counterAfter (counter - 1) rest
  | SyncOp.waitIfWriters :: rest => if counter ≠ 0 then counter else counterAfter counter rest
  | _ :: rest => counterAfter counter rest

/-- The operations of a whole run of the delete loop: the write of a block for
each cursor. -/
def purgeWrites (cursors : List Nat) : List SyncOp :=
  cursors.flatMap fun _ => purgeBlockWrite

/-! ## The Python 2.7 filter plugin (plugin.cpp) -/

/-- A Python object as the plugin inspects it: `None`, an `int` or `long`, a
`float` (by its text), a `str`, a `list`, a `dict` with its items in the order
of `PyDict_Next`, and `other` for an object of any other type. -/
inductive PyObj where
  | none
  | int (i : Int)
  | float (text : String)
  | str (s : String)
  | list (xs : List PyObj)
  | dict (items : List (PyObj × PyObj))
  | other

/-- The value of a datapoint: `T_INTEGER`, `T_FLOAT` (by its text) and any other
tag, by the text `toString()` gives. -/
inductive DatapointValue where
  | integer (i : Int)
  | float (text : String)
  | text (s : String)
  deriving DecidableEq, Repr

/-- A reading: the asset name and the datapoints, each a name and a value. -/
structure Reading where
  assetName : String
  datapoints : List (String × DatapointValue)
  deriving DecidableEq, Repr

/-- The call `PyDict_SetItemString`: the value of an existing key is replaced,
a new key is added. -/
def pyDictSet (key : String) (value : PyObj) : List (PyObj × PyObj) → List (PyObj × PyObj)
  | [] => [(PyObj.str key, value)]
  | (PyObj.str k, v) :: rest =>
    if k = key then (PyObj.str k, value) :: rest else (PyObj.str k, v) :: pyDictSet key value rest
  | item :: rest => item :: pyDictSet key value rest

/-- Lines 395-418: the Python value of a datapoint. -/
def datapointToPy : DatapointValue → PyObj
  | DatapointValue.integer i => PyObj.int i
  | DatapointValue.float text => PyObj.float text
  | DatapointValue.text s => PyObj.str s

/-- Lines 385-438: the dict of a reading, with the keys `asset_code` and
`reading`. -/
def readingToPy (r : Reading) : PyObj :=
  PyObj.dict (pyDictSet "reading"
    (PyObj.dict (r.datapoints.foldl (fun d kv => pyDictSet kv.1 (datapointToPy kv.2) d) []))
    (pyDictSet "asset_code" (PyObj.str r.assetName) []))

/-- The function `createReadingsList`, when `PyList_New` and the other
allocations succeed: the list of the dicts of the readings. -/
def createReadingsList (readings : List Reading) : PyObj :=
  PyObj.list (readings.map readingToPy)

/-- The call `PyDict_GetItemString`: the value of the key in a dict, NULL for a
missing key and for an object that is not a dict. -/
def pyDictGetItemString (key : String) : PyObj → Option PyObj
  | PyObj.dict items =>
    (items.find? fun kv =>
      match kv.1 with
      | PyObj.str k => k = key
      | _ => false).map Prod.snd
  | _ => Option.none

/-- The call `PyString_AsString`: the text of a `str`, NULL for any other
object. -/
def pyStringAsString : PyObj → Option String
  | PyObj.str s => some s
  | _ => Option.none

/-- How `getFilteredReadings` ends: with the vector of readings (an entry is
`none` when the pointer pushed is NULL), with NULL, or `undefined`: the `delete`
of the pointer `dataPoint` that has no value yet (line 532), or a
`std::string` built from the NULL that `PyString_AsString` returns for an
object that is not a `str`. -/
inductive Converted where
  | vector (readings : List (Option Reading))
  | null
  | undefined
  deriving DecidableEq, Repr

/-- Lines 517-554: the loop over the items of the dict `reading`; `newReading`
is the reading built so far. The result is the reading pushed at line 557;
`none` is one of the undefined cases. -/
def datapointsLoop (assetCode : PyObj) :
    List (PyObj × PyObj) → Option Reading → Option (Option Reading)
  | [], newReading => some newReading
  | (dKey, dValue) :: rest, newReading =>
    let dataPoint : Option DatapointValue :=
      match dValue with
      | PyObj.int i => some (DatapointValue.integer (toInt32 (toU64 i)))
      | PyObj.float text => some (DatapointValue.float text)
      | PyObj.str s => some (DatapointValue.text s)
      | _ => Option.none
    match dataPoint with
    | Option.none => Option.none
    | some value =>
      match pyStringAsString dKey with
      | Option.none => Option.none
      | some name =>
        match newReading with
        | Option.none =>
          match pyStringAsString assetCode with
          | Option.none => Option.none
          | some asset =>
            datapointsLoop assetCode rest (some { assetName := asset, datapoints := [(name, value)] })
        | some r =>
          datapointsLoop assetCode rest (some { r with datapoints := r.datapoints ++ [(name, value)] })

/-- Lines 478-558: the loop over the elements of the list. -/
def elementsLoop : List PyObj → List (Option Reading) → Converted
  | [], newReadings => Converted.vector newReadings
  | element :: rest, newReadings =>
    match pyDictGetItemString "asset_code" element, pyDictGetItemString "reading" element with
    | some assetCode, some (PyObj.dict items) =>
      match datapointsLoop assetCode items Option.none with
      | Option.none => Converted.undefined
      | some newReading => elementsLoop rest (newReadings ++ [newReading])
    | _, _ => Converted.null

/-- The function `getFilteredReadings`. For an object that is not a list
`PyList_Size` returns -1 and the loop is not entered. -/
def getFilteredReadings (filteredData : PyObj) : Converted :=
  match filteredData with
  | PyObj.list xs => elementsLoop xs []
  | _ => Converted.vector []

/-- The reading set handed to the output stream: the input set itself, or a new
set made of the vector of filtered readings. -/
inductive Passed where
  | input
  | filtered (readings : List (Option Reading))
  deriving DecidableEq, Repr

/-- How a call of `plugin_ingest` ends: `returned` with the calls of the output
stream it made, in order, and whether it deleted the input set; or `undefined`
when `getFilteredReadings` is. -/
inductive Ingested where
  | returned (outputs : List Passed) (inputDeleted : Bool)
  | undefined
  deriving DecidableEq, Repr

/-- The function `plugin_ingest`. `enabled` is `filter->isEnabled()`,
`readingsList` the pointer `createReadingsList` returns (`none` is NULL) and
`call` the call of the Python method (`none` is NULL, a Python error). -/
def plugin_ingest (enabled : Bool) (readingsList : Option PyObj) (call : PyObj → Option PyObj) :
    Ingested :=
  if ¬ enabled then Ingested.returned [Passed.input] false
  else
    match readingsList with
    | Option.none => Ingested.returned [Passed.input] false
    | some list =>
      match call list with
      | Option.none => Ingested.returned [Passed.input] false
      | some pReturn =>
        match getFilteredReadings pReturn with
        | Converted.vector newReadings => Ingested.returned [Passed.filtered newReadings] true
        | Converted.null => Ingested.returned [Passed.input] false
        | Converted.undefined => Ingested.undefined

/-! ## Single-precision arithmetic of lines 1296-1299 -/

/-- Doubles the numerator or the denominator of a positive fraction until its
integer part has 24 bits: `2 ^ 23 ≤ n / d < 2 ^ 24`. -/
def scaleToMantissa : Nat → Nat → Nat → Nat × Nat
  | 0, n, d => (n, d)
  | fuel + 1, n, d =>
    if n / d < 2 ^ 23 then scaleToMantissa fuel (2 * n) d
    else if 2 ^ 24 ≤ n / d then scaleToMantissa fuel n (2 * d)
    else (n, d)

/-- The `float` nearest to the fraction `num / den`, as a fraction: the value
is rounded to 24 significant bits, a tie to the even mantissa (IEEE 754
binary32, round to nearest; values in the normal range). -/
def roundSingle (num den : Nat) : Nat × Nat :=
  if num = 0 ∨ den = 0 then (0, 1)
  else
    let scaled := scaleToMantissa 300 num den
    let q := scaled.1 / scaled.2
    let r := scaled.1 % scaled.2
    let m := if 2 * r > scaled.2 ∨ (2 * r = scaled.2 ∧ q % 2 = 1) then q + 1 else q
    (m * scaled.2 * num, den * scaled.1)

/-- Lines 1296-1298: the `float ratio`, as a fraction. A division by `0.0f`
gives infinity, which the first test replaces by 2.0; a negative ratio is
replaced by 0.5. -/
def ratioSingle (avg : Int) : Nat × Nat :=
  if avg = 0 then (2, 1)
  else if avg < 0 then (1, 2)
  else
    let a := roundSingle avg.toNat 1
    let r := roundSingle (TARGET_PURGE_BLOCK_DEL_TIME.toNat * a.2) a.1
    if r.1 > 2 * r.2 then (2, 1) else if 2 * r.1 < r.2 then (1, 2) else r

/-- Line 1299: `purgeBlockSize = (float)purgeBlockSize * ratio`, the product in
`float` converted to `int` by truncation. -/
def scaleSingle (purgeBlockSize avg : Int) : Int :=
  let p := roundSingle purgeBlockSize.natAbs 1
  let r := ratioSingle avg
  let x := roundSingle (p.1 * r.1) (p.2 * r.2)
  (if purgeBlockSize < 0 then -1 else 1) * ((x.1 / x.2 : Nat) : Int)

/-- Line 1286: the long-term average, the time of the blocks before the
current window over their number (a divisor 0 replaced by 1). -/
def prevAvg (c : Ctl) : Int :=
  toInt32 (c.prevTotTime / (if c.prevBlocks ≠ 0 then c.prevBlocks else 1))

/-- Line 1287: the average block time of the current window. -/
def currAvg (c : Ctl) : Int :=
  toInt32 (((c.totTime + U32 - c.prevTotTime) % U32) /
    ((c.blocks % U32 + U32 - c.prevBlocks) % U32))

/-- The average as the specification words it: half the previous average plus
half the average of the current window. -/
def statedAverage (previous current : Int) : Int := (previous + current) / 2

/-- The counters after 30 blocks of 70000 microseconds each, at the first
recalculation of a call that found the block size 20. -/
def firstWindow : Ctl :=
  { purgeBlockSize := 20, blocks := 30, totTime := 30 * 70000, prevBlocks := 0, prevTotTime := 0 }

/-- The counters after 29 blocks of 70000 microseconds each. -/
def beforeFirstWindow : Ctl :=
  { purgeBlockSize := 20, blocks := 29, totTime := 29 * 70000, prevBlocks := 0, prevTotTime := 0 }

/-! ## Reading a quoted literal of a statement -/

/-- The content of an SQL string literal after its opening quote: the
characters up to the first single quote that is not doubled, a doubled quote
standing for one quote; the result is the content and the text after the closing
quote, `none` when the literal is not closed. -/
def literalBody : List Char → Option (List Char × List Char)
  | [] => none
  | [c] => if c = Char.ofNat 39 then some ([], []) else none
  | c :: d :: rest =>
    if c = Char.ofNat 39 then
      if d = Char.ofNat 39 then (literalBody rest).map fun r => (c :: r.1, r.2)
      else some ([], d :: rest)
    else (literalBody (d :: rest)).map fun r => (c :: r.1, r.2)

/-- The content of the literal that starts at the first single quote of the
text, with the text after it. -/
def firstLiteral (text : String) : Option (String × String) :=
  (literalBody ((text.data.dropWhile fun c => c ≠ Char.ofNat 39).drop 1)).map fun r =>
    (String.mk r.1, String.mk r.2)

/-- A reading whose `user_ts` is not a date. -/
def rejectedReading : ReadingObject :=
  { user_ts := "yesterday", asset_code := "pump", read_key := none, reading := "\x7b\x7d" }

/-! ## deleteRows (lines 355-424) -/

/-- Lines 361-386 of `deleteRows`: the statement, in the buffer `sql` of an `ok`
result; `error` is a `return -1` before the statement is complete and
`undefined` a failed assertion of rapidjson (`HasMember` on a document that is
not an object, or one inside `jsonWhereClause`). -/
def deleteRowsSql (H : Helpers) (table : String) (condition : Condition) : Res :=
  let b := ((Buffers.mk "" "").append "DELETE FROM foglamp.").append table
  match condition with
  | Condition.empty => Res.ok (b.append ";")
  | Condition.malformed => Res.error (b.append " WHERE ")
  | Condition.document (Json.obj payload) =>
    match lookup "where" payload with
    | some whereClause =>
      (jsonWhereClause H H.convertLocaltime whereClause (b.append " WHERE ")).andThen fun b =>
        Res.ok (b.append ";")
    | none => Res.error (b.append " WHERE ")
  | Condition.document _ => Res.undefined

/-- The function `Connection::deleteRows`: its return value and the statements
it executed; `exec` is `SQLexec` followed by `sqlite3_changes`, `none` when the
result code is not `SQLITE_OK`. The result `none` is the undefined case of
`deleteRowsSql`. -/
def deleteRows (H : Helpers) (exec : String → Option Nat) (table : String)
    (condition : Condition) : Option (Int × List String) :=
  match deleteRowsSql H table condition with
  | Res.ok b =>
    some ((match exec b.sql with
      | some changes => (changes : Int)
      | none => -1), [b.sql])
  | Res.error _ => some (-1, [])
  | Res.undefined => none

/-! ## Lemmas on machine arithmetic -/

theorem U64_eq : U64 = 18446744073709551616 := by decide

theorem U32_eq : U32 = 4294967296 := by decide

theorem toInt64_of_lt {x : Nat} (h : x < 2 ^ 63) : toInt64 x = (x : Int) := by
  have h1 : x % U64 = x := Nat.mod_eq_of_lt (by rw [U64_eq]; omega)
  unfold toInt64
  rw [h1, if_pos h]

theorem toInt64_of_ge {x : Nat} (h1 : 2 ^ 63 ≤ x) (h2 : x < U64) :
    toInt64 x = (x : Int) - (U64 : Int) := by
  have h3 : x % U64 = x := Nat.mod_eq_of_lt h2
  have h4 : ¬ x < 2 ^ 63 := by omega
  unfold toInt64
  rw [h3, if_neg h4]

/-! ## Lemmas on the locator -/

/-- Without wrap-around (`1 ≤ L0` and `R0 + 1 < 2 ^ 64`) the search never leaves
the interval it was started on. -/
theorem locate_range (probe : Nat → Option Nat) (L0 R0 : Nat) (hL : 1 ≤ L0)
    (hR : R0 + 1 < U64) :
    ∀ (fuel l r m : Nat), L0 ≤ l → r ≤ R0 → l ≤ r + 1 → L0 ≤ m → m ≤ R0 →
      (L0 ≤ (locate probe fuel l r m).m ∧ (locate probe fuel l r m).m ≤ R0) ∧
      ∀ p ∈ (locate probe fuel l r m).probed, L0 ≤ p ∧ p ≤ R0 := by
  intro fuel
  induction fuel with
  | zero =>
    intro l r m _ _ _ h4 h5
    simp [locate, h4, h5]
  | succ n ih =>
    intro l r m h1 h2 h3 h4 h5
    rw [U64_eq] at hR
    unfold locate
    by_cases hlr : l ≤ r
    · simp only [hlr, if_true]
      have hm1 : l ≤ l + (r - l) / 2 := by omega
      have hm2 : l + (r - l) / 2 ≤ r := by omega
      by_cases hbrk : m = l + (r - l) / 2
      · simp only [hbrk, if_true]
        refine ⟨⟨by omega, by omega⟩, by simp⟩
      · simp only [hbrk, if_false]
        cases hp : probe (l + (r - l) / 2) with
        | none =>
          simp only []
          refine ⟨⟨by omega, by omega⟩, ?_⟩
          intro p hp'
          simp at hp'
          omega
        | some mid =>
          simp only []
          by_cases hmid : mid = 0
          · simp only [hmid, if_true]
            have hr' : (l + (r - l) / 2 + U64 - 1) % U64 = l + (r - l) / 2 - 1 := by
              rw [U64_eq]; omega
            rw [hr']
            have := ih l (l + (r - l) / 2 - 1) (l + (r - l) / 2) h1 (by omega) (by omega)
              (by omega) (by omega)
            refine ⟨this.1, ?_⟩
            intro p hp'
            simp only [Located.after, List.mem_cons] at hp'
            rcases hp' with rfl | hp'
            · omega
            · exact this.2 p hp'
          · simp only [hmid, if_false]
            have hl' : (l + (r - l) / 2 + 1) % U64 = l + (r - l) / 2 + 1 := by
              rw [U64_eq]; omega
            rw [hl']
            have := ih (l + (r - l) / 2 + 1) r (l + (r - l) / 2) (by omega) h2 (by omega)
              (by omega) (by omega)
            refine ⟨this.1, ?_⟩
            intro p hp'
            simp only [Located.after, List.mem_cons] at hp'
            rcases hp' with rfl | hp'
            · omega
            · exact this.2 p hp'
    · simp only [hlr, if_false]
      refine ⟨⟨h4, h5⟩, by simp⟩

/-- Halving a positive number removes one binary digit. -/
theorem size_half_lt {a n : Nat} (hn : 1 ≤ n) (ha : a ≤ n / 2) : Nat.size a + 1 ≤ Nat.size n := by
  have hk : n < 2 ^ Nat.size n := Nat.lt_size_self n
  have hpos : 0 < Nat.size n := Nat.size_pos.mpr hn
  obtain ⟨k, hk'⟩ : ∃ k, Nat.size n = k + 1 := ⟨Nat.size n - 1, by omega⟩
  rw [hk'] at hk ⊢
  have h2 : a < 2 ^ k := by
    rw [pow_succ] at hk
    omega
  have := Nat.size_le.mpr h2
  omega

/-- Without wrap-around the loop body is entered at most once per binary digit
of the width of the interval, and that much fuel is enough for it to end. -/
theorem locate_iters (probe : Nat → Option Nat) :
    ∀ (fuel l r m : Nat), 1 ≤ l → r + 1 < U64 → l ≤ r + 1 →
      (locate probe fuel l r m).iters ≤ max 1 (Nat.size (r + 1 - l)) ∧
      (l ≤ r ∨ (locate probe fuel l r m).iters = 0) ∧
      (Nat.size (r + 1 - l) < fuel → (locate probe fuel l r m).status ≠ Status.outOfFuel) := by
  intro fuel
  induction fuel with
  | zero =>
    intro l r m _ _ _
    simp [locate]
  | succ n ih =>
    intro l r m h1 h2 h3
    rw [U64_eq] at h2
    unfold locate
    by_cases hlr : l ≤ r
    · simp only [hlr, if_true, true_or, true_and]
      have hsz : 1 ≤ Nat.size (r + 1 - l) := Nat.size_pos.mpr (by omega)
      by_cases hbrk : m = l + (r - l) / 2
      · simp only [hbrk, if_true]
        refine ⟨by omega, by simp⟩
      · simp only [hbrk, if_false]
        cases hp : probe (l + (r - l) / 2) with
        | none =>
          simp only []
          refine ⟨by omega, by simp⟩
        | some mid =>
          simp only []
          by_cases hmid : mid = 0
          · simp only [hmid, if_true]
            have hr' : (l + (r - l) / 2 + U64 - 1) % U64 = l + (r - l) / 2 - 1 := by
              rw [U64_eq]; omega
            rw [hr']
            have hI := ih l (l + (r - l) / 2 - 1) (l + (r - l) / 2) h1 (by rw [U64_eq]; omega)
              (by omega)
            have hs : Nat.size (l + (r - l) / 2 - 1 + 1 - l) + 1 ≤ Nat.size (r + 1 - l) :=
              size_half_lt (by omega) (by omega)
            simp only [Located.after]
            refine ⟨?_, ?_⟩
            · rcases hI.2.1 with h | h
              · have := hI.1
                have : 1 ≤ Nat.size (l + (r - l) / 2 - 1 + 1 - l) := Nat.size_pos.mpr (by omega)
                omega
              · omega
            · intro hf
              exact hI.2.2 (by omega)
          · simp only [hmid, if_false]
            have hl' : (l + (r - l) / 2 + 1) % U64 = l + (r - l) / 2 + 1 := by
              rw [U64_eq]; omega
            rw [hl']
            have hI := ih (l + (r - l) / 2 + 1) r (l + (r - l) / 2) (by omega)
              (by rw [U64_eq]; omega) (by omega)
            have hs : Nat.size (r + 1 - (l + (r - l) / 2 + 1)) + 1 ≤ Nat.size (r + 1 - l) :=
              size_half_lt (by omega) (by omega)
            simp only [Located.after]
            refine ⟨?_, ?_⟩
            · rcases hI.2.1 with h | h
              · have := hI.1
                have : 1 ≤ Nat.size (r + 1 - (l + (r - l) / 2 + 1)) := Nat.size_pos.mpr (by omega)
                omega
              · omega
            · intro hf
              exact hI.2.2 (by omega)
    · simp only [hlr, if_false, false_or, true_and]
      refine ⟨by omega, by simp⟩

/-- The number of binary digits is at most the rounded-up logarithm plus one. -/
theorem size_le_clog (n : Nat) : Nat.size n ≤ Nat.clog 2 n + 1 := by
  apply Nat.size_le.mpr
  calc n ≤ 2 ^ Nat.clog 2 n := Nat.le_pow_clog (by decide) n
    _ < 2 ^ (Nat.clog 2 n + 1) := Nat.pow_lt_pow_right (by decide) (by omega)

/-! ## Lemmas on the delete loop -/

/-- The clamp of lines 1234-1237 keeps every cursor at or below `rowidLimit`. -/
theorem deleteLoop_cursors_le {σ : Type} (ops : Sql σ) (scale : Int → Int → Int)
    (rowidLimit : Nat) :
    ∀ (fuel : Nat) (s : σ) (rowidMin : Nat) (c : Ctl) (deletedRows : Nat),
      ∀ x ∈ (deleteLoop ops scale rowidLimit fuel s rowidMin c deletedRows).cursors,
        x ≤ rowidLimit := by
  intro fuel
  induction fuel with
  | zero =>
    intro s rowidMin c d x hx
    simp [deleteLoop] at hx
  | succ n ih =>
    intro s rowidMin c d x hx
    unfold deleteLoop at hx
    by_cases h : rowidMin < rowidLimit
    · simp only [h, if_true] at hx
      have hcur : (if (rowidMin + toU64 c.purgeBlockSize) % U64 > rowidLimit then rowidLimit
          else (rowidMin + toU64 c.purgeBlockSize) % U64) ≤ rowidLimit := by
        split <;> omega
      split at hx
      · simp only [List.mem_singleton] at hx
        rw [hx]; exact hcur
      · simp only [Deleted.after, List.mem_cons] at hx
        rcases hx with rfl | hx
        · exact hcur
        · exact ih _ _ _ _ x hx
    · simp [h] at hx

/-- The count of deleted rows stays an `unsigned int`. -/
theorem deleteLoop_deletedRows_lt {σ : Type} (ops : Sql σ) (scale : Int → Int → Int)
    (rowidLimit : Nat) :
    ∀ (fuel : Nat) (s : σ) (rowidMin : Nat) (c : Ctl) (deletedRows : Nat), deletedRows < U32 →
      (deleteLoop ops scale rowidLimit fuel s rowidMin c deletedRows).deletedRows < U32 := by
  intro fuel
  induction fuel with
  | zero =>
    intro s rowidMin c d hd
    simpa [deleteLoop] using hd
  | succ n ih =>
    intro s rowidMin c d hd
    unfold deleteLoop
    by_cases h : rowidMin < rowidLimit
    · simp only [h, if_true]
      split
      · exact hd
      · simp only [Deleted.after]
        exact ih _ _ _ _ (Nat.mod_lt _ (by rw [U32_eq]; omega))
    · simpa [h] using hd

/-! ## Lemmas on purgeReadings -/

/-- Every `DELETE` of `purgeReadings` comes from its delete loop: the three
reads succeeded, the search bounds differ and the cursor is at most the final
midpoint of the locator. -/
theorem purgeReadings_cursor {σ : Type} (ops : Sql σ) (scale : Int → Int → Int) (fuel : Nat)
    (s : σ) (purgeBlockSize : Int) (age flags sent x : Nat)
    (hx : x ∈ (purgeReadings ops scale fuel s purgeBlockSize age flags sent).cursors) :
    ∃ hi lo age1, ops.selectMaxRowid s = some hi ∧ ops.selectMinRowid s = some lo ∧
      effectiveAge ops s age hi = some age1 ∧
      (searchBounds flags sent lo hi).1 ≠ (searchBounds flags sent lo hi).2 ∧
      x ≤ (locate (fun m => ops.selectIdOlder s m age1) fuel (searchBounds flags sent lo hi).1
        (searchBounds flags sent lo hi).2 (searchBounds flags sent lo hi).1).m := by
  unfold purgeReadings at hx
  cases hmax : ops.selectMaxRowid s with
  | none => simp [hmax, Purged.early] at hx
  | some hi =>
    cases hmin : ops.selectMinRowid s with
    | none => simp [hmax, hmin, Purged.early] at hx
    | some lo =>
      cases hage : effectiveAge ops s age hi with
      | none => simp [hmax, hmin, hage, Purged.early] at hx
      | some age1 =>
        refine ⟨hi, lo, age1, rfl, rfl, hage, ?_⟩
        simp only [hmax, hmin, hage] at hx
        by_cases hlr : (searchBounds flags sent lo hi).1 = (searchBounds flags sent lo hi).2
        · simp [hlr, Purged.early] at hx
        · refine ⟨hlr, ?_⟩
          simp only [hlr, if_false] at hx
          split at hx
          · simp [Purged.early] at hx
          · split at hx
            · simp [Purged.early] at hx
            · split at hx
              · simp [Purged.early] at hx
              · split at hx <;> exact deleteLoop_cursors_le _ _ _ _ _ _ _ _ x hx

/-- On valid rowids the final midpoint of the locator lies between the bounds
of the search, whatever the probes answer. -/
theorem purgeReadings_locate_le (probe : Nat → Option Nat) (fuel flags sent lo hi : Nat)
    (hrow : RowidsValid lo hi)
    (hne : (searchBounds flags sent lo hi).1 ≠ (searchBounds flags sent lo hi).2) :
    1 ≤ lo ∧ lo < (searchBounds flags sent lo hi).2 ∧ (searchBounds flags sent lo hi).2 ≤ hi ∧
    (flags % 2 = 1 → sent ≠ 0 → (searchBounds flags sent lo hi).2 ≤ sent) ∧
    lo ≤ (locate probe fuel (searchBounds flags sent lo hi).1 (searchBounds flags sent lo hi).2
      (searchBounds flags sent lo hi).1).m ∧
    (locate probe fuel (searchBounds flags sent lo hi).1 (searchBounds flags sent lo hi).2
      (searchBounds flags sent lo hi).1).m ≤ (searchBounds flags sent lo hi).2 := by
  have hb1 : (searchBounds flags sent lo hi).1 = lo := rfl
  have hb2 : (searchBounds flags sent lo hi).2 =
      max (if flags % 2 = 1 ∧ sent ≠ 0 then min sent hi else hi) lo := rfl
  rw [hb1] at hne ⊢
  obtain ⟨hzero, h1⟩ := hrow
  by_cases h0' : lo = 0
  · exfalso
    apply hne
    rw [hb2, h0', hzero h0']
    split <;> simp
  · have h0 : 1 ≤ lo := by omega
    have hr : lo < (searchBounds flags sent lo hi).2 ∧ (searchBounds flags sent lo hi).2 ≤ hi ∧
        (flags % 2 = 1 → sent ≠ 0 → (searchBounds flags sent lo hi).2 ≤ sent) := by
      rw [hb2] at hne ⊢
      split at hne
      · rename_i hc
        rw [if_pos hc]
        refine ⟨by omega, by omega, fun _ _ => by omega⟩
      · rename_i hc
        rw [if_neg hc]
        refine ⟨by omega, by omega, fun h1 h2 => absurd ⟨h1, h2⟩ hc⟩
    have hR : (searchBounds flags sent lo hi).2 + 1 < U64 := by
      rw [U64_eq]; omega
    have := (locate_range probe lo (searchBounds flags sent lo hi).2 h0 hR fuel lo
      (searchBounds flags sent lo hi).2 lo (le_refl _) (le_refl _) (by omega) (le_refl _)
      (by omega)).1
    exact ⟨h0, hr.1, hr.2.1, hr.2.2, this.1, this.2⟩

/-! ## Lemmas on tables -/

theorem foldl_max_lt (B : Nat) : ∀ (l : List Nat) (a : Nat), a < B → (∀ x ∈ l, x < B) →
    l.foldl max a < B := by
  intro l
  induction l with
  | nil => intro a ha _; simpa using ha
  | cons y ys ih =>
    intro a ha h
    simp only [List.foldl_cons]
    apply ih
    · have := h y (List.mem_cons_self _ _)
      omega
    · intro x hx
      exact h x (List.mem_cons_of_mem _ hx)

theorem foldl_min_pos : ∀ (l : List Nat) (a : Nat), 1 ≤ a → (∀ x ∈ l, 1 ≤ x) →
    1 ≤ l.foldl min a := by
  intro l
  induction l with
  | nil => intro a ha _; simpa using ha
  | cons y ys ih =>
    intro a ha h
    simp only [List.foldl_cons]
    apply ih
    · have := h y (List.mem_cons_self _ _)
      omega
    · intro x hx
      exact h x (List.mem_cons_of_mem _ hx)

/-- A table whose rowids lie between 1 and the largest SQLite rowid shows valid
rowids to `purgeReadings`, and so does the empty table. -/
theorem tableSql_rowidsValid (t : Table) (h : ∀ x ∈ t.rows, 1 ≤ x.rowid ∧ x.rowid < 2 ^ 63)
    (lo hi : Nat) (hmin : tableSql.selectMinRowid t = some lo)
    (hmax : tableSql.selectMaxRowid t = some hi) : RowidsValid lo hi := by
  simp only [tableSql, Option.some.injEq] at hmin hmax
  have hids : ∀ x ∈ t.rows.map Row.rowid, 1 ≤ x ∧ x < 2 ^ 63 := by
    intro x hx
    obtain ⟨y, hy, rfl⟩ := List.mem_map.mp hx
    exact h y hy
  have hhi : hi < 2 ^ 63 := by
    rw [← hmax]
    exact foldl_max_lt (2 ^ 63) _ 0 (by decide) (fun x hx => (hids x hx).2)
  refine ⟨?_, hhi⟩
  intro h0
  cases hrows : t.rows.map Row.rowid with
  | nil =>
    rw [← hmax, hrows]
    rfl
  | cons y ys =>
    rw [hrows] at hmin hids
    simp only [] at hmin
    have : 1 ≤ ys.foldl min y :=
      foldl_min_pos ys y (hids y (List.mem_cons_self _ _)).1
        (fun x hx => (hids x (List.mem_cons_of_mem _ hx)).1)
    omega

/-! ## Properties of purgeReadings -/

/-- C1, as amended. Retain-unsent: when flag bit 0 is set and the sent id `S` is
not 0, every `DELETE` that `purgeReadings` executes on a snapshot with valid
rowids has a cursor of at most `S`, whatever the age, the block size, the
answers of the probes and the fuel. -/
theorem retain_unsent_cursor_le_sent {σ : Type} (ops : Sql σ) (scale : Int → Int → Int)
    (fuel : Nat) (s : σ) (purgeBlockSize : Int) (age flags sent hi : Nat)
    (hflag : flags % 2 = 1) (hsent : sent ≠ 0)
    (hmax : ops.selectMaxRowid s = some hi)
    (hrow : ∀ lo, ops.selectMinRowid s = some lo → RowidsValid lo hi) :
    ∀ x ∈ (purgeReadings ops scale fuel s purgeBlockSize age flags sent).cursors, x ≤ sent := by
  intro x hx
  obtain ⟨hi1, lo, age1, h1, h2, _, h4, h5⟩ :=
    purgeReadings_cursor ops scale fuel s purgeBlockSize age flags sent x hx
  rw [hmax] at h1
  cases h1
  have := purgeReadings_locate_le (fun m => ops.selectIdOlder s m age1) fuel flags sent lo hi
    (hrow lo h2) h4
  have h6 := this.2.2.2.1 hflag hsent
  omega

/-- C2. Purge upper bound: on a snapshot with valid rowids every `DELETE` that
`purgeReadings` executes has a cursor of at most the `max(rowid)` it read at the
start, whatever the age, flags, sent id, block size, probe answers and fuel. -/
theorem purge_cursor_le_max_rowid {σ : Type} (ops : Sql σ) (scale : Int → Int → Int)
    (fuel : Nat) (s : σ) (purgeBlockSize : Int) (age flags sent hi : Nat)
    (hmax : ops.selectMaxRowid s = some hi)
    (hrow : ∀ lo, ops.selectMinRowid s = some lo → RowidsValid lo hi) :
    ∀ x ∈ (purgeReadings ops scale fuel s purgeBlockSize age flags sent).cursors, x ≤ hi := by
  intro x hx
  obtain ⟨hi1, lo, age1, h1, h2, _, h4, h5⟩ :=
    purgeReadings_cursor ops scale fuel s purgeBlockSize age flags sent x hx
  rw [hmax] at h1
  cases h1
  have := purgeReadings_locate_le (fun m => ops.selectIdOlder s m age1) fuel flags sent lo hi
    (hrow lo h2) h4
  omega

/-- C1, counterexample. With flag bit 0 set and sent id 0 the three rows 1, 2, 3,
all one day old, are deleted by `DELETE ... WHERE rowid <= 3`, and 3 exceeds the
sent id. -/
theorem retain_unsent_fails_at_sent_zero :
    (1 : Nat) % 2 = 1 ∧
    (purgeReadings tableSql scaleExact 100 (Table.range 1 3 3) 20 1 1 0).cursors = [3] ∧
    ¬ (3 ≤ 0) := by
  refine ⟨by decide, ?_, by decide⟩
  decide

/-- When `purgeReadings` runs to completion the three reads succeeded, the
search bounds differ, and the result document is assembled by lines 1312-1328
from the final midpoint of the locator and an `unsigned int` count of deleted
rows, which is also the value reported as `removed`. -/
theorem purgeReadings_completed {σ : Type} (ops : Sql σ) (scale : Int → Int → Int) (fuel : Nat)
    (s : σ) (purgeBlockSize : Int) (age flags sent : Nat)
    (hdone : (purgeReadings ops scale fuel s purgeBlockSize age flags sent).status
      = Status.completed) :
    ∃ hi lo age1 unsent deleted, ops.selectMaxRowid s = some hi ∧
      ops.selectMinRowid s = some lo ∧ effectiveAge ops s age hi = some age1 ∧
      (searchBounds flags sent lo hi).1 ≠ (searchBounds flags sent lo hi).2 ∧
      deleted < U32 ∧
      (purgeReadings ops scale fuel s purgeBlockSize age flags sent).result =
        finalResult hi lo (locate (fun m => ops.selectIdOlder s m age1) fuel
          (searchBounds flags sent lo hi).1 (searchBounds flags sent lo hi).2
          (searchBounds flags sent lo hi).1).m sent deleted unsent := by
  unfold purgeReadings at hdone ⊢
  cases hmax : ops.selectMaxRowid s with
  | none => simp [hmax, Purged.early] at hdone
  | some hi =>
    cases hmin : ops.selectMinRowid s with
    | none => simp [hmax, hmin, Purged.early] at hdone
    | some lo =>
      cases hage : effectiveAge ops s age hi with
      | none => simp [hmax, hmin, hage, Purged.early] at hdone
      | some age1 =>
        simp only [hmax, hmin, hage] at hdone ⊢
        by_cases hlr : (searchBounds flags sent lo hi).1 = (searchBounds flags sent lo hi).2
        · simp [hlr, Purged.early] at hdone
        · simp only [hlr, if_false] at hdone ⊢
          by_cases hloc : (locate (fun m => ops.selectIdOlder s m age1) fuel
              (searchBounds flags sent lo hi).1 (searchBounds flags sent lo hi).2
              (searchBounds flags sent lo hi).1).status = Status.completed
          · simp only [hloc, ne_eq, not_true_eq_false, if_false] at hdone ⊢
            split at hdone
            · simp [Purged.early] at hdone
            · rename_i hne
              simp only [hne, if_false]
              cases hun : unsentBefore ops s flags sent (locate (fun m => ops.selectIdOlder s m age1)
                  fuel (searchBounds flags sent lo hi).1 (searchBounds flags sent lo hi).2
                  (searchBounds flags sent lo hi).1).m with
              | none => simp [hun, Purged.early] at hdone
              | some unsent =>
                simp only [hun] at hdone ⊢
                split at hdone
                · rename_i hd
                  simp only [hd]
                  exact ⟨hi, lo, age1, unsent, _, rfl, rfl, hage, hlr,
                    deleteLoop_deletedRows_lt _ _ _ _ _ _ _ _ (by rw [U32_eq]; omega), rfl⟩
                · rename_i hd
                  exact absurd hdone (by simpa using hd)
          · simp only [ne_eq, hloc, not_false_eq_true, if_true, Purged.early] at hdone

/-- One pass through the loop body when the probe of the midpoint finds no row. -/
theorem locate_step_left (probe : Nat → Option Nat) (fuel l r m : Nat) (hlr : l ≤ r)
    (hne : m ≠ l + (r - l) / 2) (hp : probe (l + (r - l) / 2) = some 0) :
    locate probe (fuel + 1) l r m =
      (locate probe fuel l ((l + (r - l) / 2 + U64 - 1) % U64) (l + (r - l) / 2)).after
        (l + (r - l) / 2) := by
  rw [locate]
  simp only [hlr, if_true, hne, if_false, hp]

/-- Started with `l = 0` on probes that never find a row, the loop runs through
the midpoints `2 ^ k - 1` and, from midpoint 0, wraps `r` to `2 ^ 64 - 1` and
starts over: no amount of fuel ends it. -/
theorem locate_underflow_cycle (fuel : Nat) :
    (∀ k, k ≤ 62 →
      (locate (fun _ => some 0) fuel 0 (2 * 2 ^ k - 2) (2 * 2 ^ k - 1)).status = Status.outOfFuel ∧
      (locate (fun _ => some 0) fuel 0 (2 * 2 ^ k - 2) (2 * 2 ^ k - 1)).iters = fuel) ∧
    ((locate (fun _ => some 0) fuel 0 (U64 - 1) 0).status = Status.outOfFuel ∧
      (locate (fun _ => some 0) fuel 0 (U64 - 1) 0).iters = fuel) := by
  induction fuel with
  | zero => simp [locate]
  | succ n ih =>
    refine ⟨?_, ?_⟩
    · intro k hk
      cases k with
      | zero =>
        have h := locate_step_left (fun _ => some 0) n 0 (2 * 2 ^ 0 - 2) (2 * 2 ^ 0 - 1)
          (by decide) (by decide) rfl
        have e : (0 + (2 * 2 ^ 0 - 2 - 0) / 2 + U64 - 1) % U64 = U64 - 1 := by decide
        have e2 : 0 + (2 * 2 ^ 0 - 2 - 0) / 2 = 0 := by decide
        rw [h, e, e2]
        simp only [Located.after]
        exact ⟨ih.2.1, by rw [ih.2.2]⟩
      | succ j =>
        have hx1 : 1 ≤ 2 ^ j := Nat.one_le_two_pow
        have hx2 : 2 ^ j ≤ 2 ^ 61 := Nat.pow_le_pow_right (by decide) (by omega)
        have hx3 : 2 ^ (j + 1) = 2 * 2 ^ j := by rw [pow_succ]; omega
        have hmid : 0 + (2 * 2 ^ (j + 1) - 2 - 0) / 2 = 2 * 2 ^ j - 1 := by
          rw [hx3]; omega
        have h := locate_step_left (fun _ => some 0) n 0 (2 * 2 ^ (j + 1) - 2)
          (2 * 2 ^ (j + 1) - 1) (by omega) (by rw [hmid, hx3]; omega) rfl
        have e : (2 * 2 ^ j - 1 + U64 - 1) % U64 = 2 * 2 ^ j - 2 := by
          rw [U64_eq]
          norm_num at hx2
          omega
        rw [h, hmid, e]
        simp only [Located.after]
        have := ih.1 j (by omega)
        exact ⟨this.1, by rw [this.2]⟩
    · have h := locate_step_left (fun _ => some 0) n 0 (U64 - 1) 0 (by decide) (by decide) rfl
      have e : (0 + (U64 - 1 - 0) / 2 + U64 - 1) % U64 = 2 * 2 ^ 62 - 2 := by decide
      have e2 : 0 + (U64 - 1 - 0) / 2 = 2 * 2 ^ 62 - 1 := by decide
      rw [h, e, e2]
      simp only [Located.after]
      have := ih.1 62 (le_refl _)
      exact ⟨this.1, by rw [this.2]⟩

/-- C1, witness. Ten rows 1..10, the first five one day old, sent id 3, flag
bit 0 set: the only cursor is 3. -/
theorem retain_unsent_cursor_le_sent_witness :
    ((1 : Nat) % 2 = 1 ∧ (3 : Nat) ≠ 0 ∧
      tableSql.selectMaxRowid (Table.range 1 10 5) = some 10 ∧
      (∀ lo, tableSql.selectMinRowid (Table.range 1 10 5) = some lo → RowidsValid lo 10)) ∧
    ((purgeReadings tableSql scaleExact 100 (Table.range 1 10 5) 20 1 1 3).cursors = [3] ∧
      ∀ x ∈ (purgeReadings tableSql scaleExact 100 (Table.range 1 10 5) 20 1 1 3).cursors,
        x ≤ 3) :=
  have hrow : ∀ lo, tableSql.selectMinRowid (Table.range 1 10 5) = some lo → RowidsValid lo 10 :=
    fun lo h => by
      have h1 : tableSql.selectMinRowid (Table.range 1 10 5) = some 1 := by decide
      rw [h1] at h
      cases h
      exact ⟨by decide, by decide⟩
  ⟨⟨by decide, by decide, by decide, hrow⟩, by decide,
    retain_unsent_cursor_le_sent tableSql scaleExact 100 (Table.range 1 10 5) 20 1 1 3 10
      (by decide) (by decide) (by decide) hrow⟩

/-- C2, witness. Forty rows 1..40, the first thirty one day old: the cursors of
the two blocks stay at or below 40. -/
theorem purge_cursor_le_max_rowid_witness :
    (tableSql.selectMaxRowid (Table.range 1 40 30) = some 40 ∧
      (∀ lo, tableSql.selectMinRowid (Table.range 1 40 30) = some lo → RowidsValid lo 40)) ∧
    ((purgeReadings tableSql scaleExact 100 (Table.range 1 40 30) 20 1 0 0).cursors = [21, 31] ∧
      ∀ x ∈ (purgeReadings tableSql scaleExact 100 (Table.range 1 40 30) 20 1 0 0).cursors,
        x ≤ 40) :=
  have hrow : ∀ lo, tableSql.selectMinRowid (Table.range 1 40 30) = some lo → RowidsValid lo 40 :=
    fun lo h => by
      have h1 : tableSql.selectMinRowid (Table.range 1 40 30) = some 1 := by decide
      rw [h1] at h
      cases h
      exact ⟨by decide, by decide⟩
  ⟨⟨by decide, hrow⟩, by decide,
    purge_cursor_le_max_rowid tableSql scaleExact 100 (Table.range 1 40 30) 20 1 0 0 40
      (by decide) hrow⟩

/-- C3, failing input. Rows 1..4 are present, rows 1 and 2 are older than one
hour and rows 3 and 4 are not, so the largest rowid that satisfies the age
predicate is 2. The locator probes 2 (found), then 3 (not found) and leaves the
loop with `m = 3`: `rowidLimit` is a row that fails the predicate, and the
delete loop removes it with `DELETE ... WHERE rowid <= 3`. -/
theorem locator_returns_row_that_fails_predicate :
    (locate (fun m => tableSql.selectIdOlder (Table.range 1 4 2) m 1) 100 1 4 1)
      = { status := Status.completed, m := 3, probed := [2, 3], iters := 2 } ∧
    tableSql.selectIdOlder (Table.range 1 4 2) 2 1 = some 2 ∧
    tableSql.selectIdOlder (Table.range 1 4 2) 3 1 = some 0 ∧
    (purgeReadings tableSql scaleExact 100 (Table.range 1 4 2) 20 1 0 0).cursors = [3] ∧
    (purgeReadings tableSql scaleExact 100 (Table.range 1 4 2) 20 1 0 0).result.removed = 3 := by
  refine ⟨by decide, by decide, by decide, by decide, by decide⟩

/-! ## Properties of the adaptive block size -/

theorem clampBlockSize_ok (k : Int) : BlockSizeOk (clampBlockSize (k * 5)) := by
  unfold clampBlockSize MIN_PURGE_DELETE_BLOCK_SIZE MAX_PURGE_DELETE_BLOCK_SIZE BlockSizeOk
  by_cases h1 : k * 5 < 20
  · simp only [h1, if_true]
    norm_num
  · simp only [h1, if_false]
    by_cases h2 : k * 5 > 1500
    · simp only [h2, if_true]
      norm_num
    · simp only [h2, if_false]
      exact ⟨by omega, by omega, Dvd.intro_left k rfl⟩

theorem resize_ok (scale : Int → Int → Int) (b avg : Int) (hb : BlockSizeOk b) :
    BlockSizeOk (resize scale b avg) := by
  unfold resize
  simp only []
  split
  · exact clampBlockSize_ok _
  · exact hb

theorem afterBlock_ok (scale : Int → Int → Int) (c : Ctl) (usecs : Int)
    (hc : BlockSizeOk c.purgeBlockSize) : BlockSizeOk (afterBlock scale c usecs).purgeBlockSize := by
  unfold afterBlock
  simp only []
  split
  · exact resize_ok scale _ _ hc
  · exact hc

theorem blocks_ok (scale : Int → Int → Int) (times : List Int) :
    ∀ c : Ctl, BlockSizeOk c.purgeBlockSize →
      BlockSizeOk (times.foldl (afterBlock scale) c).purgeBlockSize := by
  induction times with
  | nil => intro c hc; exact hc
  | cons t ts ih => intro c hc; exact ih _ (afterBlock_ok scale c t hc)

/-- C4. Adaptive block size invariant: starting from the initial value 20, after
any sequence of purge calls with any measured block times, and whatever the
float statements compute, `purgeBlockSize` is in [20, 1500] and a multiple
of 5. -/
theorem purgeBlockSize_in_bounds_and_multiple_of_five (scale : Int → Int → Int)
    (calls : List (List Int)) :
    20 ≤ blockSizeAfter scale calls ∧ blockSizeAfter scale calls ≤ 1500 ∧
      5 ∣ blockSizeAfter scale calls := by
  have key : ∀ (cs : List (List Int)) (b : Int), BlockSizeOk b →
      BlockSizeOk (cs.foldl
        (fun b times => (times.foldl (afterBlock scale) (Ctl.start b)).purgeBlockSize) b) := by
    intro cs
    induction cs with
    | nil => intro b hb; exact hb
    | cons t ts ih => intro b hb; exact ih _ (blocks_ok scale t (Ctl.start b) hb)
  exact key calls PURGE_DELETE_BLOCK_SIZE ⟨by decide, by decide, by decide⟩

/-- The delete loop leaves a block size that is in bounds if it found one. -/
theorem deleteLoop_blockSize_ok {σ : Type} (ops : Sql σ) (scale : Int → Int → Int)
    (rowidLimit : Nat) :
    ∀ (fuel : Nat) (s : σ) (rowidMin : Nat) (c : Ctl) (deletedRows : Nat),
      BlockSizeOk c.purgeBlockSize →
      BlockSizeOk (deleteLoop ops scale rowidLimit fuel s rowidMin c deletedRows).ctl.purgeBlockSize := by
  intro fuel
  induction fuel with
  | zero =>
    intro s rowidMin c d hc
    simpa [deleteLoop] using hc
  | succ n ih =>
    intro s rowidMin c d hc
    unfold deleteLoop
    by_cases h : rowidMin < rowidLimit
    · simp only [h, if_true]
      split
      · exact hc
      · simp only [Deleted.after]
        exact ih _ _ _ _ (afterBlock_ok scale c _ hc)
    · simpa [h] using hc

/-- A call of `purgeReadings` leaves a block size that is in bounds if it found
one. -/
theorem purgeReadings_blockSize_ok {σ : Type} (ops : Sql σ) (scale : Int → Int → Int)
    (fuel : Nat) (s : σ) (purgeBlockSize : Int) (age flags sent : Nat)
    (hb : BlockSizeOk purgeBlockSize) :
    BlockSizeOk (purgeReadings ops scale fuel s purgeBlockSize age flags sent).purgeBlockSize := by
  unfold purgeReadings
  split
  · exact hb
  · split
    · exact hb
    · split
      · exact hb
      · simp only []
        split
        · exact hb
        · split
          · exact hb
          · split
            · exact hb
            · split
              · exact hb
              · split <;> exact deleteLoop_blockSize_ok _ _ _ _ _ _ _ _ hb

/-! ## Properties of the locator and of the result document -/

/-- C5, failing input. With `l = 0`, `r = 2` and probes that find no row the
bound of the claim is 3 iterations, yet for every amount of fuel the loop is
still running after that many iterations: at midpoint 0 the statement
`r = m - 1` wraps the unsigned bound to `2 ^ 64 - 1`. -/
theorem locator_never_ends_from_rowid_zero (fuel : Nat) :
    Nat.clog 2 (2 - 0 + 1) + 1 = 3 ∧
    (locate (fun _ => some 0) fuel 0 2 0).status = Status.outOfFuel ∧
    (locate (fun _ => some 0) fuel 0 2 0).iters = fuel := by
  refine ⟨by norm_num [Nat.clog], ?_⟩
  cases fuel with
  | zero => simp [locate]
  | succ n =>
    have h := locate_step_left (fun _ => some 0) n 0 2 0 (by decide) (by decide) rfl
    have e : (0 + (2 - 0) / 2 + U64 - 1) % U64 = 2 * 2 ^ 0 - 2 := by decide
    have e2 : 0 + (2 - 0) / 2 = 2 * 2 ^ 0 - 1 := by decide
    rw [h, e, e2]
    simp only [Located.after]
    have := (locate_underflow_cycle n).1 0 (by decide)
    exact ⟨this.1, by rw [this.2]⟩

/-- Without wrap-around (`1 ≤ L` and `U + 1 < 2 ^ 64`) the locator ends within
`⌈log₂(U - L + 1)⌉ + 1` iterations whatever the probes answer, and that much
fuel plus one is enough. -/
theorem locate_terminates_within_bound (probe : Nat → Option Nat) (fuel L U : Nat)
    (hL : 1 ≤ L) (hLU : L ≤ U) (hU : U + 1 < U64) :
    (locate probe fuel L U L).iters ≤ Nat.clog 2 (U - L + 1) + 1 ∧
    (Nat.clog 2 (U - L + 1) + 1 < fuel → (locate probe fuel L U L).status ≠ Status.outOfFuel) := by
  have h := locate_iters probe fuel L U L hL hU (by omega)
  have e : U + 1 - L = U - L + 1 := by omega
  rw [e] at h
  have hs := size_le_clog (U - L + 1)
  refine ⟨by omega, fun hf => h.2.2 (by omega)⟩

/-- C6, failing input. The rows 1, 2, 3 are all older than one hour and
`purgeReadings(age = 1, flags = 0, sent = 0)` deletes every row from
`min(rowid)` to `max(rowid)`: the document reports `readings` as
`3 - 1 - 3 = -1`. -/
theorem purge_reports_negative_readings :
    (purgeReadings tableSql scaleExact 100 (Table.range 1 3 3) 20 1 0 0).status
      = Status.completed ∧
    (purgeReadings tableSql scaleExact 100 (Table.range 1 3 3) 20 1 0 0).db.rows = [] ∧
    (purgeReadings tableSql scaleExact 100 (Table.range 1 3 3) 20 1 0 0).result
      = { removed := 3, unsentPurged := 3, unsentRetained := 0, readings := -1 } := by
  refine ⟨by decide, by decide, by decide⟩

/-- C7. PurgeResult arithmetic: when `purgeReadings` runs to completion on a
snapshot with valid rowids, the reported `readings` equals
`maxRowid - minRowid - removed` and `unsentRetained` equals `maxRowid - R`, with
`maxRowid` and `minRowid` the values read at the start and `R` the final
midpoint of the locator. -/
theorem purge_result_arithmetic {σ : Type} (ops : Sql σ) (scale : Int → Int → Int) (fuel : Nat)
    (s : σ) (purgeBlockSize : Int) (age flags sent hi lo age1 : Nat)
    (hmax : ops.selectMaxRowid s = some hi) (hmin : ops.selectMinRowid s = some lo)
    (hage : effectiveAge ops s age hi = some age1) (hrow : RowidsValid lo hi)
    (hdone : (purgeReadings ops scale fuel s purgeBlockSize age flags sent).status
      = Status.completed) :
    (purgeReadings ops scale fuel s purgeBlockSize age flags sent).result.readings
      = (hi : Int) - (lo : Int)
        - (purgeReadings ops scale fuel s purgeBlockSize age flags sent).result.removed ∧
    (purgeReadings ops scale fuel s purgeBlockSize age flags sent).result.unsentRetained
      = (hi : Int) - ((locate (fun m => ops.selectIdOlder s m age1) fuel
          (searchBounds flags sent lo hi).1 (searchBounds flags sent lo hi).2 lo).m : Int) := by
  obtain ⟨hi1, lo1, age2, unsent, deleted, h1, h2, h3, h4, h5, h6⟩ :=
    purgeReadings_completed ops scale fuel s purgeBlockSize age flags sent hdone
  rw [hmax] at h1; cases h1
  rw [hmin] at h2; cases h2
  rw [hage] at h3; cases h3
  have hb := purgeReadings_locate_le (fun m => ops.selectIdOlder s m age1) fuel flags sent lo hi
    hrow h4
  have hb1 : (searchBounds flags sent lo hi).1 = lo := rfl
  rw [hb1] at hb
  obtain ⟨hlo, hlt, hle, _, hR1, hR2⟩ := hb
  have hhi : hi < 2 ^ 63 := hrow.2
  rw [U32_eq] at h5
  rw [h6]
  simp only [finalResult, hb1]
  constructor
  · by_cases hd : deleted ≤ hi - lo
    · have e : ((hi + U64 - lo) % U64 + U64 - deleted) % U64 = hi - lo - deleted := by
        rw [U64_eq]; omega
      rw [e, toInt64_of_lt (by omega)]
      omega
    · have e : ((hi + U64 - lo) % U64 + U64 - deleted) % U64 = hi + U64 - lo - deleted := by
        rw [U64_eq]; omega
      rw [e, toInt64_of_ge (by rw [U64_eq]; omega) (by rw [U64_eq]; omega)]
      rw [U64_eq]
      omega
  · have e : (hi + U64 - (locate (fun m => ops.selectIdOlder s m age1) fuel lo
        (searchBounds flags sent lo hi).2 lo).m) % U64
        = hi - (locate (fun m => ops.selectIdOlder s m age1) fuel lo
        (searchBounds flags sent lo hi).2 lo).m := by
      rw [U64_eq]; omega
    rw [e, toInt64_of_lt (by omega)]
    omega

/-- C7, witness. Ten rows 1..10, the first five one day old, sent id 3 with
retain-unsent: the run completes with `readings = 10 - 1 - 3` and
`unsentRetained = 10 - 3`. -/
theorem purge_result_arithmetic_witness :
    (tableSql.selectMaxRowid (Table.range 1 10 5) = some 10 ∧
      tableSql.selectMinRowid (Table.range 1 10 5) = some 1 ∧
      effectiveAge tableSql (Table.range 1 10 5) 1 10 = some 1 ∧ RowidsValid 1 10 ∧
      (purgeReadings tableSql scaleExact 100 (Table.range 1 10 5) 20 1 1 3).status
        = Status.completed) ∧
    ((purgeReadings tableSql scaleExact 100 (Table.range 1 10 5) 20 1 1 3).result.readings
      = (10 : Int) - (1 : Int)
        - (purgeReadings tableSql scaleExact 100 (Table.range 1 10 5) 20 1 1 3).result.removed ∧
    (purgeReadings tableSql scaleExact 100 (Table.range 1 10 5) 20 1 1 3).result.unsentRetained
      = (10 : Int) - ((locate (fun m => tableSql.selectIdOlder (Table.range 1 10 5) m 1) 100
          (searchBounds 1 3 1 10).1 (searchBounds 1 3 1 10).2 1).m : Int)) :=
  ⟨⟨by decide, by decide, by decide, ⟨by decide, by decide⟩, by decide⟩,
    purge_result_arithmetic tableSql scaleExact 100 (Table.range 1 10 5) 20 1 1 3 10 1 1
      (by decide) (by decide) (by decide) (⟨by decide, by decide⟩) (by decide)⟩

/-! ## Lemmas on appendReadings -/

theorem intercalate_go_eq (sep : String) :
    ∀ (l : List String) (acc : String), String.intercalate.go acc sep l = acc ++ tailText sep l := by
  intro l
  induction l with
  | nil => intro acc; simp [String.intercalate.go, tailText]
  | cons a as ih =>
    intro acc
    rw [String.intercalate.go, ih, tailText]
    simp only [String.append_assoc]

/-- The columns after `user_ts`, regrouped around the `read_key` literal. -/
theorem appendColumns_eq (sql : String) (o : ReadingObject) :
    appendColumns sql o = sql ++ (",'" ++ (o.asset_code ++ ("', " ++
      (readKeyLiteral o.read_key ++ (", '" ++ (o.reading ++ "')")))))) := by
  unfold appendColumns readKeyLiteral
  cases hk : o.read_key with
  | none =>
    apply String.ext
    simp [String.data_append]
  | some k =>
    by_cases h : k = "None"
    · simp only [h, ne_eq, not_true_eq_false, if_false, if_true]
      apply String.ext
      simp [String.data_append]
    · simp only [h, ne_eq, not_false_eq_true, if_true, if_false]
      apply String.ext
      simp [String.data_append]

/-- The loop body adds the tuple of an accepted element after the separator and
leaves the buffer alone for a rejected one. -/
theorem appendElement_eq (formatDate : String → Option String) (now sql : String) (row : Nat)
    (o : ReadingObject) :
    appendElement formatDate now sql row o =
      if accepted formatDate o then (sql ++ (separator row ++ valueTuple formatDate now o), row + 1)
      else (sql, row) := by
  have hop : ∀ t : String, (sql ++ opener row) ++ t = sql ++ (separator row ++ ("(" ++ t)) := by
    intro t
    unfold opener separator
    by_cases hr : row = 0
    · simp only [hr, ne_eq, not_true_eq_false, if_false]
      apply String.ext
      simp [String.data_append]
    · simp only [hr, ne_eq, not_false_eq_true, if_true]
      apply String.ext
      simp [String.data_append]
  unfold appendElement appendUserTs accepted valueTuple userTsLiteral
  by_cases hnow : o.user_ts = "now()"
  · simp only [hnow, if_true, decide_True, Bool.true_or]
    rw [appendColumns_eq, hop]
    simp only [String.append_assoc]
  · simp only [hnow, if_false, decide_False, Bool.false_or]
    cases hf : formatDate o.user_ts with
    | none => simp
    | some d =>
      simp only [Option.isSome_some, if_true]
      rw [appendColumns_eq]
      have := hop ("'" ++ (d ++ ("'" ++ (",'" ++ (o.asset_code ++ ("', " ++
        (readKeyLiteral o.read_key ++ (", '" ++ (o.reading ++ "')")))))))))
      simp only [String.append_assoc] at this ⊢
      rw [this]

/-- The loop over an array of objects appends the tuples of the accepted
elements, each after its separator. -/
theorem appendLoop_objects (formatDate : String → Option String) (now : String) :
    ∀ (objs : List ReadingObject) (sql : String) (row : Nat),
      appendLoop formatDate now (objs.map ReadingValue.object) sql row =
        some (sql ++ (if row = 0 then
          ", ".intercalate ((objs.filter (accepted formatDate)).map (valueTuple formatDate now))
          else tailText ", "
            ((objs.filter (accepted formatDate)).map (valueTuple formatDate now)))) := by
  intro objs
  induction objs with
  | nil =>
    intro sql row
    simp [appendLoop, String.intercalate, tailText]
  | cons o os ih =>
    intro sql row
    simp only [List.map_cons, appendLoop]
    rw [appendElement_eq]
    by_cases ha : accepted formatDate o = true
    · simp only [ha, if_true, List.filter_cons_of_pos, List.map_cons]
      rw [ih]
      simp only [Nat.add_one_ne_zero, if_false]
      by_cases hr : row = 0
      · simp only [hr, if_true, separator, ne_eq, not_true_eq_false, if_false,
          String.intercalate, intercalate_go_eq]
        simp only [String.append_assoc, String.empty_append]
      · simp only [hr, if_false, separator, ne_eq, not_false_eq_true, if_true, tailText]
        simp only [String.append_assoc]
    · simp only [ha, Bool.false_eq_true, if_false]
      rw [ih]
      simp [List.filter_cons, ha]

/-! ## Properties of appendReadings -/

/-- C8. Append skips invalid dates: for every `readings` array of objects, and
whatever the date validator, the single INSERT statement built by
`appendReadings` is the header, then one value tuple for each element whose
`user_ts` is `now()` or is accepted by the validator, in input order and
separated by `, `, then `;`. Rejected elements contribute nothing and do not
abort the batch. -/
theorem append_statement_has_tuples_of_accepted (formatDate : String → Option String)
    (now : String) (objs : List ReadingObject) :
    appendReadingsSql formatDate now (Payload.readings (objs.map ReadingValue.object)) =
      some ((INSERT_HEADER ++
        ", ".intercalate ((objs.filter (accepted formatDate)).map (valueTuple formatDate now)))
        ++ ";") := by
  simp only [appendReadingsSql]
  rw [appendLoop_objects]
  simp

/-- C9. `user_ts` stored verbatim: for every `user_ts` that is not `now()` and
passes validation, the text `appendReadings` places between the quotes that open
the value tuple is the string as supplied. -/
theorem append_user_ts_verbatim (now sql : String) (row : Nat) (str : String)
    (hnow : str ≠ "now()") (hvalid : validDate str = true) :
    appendUserTs formatDate now sql row str = ((((sql ++ opener row) ++ "'") ++ str) ++ "'", true) := by
  unfold appendUserTs formatDate
  simp [hnow, hvalid]

/-- C9, witness. The timestamp of the payload example. -/
theorem append_user_ts_verbatim_witness :
    ("2019-01-11 15:45:01.123456+01:00" ≠ "now()" ∧
      validDate "2019-01-11 15:45:01.123456+01:00" = true) ∧
    appendUserTs formatDate "NOW" INSERT_HEADER 0 "2019-01-11 15:45:01.123456+01:00" =
      ((((INSERT_HEADER ++ opener 0) ++ "'") ++ "2019-01-11 15:45:01.123456+01:00") ++ "'", true) :=
  ⟨⟨by decide, by decide⟩,
    append_user_ts_verbatim "NOW" INSERT_HEADER 0 "2019-01-11 15:45:01.123456+01:00"
      (by decide) (by decide)⟩

/-- C10. read_key coercion: for every reading that is appended, the text after
its `user_ts` is the quoted asset code, then at the `read_key` position the SQL
literal `NULL` when the reading has no read key or its read key is the string
`None` and the single-quoted read key otherwise, then the quoted reading. -/
theorem append_read_key_null_or_quoted (sql : String) (o : ReadingObject) :
    appendColumns sql o = sql ++ (",'" ++ (o.asset_code ++ ("', " ++
      ((match o.read_key with
        | none => "NULL"
        | some k => if k = "None" then "NULL" else ("'" ++ k) ++ "'") ++
      (", '" ++ (o.reading ++ "')")))))) := by
  rw [appendColumns_eq]
  cases o.read_key <;> rfl

/-! ## Properties of the query compiler -/

/-- C18, failing input. A payload that selects, or aggregates, the property `x`
of the JSON column `reading` and has no `where` key: the constraint
`json_type(reading, '$.x') IS NOT NULL` is collected in the second buffer and
the statement is built without it. With a `where` key it is appended. -/
theorem json_constraint_dropped_without_where (H : Helpers) :
    retrieveReadingsSql H (Condition.document (Json.obj [("return", Json.arr [Json.obj
        [("json", Json.obj [("column", Json.str "reading"), ("properties", Json.str "x")])]])]))
      = Res.ok ⟨"SELECT json_extract(reading, '$.x') FROM foglamp.readings;",
          "json_type(reading, '$.x') IS NOT NULL"⟩ ∧
    retrieveReadingsSql H (Condition.document (Json.obj [("aggregate", Json.obj
        [("operation", Json.str "min"), ("json", Json.obj [("column", Json.str "reading"),
          ("properties", Json.str "x")]), ("alias", Json.str "m")])]))
      = Res.ok ⟨"SELECT min(json_extract(reading, '$.x')) AS \"m\" FROM foglamp.readings WHERE asset_code = asset_code;",
          "json_type(reading, '$.x') IS NOT NULL"⟩ ∧
    retrieveReadingsSql H (Condition.document (Json.obj [("return", Json.arr [Json.obj
        [("json", Json.obj [("column", Json.str "reading"), ("properties", Json.str "x")])]]),
        ("where", Json.obj [("column", Json.str "id"), ("condition", Json.str ">"),
          ("value", Json.int 5)])]))
      = Res.ok ⟨"SELECT json_extract(reading, '$.x') FROM foglamp.readings WHERE id > 5 AND json_type(reading, '$.x') IS NOT NULL;",
          "json_type(reading, '$.x') IS NOT NULL"⟩ := by
  refine ⟨?_, ?_, ?_⟩ <;> rfl

set_option maxRecDepth 8192 in
/-- C12. Empty DSL selects everything: for the empty condition string and for
the empty object a statement is built, and both statements consist of the same
words: the projection of id, asset_code, read_key, reading, the
localtime-formatted user_ts and the localtime-formatted ts from
foglamp.readings, with no WHERE, GROUP BY, ORDER BY, LIMIT or OFFSET. -/
theorem empty_condition_and_empty_object_select_all (H : Helpers) :
    (retrieveReadingsSql H Condition.empty).statement.map sqlWords =
      some ["SELECT", "id,", "asset_code,", "read_key,", "reading,",
        "strftime('%Y-%m-%d", "%H:%M:%S',", "user_ts,", "'localtime')", "||",
        "substr(user_ts,", "instr(user_ts,", "'.'),", "7)", "AS", "user_ts,",
        "strftime('%Y-%m-%d", "%H:%M:%f',", "ts,", "'localtime')", "AS", "ts",
        "FROM", "foglamp.readings;"] ∧
    (retrieveReadingsSql H (Condition.document (Json.obj []))).statement.map sqlWords =
      (retrieveReadingsSql H Condition.empty).statement.map sqlWords := by
  refine ⟨?_, ?_⟩ <;> rfl

/-- C19, counterexample. For the payload with `return` = ["ts"] the statement
formats `ts` with `%Y-%m-%d %H:%M:%f`; its words for that column differ from
the words of the expression of the claim, whose format is
`%Y-%m-%d %H:%M:%S.%f`, also when the case of `AS` is ignored. -/
theorem bare_ts_format_is_not_seconds_dot_fraction :
    (retrieveReadingsSql sampleHelpers (Condition.document (Json.obj
        [("return", Json.arr [Json.str "ts"])]))).statement
      = some "SELECT  strftime('%Y-%m-%d %H:%M:%f', ts, 'localtime')  as ts  FROM foglamp.readings;" ∧
    (sqlWords " strftime('%Y-%m-%d %H:%M:%f', ts, 'localtime')  as ts ").map normalizeKeyword
      ≠ (sqlWords "strftime('%Y-%m-%d %H:%M:%S.%f', ts, 'localtime') AS ts").map
          normalizeKeyword := by
  refine ⟨by decide, by decide⟩

/-- C19, as amended. Bare ts projection: for an element of the `return` array
that is the bare string "ts", retrieveReadings appends, after the comma that
separates it from an earlier element, the expression
`strftime('%Y-%m-%d %H:%M:%f', ts, 'localtime') AS ts`, up to white space and
the case of the keyword. -/
theorem bare_ts_projection (H : Helpers) (col : Nat) (b : Buffers) :
    returnElement H col (Json.str "ts") b
      = Res.ok (((if col ≠ 0 then b.append ", " else b).append
          " strftime('%Y-%m-%d %H:%M:%f', ts, 'localtime') ").append " as ts ") ∧
    (sqlWords (" strftime('%Y-%m-%d %H:%M:%f', ts, 'localtime') " ++ " as ts ")).map
        normalizeKeyword
      = (sqlWords "strftime('%Y-%m-%d %H:%M:%f', ts, 'localtime') AS ts").map normalizeKeyword := by
  refine ⟨?_, by decide⟩
  have h : (" strftime('" ++ F_DATEH24_MS ++ "', ts, 'localtime') " : String)
      = " strftime('%Y-%m-%d %H:%M:%f', ts, 'localtime') " := by decide
  simp [returnElement, getString, h]

/-- C20, counterexample. The timezone "UTC" is neither "utc" nor "localtime",
and the timezone "utc+01:00" is not either, yet for both the statement is
built, with 'utc' as the third argument of strftime. -/
theorem timezone_other_than_utc_is_accepted :
    ("UTC" ≠ "utc" ∧ "UTC" ≠ "localtime") ∧
    (retrieveReadingsSql sampleHelpers (Condition.document (Json.obj [("return", Json.arr
        [Json.obj [("column", Json.str "ts"), ("timezone", Json.str "UTC")]])]))).statement
      = some "SELECT strftime('%Y-%m-%d %H:%M:%f', ts, 'utc') AS ts  FROM foglamp.readings;" ∧
    (retrieveReadingsSql sampleHelpers (Condition.document (Json.obj [("return", Json.arr
        [Json.obj [("column", Json.str "ts"), ("timezone", Json.str "utc+01:00")]])]))).statement
      = some "SELECT strftime('%Y-%m-%d %H:%M:%f', ts, 'utc') AS ts  FROM foglamp.readings;" := by
  refine ⟨⟨by decide, by decide⟩, by decide, by decide⟩

/-- C20, as amended. Timezone values: for a `return` element object with a
string `column`, a string `timezone` and no `format`, the column is written
with 'utc' as the third argument of strftime when the timezone starts with
"utc" in any letter case, with 'localtime' when it starts with "localtime" in
any letter case, and for every other timezone string the element fails with an
error; a payload whose `return` array is that element then yields no
statement. -/
theorem timezone_values (H : Helpers) (e : List (String × Json)) (column tz : String)
    (b : Buffers) (hcol : lookup "column" e = some (Json.str column))
    (htz : lookup "timezone" e = some (Json.str tz)) (hfmt : lookup "format" e = none) :
    returnColumn H e b =
      (if startsWithNoCase tz "utc" then
        Res.ok ((dateColumn "utc" column (hasMember "alias" e) b).append " ")
      else if startsWithNoCase tz "localtime" then
        Res.ok ((dateColumn "localtime" column (hasMember "alias" e) b).append " ")
      else Res.error b) ∧
    (startsWithNoCase tz "utc" = false → startsWithNoCase tz "localtime" = false →
      (retrieveReadingsSql H (Condition.document (Json.obj
        [("return", Json.arr [Json.obj e])]))).statement = none) := by
  have h1 : returnColumn H e b =
      (if startsWithNoCase tz "utc" then
        Res.ok ((dateColumn "utc" column (hasMember "alias" e) b).append " ")
      else if startsWithNoCase tz "localtime" then
        Res.ok ((dateColumn "localtime" column (hasMember "alias" e) b).append " ")
      else Res.error b) := by
    unfold returnColumn
    simp only [hcol, htz, hfmt, hasMember, Option.isSome_none, Option.isSome_some]
    by_cases hu : startsWithNoCase tz "utc" = true
    · simp [hu, Res.andThen]
    · by_cases hl : startsWithNoCase tz "localtime" = true
      · simp [hu, hl, Res.andThen]
      · simp [hu, hl, Res.andThen]
  refine ⟨h1, ?_⟩
  intro hu hl
  have h2 : ∀ b, returnColumn H e b = Res.error b := by
    intro b
    unfold returnColumn
    simp [hcol, htz, hfmt, hasMember, hu, hl, Res.andThen]
  simp [retrieveReadingsSql, selectSection, lookup, selectModifier, hasMember, returnLoop,
    returnElement, hcol, h2, Res.andThen, Res.statement]

/-- C20, witness. The element with column `ts` and timezone "utc". -/
theorem timezone_values_witness :
    (lookup "column" [("column", Json.str "ts"), ("timezone", Json.str "utc")]
        = some (Json.str "ts") ∧
      lookup "timezone" [("column", Json.str "ts"), ("timezone", Json.str "utc")]
        = some (Json.str "utc") ∧
      lookup "format" [("column", Json.str "ts"), ("timezone", Json.str "utc")] = none) ∧
    (returnColumn sampleHelpers [("column", Json.str "ts"), ("timezone", Json.str "utc")]
        ⟨"SELECT ", ""⟩ =
      (if startsWithNoCase "utc" "utc" then
        Res.ok ((dateColumn "utc" "ts" (hasMember "alias"
          [("column", Json.str "ts"), ("timezone", Json.str "utc")]) ⟨"SELECT ", ""⟩).append " ")
      else if startsWithNoCase "utc" "localtime" then
        Res.ok ((dateColumn "localtime" "ts" (hasMember "alias"
          [("column", Json.str "ts"), ("timezone", Json.str "utc")]) ⟨"SELECT ", ""⟩).append " ")
      else Res.error ⟨"SELECT ", ""⟩) ∧
    (startsWithNoCase "utc" "utc" = false → startsWithNoCase "utc" "localtime" = false →
      (retrieveReadingsSql sampleHelpers (Condition.document (Json.obj
        [("return", Json.arr [Json.obj [("column", Json.str "ts"),
          ("timezone", Json.str "utc")]])]))).statement = none)) :=
  ⟨⟨rfl, rfl, rfl⟩,
    timezone_values sampleHelpers [("column", Json.str "ts"), ("timezone", Json.str "utc")]
      "ts" "utc" ⟨"SELECT ", ""⟩ rfl rfl rfl⟩

/-! ## Lemmas on the buffers -/

theorem Buffers.append_append (b : Buffers) (x y : String) :
    (b.append x).append y = b.append (x ++ y) := by
  simp [Buffers.append, String.append_assoc]

theorem Buffers.append_empty (b : Buffers) : b.append "" = b := by
  cases b
  simp [Buffers.append]

/-! ## Lemmas on fetchReadings -/

set_option maxRecDepth 8192 in
/-- The conversions of the format: every `%%` becomes `%`, `%lu` the id and
`%u` the block size. -/
theorem formatC_fetch (id blksize : Nat) :
    formatC FETCH_SQL_CMD.data [id, blksize] =
      FETCH_HEAD.data ++ ((toString (id % U64)).data ++
        ("\n\tORDER BY id ASC\n\tLIMIT ".data ++ ((toString (blksize % U32)).data ++ ";\n\t".data))) := by
  rfl

theorem length_decimal_u64 (k : Nat) (hk : k < U64) : (toString k).data.length ≤ 20 := by
  have h : k < 10 ^ 20 := lt_of_lt_of_le (U64_eq ▸ hk) (by norm_num)
  exact Nat.repr_length k 20 (by decide) h

theorem length_decimal_u32 (n : Nat) (hn : n < U32) : (toString n).data.length ≤ 10 := by
  have h : n < 10 ^ 10 := lt_of_lt_of_le (U32_eq ▸ hn) (by norm_num)
  exact Nat.repr_length n 10 (by decide) h

set_option maxRecDepth 8192 in
/-- The statement fits the buffer of 512 characters: `snprintf` cuts nothing. -/
theorem fetchReadingsSql_eq (k n : Nat) (hk : k < U64) (hn : n < U32) :
    fetchReadingsSql k n =
      FETCH_HEAD ++ (toString k ++ ("\n\tORDER BY id ASC\n\tLIMIT " ++ (toString n ++ ";\n\t"))) := by
  unfold fetchReadingsSql snprintf
  rw [formatC_fetch, Nat.mod_eq_of_lt hk, Nat.mod_eq_of_lt hn]
  apply String.ext
  simp only [String.data_append]
  apply List.take_of_length_le
  have h1 := length_decimal_u64 k hk
  have h2 := length_decimal_u32 n hn
  have h3 : FETCH_HEAD.data.length = 243 := by decide
  have h4 : "\n\tORDER BY id ASC\n\tLIMIT ".data.length = 25 := by decide
  have h5 : ";\n\t".data.length = 3 := by decide
  simp only [List.length_append, h3, h4, h5]
  omega

/-- The rows a fetch returns come from the table, have an id of at least `k`
and are at most `n`. -/
theorem selectFromId_mem (rows : List ReadingRow) (k n : Nat) :
    (selectFromId rows k n).length ≤ n ∧
    ∀ r ∈ selectFromId rows k n, r ∈ rows ∧ k ≤ r.id := by
  unfold selectFromId
  refine ⟨List.length_take_le _ _, ?_⟩
  intro r hr
  have h1 := List.mem_of_mem_take hr
  have h2 := (List.perm_insertionSort (fun a b : ReadingRow => a.id ≤ b.id) _).mem_iff.mp h1
  simpa using h2

/-- With ids that are a key, the rows of a fetch come in strictly increasing
order of id. -/
theorem selectFromId_increasing (rows : List ReadingRow) (k n : Nat)
    (hkey : (rows.map ReadingRow.id).Nodup) :
    (selectFromId rows k n).Pairwise fun a b => a.id < b.id := by
  unfold selectFromId
  have hsorted : ((rows.filter fun r => decide (k ≤ r.id)).insertionSort
      fun a b => a.id ≤ b.id).Pairwise fun a b => a.id ≤ b.id :=
    @List.sorted_insertionSort ReadingRow (fun a b => a.id ≤ b.id) _
      ⟨fun a b => Nat.le_total a.id b.id⟩ ⟨fun _ _ _ h1 h2 => Nat.le_trans h1 h2⟩ _
  have hnodup : ((rows.filter fun r => decide (k ≤ r.id)).insertionSort
      fun a b => a.id ≤ b.id).Pairwise fun a b => a.id ≠ b.id := by
    have h1 : (rows.filter fun r => decide (k ≤ r.id)).Pairwise fun a b => a.id ≠ b.id := by
      have h0 : rows.Pairwise fun a b => a.id ≠ b.id := by
        simpa [List.Nodup, List.pairwise_map] using hkey
      exact h0.sublist (List.filter_sublist _)
    exact (List.perm_insertionSort _ _).symm.pairwise h1 (fun h => Ne.symm h)
  have hboth := hsorted.and hnodup
  exact (hboth.imp fun h => lt_of_le_of_ne h.1 h.2).sublist (List.take_sublist _ _)

/-! ## Properties of fetchReadings -/

/-- C11. Fetch by id range: for every start id `k` and block size `n`, the
statement built by fetchReadings selects id, asset_code, read_key, reading and
the user_ts and ts formatted with the 'utc' modifier from foglamp.readings, with
the filter `id >= k`, the order `id ASC` and the limit `n`; under the relational
meaning of that statement over a table whose ids are a key the result has at
most `n` rows, all from the table and with id at least `k`, in strictly
increasing order of id. -/
theorem fetch_by_id_range (k n : Nat) (hk : k < U64) (hn : n < U32) (rows : List ReadingRow)
    (hkey : (rows.map ReadingRow.id).Nodup) :
    fetchReadingsSql k n =
      FETCH_HEAD ++ (toString k ++ ("\n\tORDER BY id ASC\n\tLIMIT " ++ (toString n ++ ";\n\t"))) ∧
    (selectFromId rows k n).length ≤ n ∧
    (∀ r ∈ selectFromId rows k n, r ∈ rows ∧ k ≤ r.id) ∧
    (selectFromId rows k n).Pairwise fun a b => a.id < b.id :=
  ⟨fetchReadingsSql_eq k n hk hn, (selectFromId_mem rows k n).1, (selectFromId_mem rows k n).2,
    selectFromId_increasing rows k n hkey⟩

set_option maxRecDepth 8192 in
/-- C11, witness. Rows 5, 2, 9, 7 fetched from id 4 in blocks of 2. -/
theorem fetch_by_id_range_witness :
    ((4 : Nat) < U64 ∧ (2 : Nat) < U32 ∧
      (([⟨5, "a"⟩, ⟨2, "b"⟩, ⟨9, "c"⟩, ⟨7, "d"⟩] : List ReadingRow).map ReadingRow.id).Nodup) ∧
    (sqlWords (fetchReadingsSql 4 2) =
      ["SELECT", "id,", "asset_code,", "read_key,", "reading,", "strftime('%Y-%m-%d",
        "%H:%M:%S',", "user_ts,", "'utc')", "||", "substr(user_ts,", "instr(user_ts,", "'.'),",
        "7)", "AS", "user_ts,", "strftime('%Y-%m-%d", "%H:%M:%f',", "ts,", "'utc')", "AS", "ts",
        "FROM", "foglamp.readings", "WHERE", "id", ">=", "4", "ORDER", "BY", "id", "ASC",
        "LIMIT", "2;"] ∧
      selectFromId [⟨5, "a"⟩, ⟨2, "b"⟩, ⟨9, "c"⟩, ⟨7, "d"⟩] 4 2 = [⟨5, "a"⟩, ⟨7, "d"⟩]) ∧
    (fetchReadingsSql 4 2 =
      FETCH_HEAD ++ (toString 4 ++ ("\n\tORDER BY id ASC\n\tLIMIT " ++ (toString 2 ++ ";\n\t"))) ∧
    (selectFromId [⟨5, "a"⟩, ⟨2, "b"⟩, ⟨9, "c"⟩, ⟨7, "d"⟩] 4 2).length ≤ 2 ∧
    (∀ r ∈ selectFromId [⟨5, "a"⟩, ⟨2, "b"⟩, ⟨9, "c"⟩, ⟨7, "d"⟩] 4 2,
      r ∈ ([⟨5, "a"⟩, ⟨2, "b"⟩, ⟨9, "c"⟩, ⟨7, "d"⟩] : List ReadingRow) ∧ 4 ≤ r.id) ∧
    (selectFromId [⟨5, "a"⟩, ⟨2, "b"⟩, ⟨9, "c"⟩, ⟨7, "d"⟩] 4 2).Pairwise
      fun a b => a.id < b.id) :=
  ⟨⟨by decide, by decide, by decide⟩, ⟨by decide, by decide⟩,
    fetch_by_id_range 4 2 (by decide) (by decide) [⟨5, "a"⟩, ⟨2, "b"⟩, ⟨9, "c"⟩, ⟨7, "d"⟩]
      (by decide)⟩

/-! ## Lemmas on where trees -/

theorem renderTokens_append :
    ∀ xs ys : List Token, renderTokens (xs ++ ys) = renderTokens xs ++ renderTokens ys := by
  intro xs
  induction xs with
  | nil => intro ys; simp [renderTokens]
  | cons x rest ih =>
    intro ys
    cases x <;> simp [renderTokens, ih, String.append_assoc]

theorem EndsSafe.prepend (s : String) {t : String} (h : EndsSafe t) : EndsSafe (s ++ t) := by
  obtain ⟨u, c, hu, hc⟩ := h
  exact ⟨s.data ++ u, c, by simp [String.data_append, hu], hc⟩

theorem EndsSafe.of_literal (s : String) (c : Char) (hc : c ≠ 'e') :
    EndsSafe (s ++ String.mk [c]) :=
  ⟨s.data, c, by simp [String.data_append], hc⟩

theorem toDigitsCore_last :
    ∀ (fuel n : Nat) (ds : List Char),
      ∃ u, Nat.toDigitsCore 10 (fuel + 1) n ds = u ++ Nat.digitChar (n % 10) :: ds := by
  intro fuel
  induction fuel with
  | zero =>
    intro n ds
    refine ⟨[], ?_⟩
    simp [Nat.toDigitsCore]
  | succ fuel ih =>
    intro n ds
    by_cases h : n / 10 = 0
    · refine ⟨[], ?_⟩
      rw [Nat.toDigitsCore]
      simp [h]
    · obtain ⟨u, hu⟩ := ih (n / 10) (Nat.digitChar (n % 10) :: ds)
      refine ⟨u ++ [Nat.digitChar (n / 10 % 10)], ?_⟩
      rw [Nat.toDigitsCore]
      simp only [h, if_false]
      rw [hu]
      simp

theorem digitChar_ne_e (n : Nat) : Nat.digitChar (n % 10) ≠ 'e' := by
  have h : n % 10 < 10 := Nat.mod_lt _ (by decide)
  generalize n % 10 = m at h
  interval_cases m <;> decide

theorem natRepr_endsSafe (n : Nat) : EndsSafe (Nat.repr n) := by
  obtain ⟨u, hu⟩ := toDigitsCore_last n n []
  exact ⟨u, Nat.digitChar (n % 10), by simp [Nat.repr, Nat.toDigits, List.asString, hu],
    digitChar_ne_e n⟩

theorem decimal_endsSafe (i : Int) : EndsSafe (decimal i) := by
  cases i with
  | ofNat n => exact natRepr_endsSafe n
  | negSucc n => exact EndsSafe.prepend "-" (natRepr_endsSafe (n + 1))

theorem EndsSafe.ne_hint {t : String} (h : EndsSafe t) : t ≠ "asset_code = asset_code" := by
  intro e
  obtain ⟨u, c, hu, hc⟩ := h
  rw [e] at hu
  have hl := congrArg List.getLast? hu
  rw [List.getLast?_append] at hl
  simp at hl
  exact hc hl.symm

theorem Buffers.append_cancel (b : Buffers) (x y : String) (h : b.append x = b.append y) :
    x = y := by
  have hs := congrArg Buffers.sql h
  simp only [Buffers.append] at hs
  have hd := congrArg String.data hs
  simp only [String.data_append] at hd
  exact String.ext (List.append_cancel_left hd)

theorem Res.andThen_assoc (r : Res) (f g : Buffers → Res) :
    (r.andThen f).andThen g = r.andThen fun b => (f b).andThen g := by
  cases r <;> rfl

theorem Res.andThen_ok_iff (r : Res) (f : Buffers → Res) (b' : Buffers) :
    r.andThen f = Res.ok b' ↔ ∃ b1, r = Res.ok b1 ∧ f b1 = Res.ok b' := by
  cases r <;> simp [Res.andThen]

theorem Buffers.eq_of_data {x y : Buffers} (h1 : x.sql.data = y.sql.data)
    (h2 : x.jsonConstraints = y.jsonConstraints) : x = y := by
  cases x
  cases y
  simp only [Buffers.mk.injEq]
  exact ⟨String.ext h1, h2⟩

theorem whereTokens_obj (cl : Bool) (kvs : List (String × Json)) :
    whereTokens cl (Json.obj kvs) =
      match whereLeaf cl kvs, memberTokens cl Token.and "and" kvs,
        memberTokens cl Token.or "or" kvs with
      | some text, some conj, some disj => some (Token.leaf text :: (conj ++ disj))
      | _, _, _ => none := by
  rw [whereTokens]

theorem memberTokens_eq (cl : Bool) (connective : Token) (key : String) :
    ∀ kvs : List (String × Json),
      memberTokens cl connective key kvs =
        match lookup key kvs with
        | some v =>
          (whereTokens cl v).map fun ts => connective :: Token.opening :: (ts ++ [Token.closing])
        | none => some [] := by
  intro kvs
  induction kvs with
  | nil => simp [memberTokens, lookup]
  | cons kv rest ih =>
    obtain ⟨k, v⟩ := kv
    by_cases h : k = key
    · cases hv : whereTokens cl v <;> simp [memberTokens, lookup, h, hv]
    · simp [memberTokens, lookup, h, ih]

/-- The text of the example of C13 and of the tree with the same conditions
side by side: the parentheses tell them apart. -/
theorem nested_or_text :
    jsonWhereClause sampleHelpers false nestedOrTree (Buffers.mk "" "") =
        Res.ok ⟨"a = 1 AND (b = 2 OR (c = 3))", ""⟩ ∧
      jsonWhereClause sampleHelpers false siblingOrTree (Buffers.mk "" "") =
        Res.ok ⟨"a = 1 AND (b = 2) OR (c = 3)", ""⟩ ∧
      whereTree false siblingOrTree =
        some (Where.or (Where.and (Where.leaf "a = 1") (Where.leaf "b = 2"))
          (Where.leaf "c = 3")) := by
  refine ⟨?_, ?_, ?_⟩ <;> rfl

/-! ## Lemmas on the conditions of a where clause -/

theorem whereTokens_leaf (cl : Bool) (kvs : List (String × Json)) (text : String)
    (hleaf : whereLeaf cl kvs = some text) (hand : lookup "and" kvs = none)
    (hor : lookup "or" kvs = none) : whereTokens cl (Json.obj kvs) = some [Token.leaf text] := by
  rw [whereTokens_obj, memberTokens_eq, memberTokens_eq]
  simp [hleaf, hand, hor]

theorem jsonWhereClause_leaf (H : Helpers) (cl : Bool) (kvs : List (String × Json))
    (text : String) (b : Buffers) (hleaf : whereLeaf cl kvs = some text)
    (hand : lookup "and" kvs = none) (hor : lookup "or" kvs = none) :
    jsonWhereClause H cl (Json.obj kvs) b = Res.ok (b.append text) := by
  simp [jsonWhereClause, whereTokens_leaf cl kvs text hleaf hand hor, renderTokens]

/-- C15. `in` / `not in` lists: for a where leaf (no `and`, no `or`) with
condition `in` or `not in`, `jsonWhereClause` returns true with
`column <cond> ( v1, v2, ... )`, the elements in input order, numbers as
numerals and strings quoted with their quotes doubled, when the value is a
non-empty array whose elements are all numbers or strings; in every other case
(not an array, an empty array, an element of another type) it returns false and
appends nothing. -/
theorem in_list_clause (H : Helpers) (cl : Bool) (kvs : List (String × Json))
    (column cond : String) (value : Json) (b : Buffers)
    (hcol : lookup "column" kvs = some (Json.str column))
    (hcond : lookup "condition" kvs = some (Json.str cond))
    (hin : cond = "in" ∨ cond = "not in")
    (hval : lookup "value" kvs = some value)
    (hand : lookup "and" kvs = none) (hor : lookup "or" kvs = none) :
    (∀ vs, value = Json.arr vs → vs ≠ [] → vs.all isScalar = true →
      jsonWhereClause H cl (Json.obj kvs) b =
        Res.ok (b.append (column ++ (" " ++ (cond ++ (" ( " ++
          (", ".intercalate (vs.map scalarText) ++ " )"))))))) ∧
    ((¬ ∃ vs, value = Json.arr vs ∧ vs ≠ [] ∧ vs.all isScalar = true) →
      jsonWhereClause H cl (Json.obj kvs) b = Res.error b) := by
  have hne0 : cond ∉ comparisons := by rcases hin with h | h <;> rw [h] <;> decide
  have hne1 : cond ≠ "older" := by rcases hin with h | h <;> rw [h] <;> decide
  have hne2 : cond ≠ "newer" := by rcases hin with h | h <;> rw [h] <;> decide
  constructor
  · intro vs hv hne hall
    subst hv
    have hempty : vs.isEmpty = false := by cases vs <;> simp_all
    have hleaf : whereLeaf cl kvs = some ((column ++ " ") ++ ((cond ++ " ") ++ inListText vs)) := by
      unfold whereLeaf
      simp only [hcol, hcond, hval, conditionText, hne0, hne1, hne2, hin, if_true, if_false,
        hempty, hall, and_self, Option.map_some']
    rw [jsonWhereClause_leaf H cl kvs _ b hleaf hand hor]
    congr 2
    apply String.ext
    simp [inListText, String.data_append]
  · intro hnot
    have hnone : whereLeaf cl kvs = none := by
      unfold whereLeaf
      simp only [hcol, hcond, hval, conditionText, hne0, hne1, hne2, hin, if_true, if_false]
      cases value with
      | arr vs =>
        have h : ¬ (vs.isEmpty = false ∧ vs.all isScalar = true) := by
          intro h
          exact hnot ⟨vs, rfl, by intro e; subst e; simp at h, h.2⟩
        simp only [h, if_false, Option.map_none']
      | _ => rfl
    simp [jsonWhereClause, whereTokens_obj, hnone]

/-- C15, witness. The leaf `id in ( 1, 'a''b' )`. -/
theorem in_list_clause_witness :
    (lookup "column" idInList = some (Json.str "id") ∧
      lookup "condition" idInList = some (Json.str "in") ∧
      ("in" = "in" ∨ "in" = "not in") ∧
      lookup "value" idInList = some (Json.arr [Json.int 1, Json.str "a'b"]) ∧
      lookup "and" idInList = none ∧ lookup "or" idInList = none) ∧
    (jsonWhereClause sampleHelpers false (Json.obj idInList) ⟨"", ""⟩ =
      Res.ok ⟨"id in ( 1, 'a''b' )", ""⟩) ∧
    ((∀ vs, Json.arr [Json.int 1, Json.str "a'b"] = Json.arr vs → vs ≠ [] →
        vs.all isScalar = true →
        jsonWhereClause sampleHelpers false (Json.obj idInList) ⟨"", ""⟩ =
          Res.ok ((Buffers.mk "" "").append ("id" ++ (" " ++ ("in" ++ (" ( " ++
            (", ".intercalate (vs.map scalarText) ++ " )"))))))) ∧
      ((¬ ∃ vs, Json.arr [Json.int 1, Json.str "a'b"] = Json.arr vs ∧ vs ≠ [] ∧
          vs.all isScalar = true) →
        jsonWhereClause sampleHelpers false (Json.obj idInList) ⟨"", ""⟩ =
          Res.error ⟨"", ""⟩)) :=
  ⟨⟨rfl, rfl, Or.inl rfl, rfl, rfl, rfl⟩, by decide,
    in_list_clause sampleHelpers false _ "id" "in" _ ⟨"", ""⟩ rfl rfl (Or.inl rfl) rfl rfl rfl⟩

/-! ## Lemmas on the aggregates -/

theorem aggregateItems_append (isTableReading : Bool) :
    ∀ xs ys : List Json,
      aggregateItems isTableReading (xs ++ ys) =
        match aggregateItems isTableReading xs, aggregateItems isTableReading ys with
        | some items1, some items2 => some (items1 ++ items2)
        | _, _ => none := by
  intro xs
  induction xs with
  | nil =>
    intro ys
    cases h : aggregateItems isTableReading ys <;> simp [aggregateItems, h]
  | cons x xs ih =>
    intro ys
    have ih2 := ih ys
    simp only [List.cons_append, aggregateItems]
    cases h0 : aggregateItem isTableReading x <;> cases h1 : aggregateItems isTableReading xs <;>
      cases h2 : aggregateItems isTableReading ys <;> simp [h1, h2] at ih2 <;> simp [ih2]

/-- An element of an array of aggregates is written as its item, between the
items of the elements before and after it. -/
theorem jsonAggregates_element (H : Helpers) (payload : List (String × Json))
    (isTableReading : Bool) (b b' : Buffers) (before after : List Json) (v : Json)
    (item : String × Option String) (hitem : aggregateItem isTableReading v = some item)
    (h : jsonAggregates H payload (Json.arr (before ++ v :: after)) b isTableReading = Res.ok b') :
    ∃ items1 items2, aggregateItems isTableReading before = some items1 ∧
      aggregateItems isTableReading after = some items2 ∧
      b' = (b.append (", ".intercalate (items1.map Prod.fst ++ item.1 :: items2.map Prod.fst))).conjoinAll
        (items1.map Prod.snd ++ item.2 :: items2.map Prod.snd) := by
  simp only [jsonAggregates, aggregateItems_append, aggregateItems, hitem] at h
  cases h1 : aggregateItems isTableReading before with
  | none => simp [h1] at h
  | some items1 =>
    cases h2 : aggregateItems isTableReading after with
    | none => simp [h1, h2] at h
    | some items2 =>
      simp only [h1, h2, Res.ok.injEq] at h
      exact ⟨items1, items2, rfl, rfl, by rw [← h]; simp⟩

theorem aggregateItem_column (isTableReading : Bool) (kvs : List (String × Json))
    (op c aliasText : String) (hop : lookup "operation" kvs = some (Json.str op))
    (hc : lookup "column" kvs = some (Json.str c))
    (ha : aggregateAlias kvs ((((" AS \"" ++ op) ++ "_") ++ c) ++ "\"") = some aliasText) :
    aggregateItem isTableReading (Json.obj kvs) =
      some ((((op ++ "(") ++ aggregateArgument isTableReading c) ++ ")") ++ aliasText, none) := by
  simp [aggregateItem, hop, hc, ha]

/-- The statement for an array of aggregates with `count` over `*` in second
place. -/
theorem star_in_array_statement :
    (retrieveReadingsSql sampleHelpers (Condition.document (Json.obj [("aggregate",
      Json.arr [Json.obj [("operation", Json.str "min"), ("column", Json.str "id")],
        Json.obj countStar])]))).statement =
      some "SELECT min(id) AS \"min_id\", count(ROWID) AS \"count_*\" FROM foglamp.readings WHERE asset_code = asset_code;" := by
  rfl

/-- C25. Default aggregate alias: an aggregate with `operation` = op, `column` =
c and no `alias`, as the object `aggregate` or as an element of an array, is
written with the alias `"op_c"`, the column as it is in the payload; and for
the payload whose `aggregate` is `count` over `*` the statement is
`SELECT count(ROWID) AS "count_*" FROM foglamp.readings WHERE asset_code = asset_code;`. -/
theorem default_aggregate_alias (H : Helpers) (payload : List (String × Json))
    (isTableReading : Bool) (kvs : List (String × Json)) (op c : String) (b : Buffers)
    (hop : lookup "operation" kvs = some (Json.str op))
    (hc : lookup "column" kvs = some (Json.str c)) (ha : lookup "alias" kvs = none) :
    jsonAggregates H payload (Json.obj kvs) b isTableReading =
        Res.ok (b.append ((((op ++ "(") ++ aggregateArgument isTableReading c) ++ ")") ++
          ((((" AS \"" ++ op) ++ "_") ++ c) ++ "\""))) ∧
      (∀ before after b',
        jsonAggregates H payload (Json.arr (before ++ Json.obj kvs :: after)) b isTableReading =
          Res.ok b' →
        ∃ items1 items2, aggregateItems isTableReading before = some items1 ∧
          aggregateItems isTableReading after = some items2 ∧
          b' = (b.append (", ".intercalate
              (items1.map Prod.fst ++ ((((op ++ "(") ++ aggregateArgument isTableReading c) ++ ")") ++
                ((((" AS \"" ++ op) ++ "_") ++ c) ++ "\"")) :: items2.map Prod.fst))).conjoinAll
            (items1.map Prod.snd ++ none :: items2.map Prod.snd)) ∧
      (retrieveReadingsSql H (Condition.document (Json.obj
        [("aggregate", Json.obj [("operation", Json.str "count"),
          ("column", Json.str "*")])]))).statement =
        some "SELECT count(ROWID) AS \"count_*\" FROM foglamp.readings WHERE asset_code = asset_code;" := by
  have hitem := aggregateItem_column isTableReading kvs op c
    ((((" AS \"" ++ op) ++ "_") ++ c) ++ "\"") hop hc (by simp only [aggregateAlias, ha])
  refine ⟨?_, ?_, rfl⟩
  · simp [jsonAggregates, hitem, Buffers.conjoinAll]
  · intro before after b' h
    exact jsonAggregates_element H payload isTableReading b b' before after _ _ hitem h

/-- C25, witness. The aggregate `count` over `*`. -/
theorem default_aggregate_alias_witness :
    (lookup "operation" countStar = some (Json.str "count") ∧
      lookup "column" countStar = some (Json.str "*") ∧ lookup "alias" countStar = none) ∧
    jsonAggregates sampleHelpers [("aggregate", Json.obj countStar)] (Json.obj countStar)
        (Buffers.mk "SELECT " "") true =
      Res.ok ((Buffers.mk "SELECT " "").append
        (((("count" ++ "(") ++ aggregateArgument true "*") ++ ")") ++
          ((((" AS \"" ++ "count") ++ "_") ++ "*") ++ "\""))) :=
  ⟨⟨rfl, rfl, rfl⟩,
    (default_aggregate_alias sampleHelpers [("aggregate", Json.obj countStar)] true countStar
      "count" "*" (Buffers.mk "SELECT " "") rfl rfl rfl).1⟩

/-! ## Lemmas on the targets inside a JSON column -/

theorem jsonModifiers_eq (H : Helpers) (payload : List (String × Json)) (b : Buffers) :
    jsonModifiers H payload b =
      (modifiersBeforeLimit H payload b).andThen fun b =>
        (modifiersLimit payload b).andThen fun b => modifiersSkip payload b := by
  unfold jsonModifiers modifiersBeforeLimit
  split
  · rfl
  · simp only [Res.andThen_assoc]

theorem modifiersLimit_none (payload : List (String × Json)) (b : Buffers)
    (h : lookup "limit" payload = none) : modifiersLimit payload b = Res.ok b := by
  simp [modifiersLimit, h]

theorem modifiersLimit_int (payload : List (String × Json)) (b : Buffers) (n : Int)
    (h : lookup "limit" payload = some (Json.int n)) :
    modifiersLimit payload b = Res.ok ((b.append " LIMIT ").append (decimal n)) := by
  simp [modifiersLimit, h]

theorem modifiersLimit_not_int (payload : List (String × Json)) (b : Buffers) (v : Json)
    (h : lookup "limit" payload = some v) (hv : ∀ n, v ≠ Json.int n) :
    modifiersLimit payload b = Res.error b := by
  cases v <;> simp_all [modifiersLimit]

theorem modifiersSkip_not_int (payload : List (String × Json)) (b : Buffers) (v : Json)
    (h : lookup "skip" payload = some v) (hv : ∀ s, v ≠ Json.int s) :
    modifiersSkip payload b = Res.error b := by
  cases v <;> simp_all [modifiersSkip]

/-- C21. Skip without limit: after the modifiers that precede them, a payload
with an integer `skip` = s and no `limit` gets ` LIMIT -1` and ` OFFSET s`, with
an integer `limit` = n it gets ` LIMIT n` and ` OFFSET s`; a `skip` or a `limit`
that is not an integer makes `jsonModifiers` return false; and whenever
`jsonModifiers` returns true, what it wrote after the earlier modifiers is
nothing, a `LIMIT`, or a `LIMIT` followed by an `OFFSET`. -/
theorem skip_without_limit (H : Helpers) (payload : List (String × Json)) (b : Buffers) :
    (∀ s, lookup "skip" payload = some (Json.int s) → lookup "limit" payload = none →
      jsonModifiers H payload b =
        (modifiersBeforeLimit H payload b).andThen fun b1 =>
          Res.ok (((b1.append " LIMIT -1").append " OFFSET ").append (decimal s))) ∧
    (∀ s n, lookup "skip" payload = some (Json.int s) →
      lookup "limit" payload = some (Json.int n) →
      jsonModifiers H payload b =
        (modifiersBeforeLimit H payload b).andThen fun b1 =>
          Res.ok ((((b1.append " LIMIT ").append (decimal n)).append " OFFSET ").append
            (decimal s))) ∧
    (∀ v, lookup "skip" payload = some v → (∀ s, v ≠ Json.int s) →
      ∀ b', jsonModifiers H payload b ≠ Res.ok b') ∧
    (∀ v, lookup "limit" payload = some v → (∀ n, v ≠ Json.int n) →
      ∀ b', jsonModifiers H payload b ≠ Res.ok b') ∧
    (∀ b', jsonModifiers H payload b = Res.ok b' →
      ∃ b1, modifiersBeforeLimit H payload b = Res.ok b1 ∧
        (b' = b1 ∨ (∃ n, b' = (b1.append " LIMIT ").append (decimal n)) ∨
          ∃ l s, b' = ((b1.append (" LIMIT " ++ l)).append " OFFSET ").append (decimal s))) := by
  refine ⟨?_, ?_, ?_, ?_, ?_⟩
  · intro s hs hl
    rw [jsonModifiers_eq]
    congr 1
    funext b1
    simp [modifiersLimit_none payload b1 hl, Res.andThen, modifiersSkip, hs, hasMember, hl]
  · intro s n hs hl
    rw [jsonModifiers_eq]
    congr 1
    funext b1
    simp [modifiersLimit_int payload b1 n hl, Res.andThen, modifiersSkip, hs, hasMember, hl]
  · intro v hs hv b' h
    rw [jsonModifiers_eq, Res.andThen_ok_iff] at h
    obtain ⟨b1, -, h⟩ := h
    rw [Res.andThen_ok_iff] at h
    obtain ⟨b2, -, h⟩ := h
    rw [modifiersSkip_not_int payload b2 v hs hv] at h
    simp at h
  · intro v hl hv b' h
    rw [jsonModifiers_eq, Res.andThen_ok_iff] at h
    obtain ⟨b1, -, h⟩ := h
    rw [modifiersLimit_not_int payload b1 v hl hv] at h
    simp [Res.andThen] at h
  · intro b' h
    rw [jsonModifiers_eq, Res.andThen_ok_iff] at h
    obtain ⟨b1, h1, h⟩ := h
    rw [Res.andThen_ok_iff] at h
    obtain ⟨b2, h2, h3⟩ := h
    refine ⟨b1, h1, ?_⟩
    cases hl : lookup "limit" payload with
    | none =>
      rw [modifiersLimit_none payload b1 hl] at h2
      simp only [Res.ok.injEq] at h2
      subst h2
      cases hs : lookup "skip" payload with
      | none =>
        left
        simpa [modifiersSkip, hs] using h3.symm
      | some v =>
        right; right
        cases v <;> simp [modifiersSkip, hs, hasMember, hl] at h3
        rename_i s
        refine ⟨"-1", s, ?_⟩
        rw [← h3]
        apply congrArg (fun x => (Buffers.append x " OFFSET ").append (decimal s))
        rfl
    | some v =>
      by_cases hv : ∃ n, v = Json.int n
      · obtain ⟨n, rfl⟩ := hv
        rw [modifiersLimit_int payload b1 n hl] at h2
        simp only [Res.ok.injEq] at h2
        subst h2
        cases hs : lookup "skip" payload with
        | none =>
          right; left
          exact ⟨n, by simpa [modifiersSkip, hs] using h3.symm⟩
        | some w =>
          right; right
          cases w <;> simp [modifiersSkip, hs, hasMember, hl] at h3
          rename_i s
          refine ⟨decimal n, s, ?_⟩
          rw [← h3]
          simp only [Buffers.append_append, String.append_assoc]
      · rw [modifiersLimit_not_int payload b1 v hl (fun n e => hv ⟨n, e⟩)] at h2
        simp at h2

/-- C21, witness. The payloads with `skip` = 10 alone and with `limit` = 5 and
`skip` = 10, after the text `SELECT`. -/
theorem skip_without_limit_witness :
    jsonModifiers sampleHelpers [("skip", Json.int 10)] (Buffers.mk "SELECT" "") =
        Res.ok (Buffers.mk "SELECT LIMIT -1 OFFSET 10" "") ∧
      jsonModifiers sampleHelpers [("limit", Json.int 5), ("skip", Json.int 10)]
          (Buffers.mk "SELECT" "") =
        Res.ok (Buffers.mk "SELECT LIMIT 5 OFFSET 10" "") :=
  ⟨((skip_without_limit sampleHelpers [("skip", Json.int 10)] (Buffers.mk "SELECT" "")).1 10
      rfl rfl).trans (by decide),
    ((skip_without_limit sampleHelpers [("limit", Json.int 5), ("skip", Json.int 10)]
      (Buffers.mk "SELECT" "")).2.1 10 5 rfl rfl).trans (by decide)⟩

/-- C22. timebucket excludes sort: for a payload with both a `timebucket` and a
`sort` member `jsonModifiers` returns false with the buffer as it found it, and
`retrieveReadings` builds no statement: when the parts before the modifiers
return true it returns false after the error of `jsonModifiers`. -/
theorem timebucket_excludes_sort (H : Helpers) (payload : List (String × Json)) (b : Buffers)
    (htb : hasMember "timebucket" payload = true) (hsort : hasMember "sort" payload = true) :
    jsonModifiers H payload b = Res.error b ∧
      (retrieveReadingsSql H (Condition.document (Json.obj payload))).statement = none ∧
      (∀ b1 b2, selectSection H payload (Buffers.mk "" "") = Res.ok b1 →
        whereSection H payload (hasMember "aggregate" payload) (b1.append "readings") =
          Res.ok b2 →
        retrieveReadingsSql H (Condition.document (Json.obj payload)) = Res.error b2) := by
  have hm : ∀ b, jsonModifiers H payload b = Res.error b := by
    intro b
    simp [jsonModifiers, htb, hsort]
  refine ⟨hm b, ?_, ?_⟩
  · simp only [retrieveReadingsSql]
    cases selectSection H payload (Buffers.mk "" "") with
    | ok b1 =>
      simp only [Res.andThen]
      cases whereSection H payload (hasMember "aggregate" payload) (b1.append "readings") with
      | ok b2 => simp [Res.andThen, hm, Res.statement]
      | error b2 => simp [Res.andThen, Res.statement]
      | undefined => simp [Res.andThen, Res.statement]
    | error b1 => simp [Res.andThen, Res.statement]
    | undefined => simp [Res.andThen, Res.statement]
  · intro b1 b2 h1 h2
    simp [retrieveReadingsSql, h1, h2, Res.andThen, hm]

/-- C22, witness. A payload with a time bucket on `user_ts` and a sort on
`id`: the select list and the where part return true, and the statement is not
built. -/
theorem timebucket_excludes_sort_witness :
    (hasMember "timebucket" bucketAndSort = true ∧ hasMember "sort" bucketAndSort = true) ∧
    (jsonModifiers sampleHelpers bucketAndSort (Buffers.mk "SELECT" "") =
        Res.error (Buffers.mk "SELECT" "") ∧
      (retrieveReadingsSql sampleHelpers
        (Condition.document (Json.obj bucketAndSort))).statement = none ∧
      (∀ b1 b2, selectSection sampleHelpers bucketAndSort (Buffers.mk "" "") = Res.ok b1 →
        whereSection sampleHelpers bucketAndSort (hasMember "aggregate" bucketAndSort)
          (b1.append "readings") = Res.ok b2 →
        retrieveReadingsSql sampleHelpers (Condition.document (Json.obj bucketAndSort)) =
          Res.error b2)) :=
  ⟨⟨rfl, rfl⟩, timebucket_excludes_sort sampleHelpers _ _ rfl rfl⟩

/-- The statements of payloads with a `group`: an object without `format`, an
object with a `format`, and a string. -/
theorem group_statements :
    (retrieveReadingsSql sampleHelpers (Condition.document (Json.obj
      [("aggregate", Json.obj countStar),
        ("group", Json.obj [("column", Json.str "asset_code")])]))).statement =
      some "SELECT count(ROWID) AS \"count_*\" FROM foglamp.readings WHERE asset_code = asset_code GROUP BY asset_code;" ∧
    (retrieveReadingsSql sampleHelpers (Condition.document (Json.obj
      [("aggregate", Json.obj countStar),
        ("group", Json.obj [("column", Json.str "user_ts"),
          ("format", Json.str "%Y-%m-%d")])]))).statement =
      some "SELECT count(ROWID) AS \"count_*\" FROM foglamp.readings WHERE asset_code = asset_code GROUP BY strftime('%Y-%m-%d', user_ts);" ∧
    (retrieveReadingsSql sampleHelpers (Condition.document (Json.obj
      [("aggregate", Json.obj countStar), ("group", Json.str "asset_code")]))).statement =
      some "SELECT count(ROWID) AS \"count_*\" FROM foglamp.readings WHERE asset_code = asset_code GROUP BY asset_code;" := by
  refine ⟨?_, ?_, ?_⟩ <;> rfl

/-! ## Lemmas on the index hint -/

theorem renderTokens_closing (ts : List Token) :
    EndsSafe (renderTokens (ts ++ [Token.closing])) := by
  rw [renderTokens_append]
  exact EndsSafe.of_literal _ ')' (by decide)

theorem conditionText_endsSafe (cl : Bool) (cond : String) (value : Json) (t : String)
    (h : conditionText cl cond value = some t)
    (hreal : ∀ text, value = Json.real text → EndsSafe text) : EndsSafe t := by
  unfold conditionText at h
  split at h
  · split at h
    · simp only [Option.some.injEq] at h
      rw [← h]
      apply EndsSafe.prepend
      cases value with
      | int i => exact decimal_endsSafe i
      | real text => exact hreal text rfl
      | str s => exact EndsSafe.of_literal _ (Char.ofNat 39) (by decide)
      | _ => simp_all [isScalar]
    · simp at h
  · split at h
    · split at h
      · simp only [Option.some.injEq] at h
        rw [← h]
        unfold ageText
        split
        · exact EndsSafe.prepend _ ⟨", 'localtime'".data, ')', rfl, by decide⟩
        · exact EndsSafe.prepend _ ⟨[], ')', rfl, by decide⟩
      · simp at h
    · split at h
      · split at h
        · simp only [Option.some.injEq] at h
          rw [← h]
          unfold ageText
          split
          · exact EndsSafe.prepend _ ⟨", 'localtime'".data, ')', rfl, by decide⟩
          · exact EndsSafe.prepend _ ⟨[], ')', rfl, by decide⟩
        · simp at h
      · split at h
        · split at h
          · split at h
            · simp only [Option.some.injEq] at h
              rw [← h]
              apply EndsSafe.prepend
              exact EndsSafe.prepend _ ⟨[' '], ')', rfl, by decide⟩
            · simp at h
          · simp at h
        · simp at h

theorem whereLeaf_endsSafe (cl : Bool) (kvs : List (String × Json)) (t : String)
    (h : whereLeaf cl kvs = some t)
    (hreal : ∀ text, lookup "value" kvs = some (Json.real text) → EndsSafe text) :
    EndsSafe t := by
  unfold whereLeaf at h
  split at h
  · rename_i column cond value hcolumn hcond hvalue
    cases hc : conditionText cl cond value with
    | none => simp [hc] at h
    | some u =>
      simp only [hc, Option.map_some', Option.some.injEq] at h
      rw [← h]
      exact EndsSafe.prepend _ (conditionText_endsSafe cl cond value u hc
        (fun text e => hreal text (by rw [hvalue, e])))
  · simp at h

theorem memberTokens_endsSafe (cl : Bool) (connective : Token) (key : String)
    (kvs : List (String × Json)) (ts : List Token) (t : String)
    (h : memberTokens cl connective key kvs = some ts) (ht : EndsSafe t) :
    EndsSafe (t ++ renderTokens ts) := by
  rw [memberTokens_eq] at h
  split at h
  · rename_i v hv
    cases hw : whereTokens cl v with
    | none => simp [hw] at h
    | some tw =>
      simp only [hw, Option.map_some', Option.some.injEq] at h
      rw [← h]
      apply EndsSafe.prepend
      have : connective :: Token.opening :: (tw ++ [Token.closing]) =
          (connective :: Token.opening :: tw) ++ [Token.closing] := by simp
      rw [this]
      exact renderTokens_closing _
  · simp only [Option.some.injEq] at h
    rw [← h]
    simpa [renderTokens] using ht

/-- The text of a where clause is not the text of the index hint, when a
double at the top of the tree is written as a numeral. -/
theorem whereTokens_endsSafe (cl : Bool) (w : Json) (ts : List Token)
    (h : whereTokens cl w = some ts)
    (hreal : ∀ kvs text, w = Json.obj kvs → lookup "value" kvs = some (Json.real text) →
      EndsSafe text) :
    EndsSafe (renderTokens ts) := by
  cases w with
  | obj kvs =>
    rw [whereTokens_obj] at h
    split at h
    · rename_i text conj disj hleaf hconj hdisj
      simp only [Option.some.injEq] at h
      rw [← h]
      have h1 := whereLeaf_endsSafe cl kvs text hleaf (fun t e => hreal kvs t rfl e)
      have h2 := memberTokens_endsSafe cl _ _ kvs conj text hconj h1
      have h3 := memberTokens_endsSafe cl _ _ kvs disj _ hdisj h2
      simpa [renderTokens, renderTokens_append, String.append_assoc] using h3
    · simp at h
  | _ => simp [whereTokens] at h

/-- C17, counterexample. A payload with the member `aggregate` and no member
`where` whose aggregate has no `operation`: `jsonAggregates` returns false,
`retrieveReadings` returns at line 720, and no statement is built: the index
hint is not emitted. -/
theorem no_index_hint_when_the_aggregate_fails :
    hasMember "aggregate" [("aggregate", Json.obj [("column", Json.str "*")])] = true ∧
      hasMember "where" [("aggregate", Json.obj [("column", Json.str "*")])] = false ∧
      retrieveReadingsSql sampleHelpers (Condition.document
        (Json.obj [("aggregate", Json.obj [("column", Json.str "*")])])) =
        Res.error (Buffers.mk "SELECT " "") ∧
      (retrieveReadingsSql sampleHelpers (Condition.document
        (Json.obj [("aggregate", Json.obj [("column", Json.str "*")])]))).statement = none := by
  refine ⟨?_, ?_, ?_, ?_⟩ <;> rfl

/-- C17. Index hint, for a payload whose select list is compiled: the statement
is continued after `FROM foglamp.readings` by lines 935-967 and then by the
modifiers, and what lines 935-967 append is exactly ` WHERE asset_code =
asset_code` if and only if the payload has the member `aggregate` and no member
`where`. A double at the top of the where tree is taken to be written as a
numeral, a text that does not end in the letter `e`. -/
theorem index_hint_after_select (H : Helpers) (payload : List (String × Json)) (b1 : Buffers)
    (hselect : selectSection H payload (Buffers.mk "" "") = Res.ok b1)
    (hreal : ∀ kvs text, lookup "where" payload = some (Json.obj kvs) →
      lookup "value" kvs = some (Json.real text) → EndsSafe text) :
    retrieveReadingsSql H (Condition.document (Json.obj payload)) =
        ((whereSection H payload (hasMember "aggregate" payload) (b1.append "readings")).andThen
          fun b => (jsonModifiers H payload b).andThen fun b => Res.ok (b.append ";")) ∧
      (whereSection H payload (hasMember "aggregate" payload) (b1.append "readings") =
          Res.ok ((b1.append "readings").append " WHERE asset_code = asset_code") ↔
        (hasMember "aggregate" payload = true ∧ hasMember "where" payload = false)) := by
  refine ⟨by simp only [retrieveReadingsSql, hselect, Res.andThen], ?_⟩
  generalize b1.append "readings" = b
  unfold whereSection
  cases hw : lookup "where" payload with
  | none =>
    have hnw : hasMember "where" payload = false := by simp [hasMember, hw]
    simp only [hnw, and_true]
    cases hasMember "aggregate" payload with
    | true => simp
    | false =>
      simp only [Bool.false_eq_true, if_false, Res.ok.injEq, iff_false]
      intro e
      have e2 : b.append "" = b.append " WHERE asset_code = asset_code" := by
        rw [Buffers.append_empty]; exact e
      exact absurd (Buffers.append_cancel _ _ _ e2) (by decide)
  | some w =>
    have hnw : hasMember "where" payload = true := by simp [hasMember, hw]
    simp only [hnw, Bool.true_eq_false, and_false, iff_false]
    intro e
    unfold jsonWhereClause at e
    cases hts : whereTokens H.convertLocaltime w with
    | none => simp [hts, Res.andThen] at e
    | some ts =>
      have hs := whereTokens_endsSafe H.convertLocaltime w ts hts
        (fun kvs text e1 e2 => hreal kvs text (by rw [hw, e1]) e2)
      simp only [hts, Res.andThen] at e
      generalize renderTokens ts = t at e hs
      split at e
      · simp only [Res.ok.injEq] at e
        simp only [Buffers.append_append] at e
        have e3 := congrArg String.data (Buffers.append_cancel _ _ _ e)
        have hmem : 'A' ∈ (" WHERE asset_code = asset_code" : String).data := by
          rw [← e3]
          simp [String.data_append]
        exact absurd hmem (by decide)
      · simp only [Res.ok.injEq] at e
        rw [Buffers.append_append] at e
        have e3 := congrArg String.data (Buffers.append_cancel _ _ _ e)
        have e4 : t.data = ("asset_code = asset_code" : String).data := by
          have : (" WHERE asset_code = asset_code" : String).data =
              (" WHERE " : String).data ++ ("asset_code = asset_code" : String).data := by decide
          rw [this, String.data_append] at e3
          exact List.append_cancel_left e3
        exact EndsSafe.ne_hint hs (String.ext e4)

/-- C17, witness. The payload with the aggregate `count` over `*` and no
`where`: the select list is compiled, there is no where tree, and the statement
has the index hint after the table name. -/
theorem index_hint_after_select_witness :
    (selectSection sampleHelpers [("aggregate", Json.obj countStar)] (Buffers.mk "" "") =
        Res.ok (Buffers.mk "SELECT count(ROWID) AS \"count_*\" FROM foglamp." "") ∧
      (∀ kvs text, lookup "where" [("aggregate", Json.obj countStar)] = some (Json.obj kvs) →
        lookup "value" kvs = some (Json.real text) → EndsSafe text)) ∧
    (whereSection sampleHelpers [("aggregate", Json.obj countStar)]
        (hasMember "aggregate" [("aggregate", Json.obj countStar)])
        ((Buffers.mk "SELECT count(ROWID) AS \"count_*\" FROM foglamp." "").append "readings") =
        Res.ok (((Buffers.mk "SELECT count(ROWID) AS \"count_*\" FROM foglamp." "").append
          "readings").append " WHERE asset_code = asset_code") ↔
      (hasMember "aggregate" [("aggregate", Json.obj countStar)] = true ∧
        hasMember "where" [("aggregate", Json.obj countStar)] = false)) :=
  ⟨⟨rfl, fun _ _ h => by simp [lookup] at h⟩,
    (index_hint_after_select sampleHelpers [("aggregate", Json.obj countStar)]
      (Buffers.mk "SELECT count(ROWID) AS \"count_*\" FROM foglamp." "") rfl
      (fun _ _ h => by simp [lookup] at h)).2⟩

theorem jsonWhereClause_appends (H : Helpers) (cl : Bool) (w : Json) (b b1 : Buffers)
    (h : jsonWhereClause H cl w b = Res.ok b1) : ∃ t, b1 = b.append t := by
  unfold jsonWhereClause at h
  split at h
  · exact ⟨_, by simp only [Res.ok.injEq] at h; exact h.symm⟩
  · simp at h

/-! ## Properties of purgeReadings on an empty table and of the delete loop -/

/-- C26. Purge on an empty table is idempotent: when `max(rowid)` and
`min(rowid)` both read 0, `purgeReadings(0, 0, 0)` returns 0 before the search,
whatever the other statements answer: it executes no `DELETE`, leaves the
result document of lines 1031-1034 (all four numbers 0), the block size and
the table as they are, and a second call on the state it leaves gives the same
again. -/
theorem purge_empty_table_idempotent {σ : Type} (ops : Sql σ) (scale : Int → Int → Int)
    (fuel : Nat) (s : σ) (purgeBlockSize : Int) (hmax : ops.selectMaxRowid s = some 0)
    (hmin : ops.selectMinRowid s = some 0) :
    (purgeReadings ops scale fuel s purgeBlockSize 0 0 0).cursors = [] ∧
      (purgeReadings ops scale fuel s purgeBlockSize 0 0 0).ret = 0 ∧
      (purgeReadings ops scale fuel s purgeBlockSize 0 0 0).result =
        { removed := 0, unsentPurged := 0, unsentRetained := 0, readings := 0 } ∧
      (purgeReadings ops scale fuel s purgeBlockSize 0 0 0).db = s ∧
      (purgeReadings ops scale fuel s purgeBlockSize 0 0 0).purgeBlockSize = purgeBlockSize ∧
      (purgeReadings ops scale fuel s purgeBlockSize 0 0 0).status = Status.earlyReturn ∧
      purgeReadings ops scale fuel (purgeReadings ops scale fuel s purgeBlockSize 0 0 0).db
          (purgeReadings ops scale fuel s purgeBlockSize 0 0 0).purgeBlockSize 0 0 0 =
        purgeReadings ops scale fuel s purgeBlockSize 0 0 0 := by
  have h : purgeReadings ops scale fuel s purgeBlockSize 0 0 0 =
      Purged.early Status.earlyReturn purgeBlockSize s := by
    unfold purgeReadings
    simp only [hmax, hmin]
    cases effectiveAge ops s 0 0 with
    | none => rfl
    | some age => simp [searchBounds]
  rw [h]
  refine ⟨rfl, rfl, rfl, rfl, rfl, rfl, ?_⟩
  simp only [Purged.early]
  exact h

/-- C26, witness. The empty table under the relational meaning of the
statements. -/
theorem purge_empty_table_idempotent_witness :
    (tableSql.selectMaxRowid (Table.mk [] 1000000) = some 0 ∧
      tableSql.selectMinRowid (Table.mk [] 1000000) = some 0) ∧
    ((purgeReadings tableSql scaleExact 100 (Table.mk [] 1000000) 20 0 0 0).cursors = [] ∧
      (purgeReadings tableSql scaleExact 100 (Table.mk [] 1000000) 20 0 0 0).ret = 0 ∧
      (purgeReadings tableSql scaleExact 100 (Table.mk [] 1000000) 20 0 0 0).result =
        { removed := 0, unsentPurged := 0, unsentRetained := 0, readings := 0 } ∧
      (purgeReadings tableSql scaleExact 100 (Table.mk [] 1000000) 20 0 0 0).db =
        Table.mk [] 1000000 ∧
      (purgeReadings tableSql scaleExact 100 (Table.mk [] 1000000) 20 0 0 0).purgeBlockSize = 20 ∧
      (purgeReadings tableSql scaleExact 100 (Table.mk [] 1000000) 20 0 0 0).status =
        Status.earlyReturn ∧
      purgeReadings tableSql scaleExact 100
          (purgeReadings tableSql scaleExact 100 (Table.mk [] 1000000) 20 0 0 0).db
          (purgeReadings tableSql scaleExact 100 (Table.mk [] 1000000) 20 0 0 0).purgeBlockSize
          0 0 0 =
        purgeReadings tableSql scaleExact 100 (Table.mk [] 1000000) 20 0 0 0) :=
  ⟨⟨rfl, rfl⟩, purge_empty_table_idempotent tableSql scaleExact 100 (Table.mk [] 1000000) 20
    rfl rfl⟩

theorem toU64_blockSize (b : Int) (hb : BlockSizeOk b) :
    toU64 b = b.toNat ∧ 20 ≤ b.toNat ∧ b.toNat ≤ 1500 := by
  obtain ⟨h1, h2, -⟩ := hb
  have hu : toU64 b = b.toNat := by
    unfold toU64
    rw [Int.emod_eq_of_lt (by omega) (by rw [U64_eq]; norm_num; omega)]
  exact ⟨hu, by omega, by omega⟩

/-- The cursor of a block: the clamp of lines 1233-1237 without wrap. -/
theorem cursor_eq_min (rowidMin rowidLimit : Nat) (b : Int) (hb : BlockSizeOk b)
    (hlt : rowidMin < rowidLimit) (hR : rowidLimit < 2 ^ 63) :
    (if (rowidMin + toU64 b) % U64 > rowidLimit then rowidLimit
      else (rowidMin + toU64 b) % U64) = min (rowidMin + b.toNat) rowidLimit := by
  obtain ⟨hu, h20, h1500⟩ := toU64_blockSize b hb
  rw [hu, Nat.mod_eq_of_lt (by rw [U64_eq]; omega)]
  split <;> omega

theorem deleteLoop_trace {σ : Type} (ops : Sql σ) (scale : Int → Int → Int) (R : Nat)
    (hR : R < 2 ^ 63) :
    ∀ (fuel : Nat) (s : σ) (lo : Nat) (c : Ctl) (deletedRows : Nat),
      lo ≤ R → R - lo < fuel → BlockSizeOk c.purgeBlockSize →
      (deleteLoop ops scale R fuel s lo c deletedRows).status ≠ Status.outOfFuel ∧
      List.Chain (fun a b => a < b) lo (deleteLoop ops scale R fuel s lo c deletedRows).cursors ∧
      (lo < R → (deleteLoop ops scale R fuel s lo c deletedRows).cursors.head? =
        some (min (lo + c.purgeBlockSize.toNat) R)) ∧
      (∀ x ∈ deleteLoopSizes ops scale R fuel s lo c, 20 ≤ x ∧ x ≤ 1500) ∧
      List.Forall₂ (fun (step : Nat × Nat) (size : Int) => (step.2 : Int) ≤ (step.1 : Int) + size)
        ((lo :: (deleteLoop ops scale R fuel s lo c deletedRows).cursors).zip
          (deleteLoop ops scale R fuel s lo c deletedRows).cursors)
        (deleteLoopSizes ops scale R fuel s lo c) ∧
      ((deleteLoop ops scale R fuel s lo c deletedRows).status = Status.completed →
        (lo :: (deleteLoop ops scale R fuel s lo c deletedRows).cursors).getLast? = some R) := by
  intro fuel
  induction fuel with
  | zero => intro s lo c d hlo hf; omega
  | succ n ih =>
    intro s lo c d hlo hf hb
    unfold deleteLoop deleteLoopSizes
    by_cases h : lo < R
    · simp only [h, if_true]
      rw [cursor_eq_min lo R c.purgeBlockSize hb h hR]
      obtain ⟨hu, h20, h1500⟩ := toU64_blockSize c.purgeBlockSize hb
      have hsize : (20 : Int) ≤ c.purgeBlockSize ∧ c.purgeBlockSize ≤ 1500 := ⟨hb.1, hb.2.1⟩
      have hcur : lo < min (lo + c.purgeBlockSize.toNat) R := by
        rw [lt_min_iff]; omega
      have hstep : ((min (lo + c.purgeBlockSize.toNat) R : Nat) : Int) ≤
          (lo : Int) + c.purgeBlockSize := by
        have : min (lo + c.purgeBlockSize.toNat) R ≤ lo + c.purgeBlockSize.toNat :=
          min_le_left _ _
        omega
      cases hdel : ops.deleteUpTo s (min (lo + c.purgeBlockSize.toNat) R) with
      | mk answer usecs =>
        cases answer with
        | none =>
          simp only []
          refine ⟨by simp, ?_, fun _ => rfl, ?_, ?_, by simp⟩
          · exact List.Chain.cons hcur List.Chain.nil
          · intro x hx
            simp only [List.mem_singleton] at hx
            rw [hx]; exact hsize
          · simp only [List.zip_cons_cons, List.zip_nil_right]
            exact List.Forall₂.cons hstep List.Forall₂.nil
        | some r =>
          obtain ⟨s1, rowsAffected⟩ := r
          simp only [Deleted.after]
          have hle : min (lo + c.purgeBlockSize.toNat) R ≤ R := min_le_right _ _
          obtain ⟨i1, i2, i3, i4, i5, i6⟩ := ih s1 (min (lo + c.purgeBlockSize.toNat) R)
            (afterBlock scale c usecs) ((d + rowsAffected) % U32) hle (by omega)
            (afterBlock_ok scale c usecs hb)
          refine ⟨i1, List.Chain.cons hcur i2, fun _ => rfl, ?_, ?_, ?_⟩
          · intro x hx
            simp only [List.mem_cons] at hx
            rcases hx with rfl | hx
            · exact hsize
            · exact i4 x hx
          · simp only [List.zip_cons_cons]
            exact List.Forall₂.cons hstep i5
          · intro hdone
            have := i6 hdone
            simpa [List.getLast?_cons_cons] using this
    · have hloR : lo = R := by omega
      simp only [h, if_false]
      refine ⟨by simp, List.Chain.nil, fun h' => h'.elim, by simp, ?_, ?_⟩
      · simp
      · intro _
        simp [hloR]

/-- C30. Delete loop cursor: for every `minRowid < R` (rowids are below `2 ^ 63`),
every block size in [20, 1500] on entry and whatever the float statements and
the measured times make of it afterwards, the delete loop ends (fuel above
`R - minRowid` is never used up); the cursors of its `DELETE` statements are
strictly increasing from `minRowid`; the first is `min (minRowid + blockSize) R`;
every block size read is in [20, 1500] and each cursor exceeds the previous one
by at most the block size read for it; and when no `DELETE` fails the last
cursor is `R`. -/
theorem delete_loop_cursor {σ : Type} (ops : Sql σ) (scale : Int → Int → Int) (R fuel : Nat)
    (s : σ) (minRowid : Nat) (c : Ctl) (deletedRows : Nat) (hlo : minRowid < R)
    (hR : R < 2 ^ 63) (hb : BlockSizeOk c.purgeBlockSize) (hfuel : R - minRowid < fuel) :
    (deleteLoop ops scale R fuel s minRowid c deletedRows).status ≠ Status.outOfFuel ∧
      List.Chain (fun a b => a < b) minRowid
        (deleteLoop ops scale R fuel s minRowid c deletedRows).cursors ∧
      (deleteLoop ops scale R fuel s minRowid c deletedRows).cursors.head? =
        some (min (minRowid + c.purgeBlockSize.toNat) R) ∧
      (∀ x ∈ deleteLoopSizes ops scale R fuel s minRowid c, 20 ≤ x ∧ x ≤ 1500) ∧
      List.Forall₂ (fun (step : Nat × Nat) (size : Int) => (step.2 : Int) ≤ (step.1 : Int) + size)
        ((minRowid :: (deleteLoop ops scale R fuel s minRowid c deletedRows).cursors).zip
          (deleteLoop ops scale R fuel s minRowid c deletedRows).cursors)
        (deleteLoopSizes ops scale R fuel s minRowid c) ∧
      ((deleteLoop ops scale R fuel s minRowid c deletedRows).status = Status.completed →
        (deleteLoop ops scale R fuel s minRowid c deletedRows).cursors.getLast? = some R) := by
  obtain ⟨h1, h2, h3, h4, h5, h6⟩ :=
    deleteLoop_trace ops scale R hR fuel s minRowid c deletedRows (le_of_lt hlo) hfuel hb
  refine ⟨h1, h2, h3 hlo, h4, h5, ?_⟩
  intro hdone
  have hlast := h6 hdone
  have hhead := h3 hlo
  cases hc : (deleteLoop ops scale R fuel s minRowid c deletedRows).cursors with
  | nil => rw [hc] at hhead; simp at hhead
  | cons x xs =>
    rw [hc] at hlast
    simpa [List.getLast?_cons_cons] using hlast

/-- C30, witness. Rows 1 to 60 deleted up to rowid 50 in blocks of 20: the
cursors are 21, 41 and 50. -/
theorem delete_loop_cursor_witness :
    (1 < 50 ∧ 50 < 2 ^ 63 ∧ BlockSizeOk (Ctl.start 20).purgeBlockSize ∧ 50 - 1 < 50) ∧
    (deleteLoop tableSql scaleExact 50 50 (Table.range 1 60 50) 1 (Ctl.start 20) 0).cursors =
      [21, 41, 50] ∧
    ((deleteLoop tableSql scaleExact 50 50 (Table.range 1 60 50) 1 (Ctl.start 20) 0).status ≠
        Status.outOfFuel ∧
      List.Chain (fun a b => a < b) 1
        (deleteLoop tableSql scaleExact 50 50 (Table.range 1 60 50) 1 (Ctl.start 20) 0).cursors ∧
      (deleteLoop tableSql scaleExact 50 50 (Table.range 1 60 50) 1 (Ctl.start 20) 0).cursors.head? =
        some (min (1 + (Ctl.start 20).purgeBlockSize.toNat) 50) ∧
      (∀ x ∈ deleteLoopSizes tableSql scaleExact 50 50 (Table.range 1 60 50) 1 (Ctl.start 20),
        20 ≤ x ∧ x ≤ 1500) ∧
      List.Forall₂ (fun (step : Nat × Nat) (size : Int) => (step.2 : Int) ≤ (step.1 : Int) + size)
        ((1 :: (deleteLoop tableSql scaleExact 50 50 (Table.range 1 60 50) 1
            (Ctl.start 20) 0).cursors).zip
          (deleteLoop tableSql scaleExact 50 50 (Table.range 1 60 50) 1 (Ctl.start 20) 0).cursors)
        (deleteLoopSizes tableSql scaleExact 50 50 (Table.range 1 60 50) 1 (Ctl.start 20)) ∧
      ((deleteLoop tableSql scaleExact 50 50 (Table.range 1 60 50) 1 (Ctl.start 20) 0).status =
          Status.completed →
        (deleteLoop tableSql scaleExact 50 50 (Table.range 1 60 50) 1
          (Ctl.start 20) 0).cursors.getLast? = some 50)) :=
  ⟨⟨by decide, by norm_num, ⟨by decide, by decide, ⟨4, rfl⟩⟩, by decide⟩, by decide,
    delete_loop_cursor tableSql scaleExact 50 50 (Table.range 1 60 50) 1 (Ctl.start 20) 0
      (by decide) (by norm_num) ⟨by decide, by decide, ⟨4, rfl⟩⟩ (by decide)⟩

/-! ## Properties of mapResultSet -/

/-- C24, counterexample. The texts `true`, `null` and `"abc"` parse as JSON and
are neither objects nor arrays; the values emitted for them are the boolean, the
null and the string without its quotes, not strings holding the texts. The text
`42` is kept as a string and the text of an object is embedded. -/
theorem text_that_parses_is_embedded :
    mapColumn sampleLibrary (textColumn "v" "true") = Json.bool true ∧
      mapColumn sampleLibrary (textColumn "v" "true") ≠ Json.str "true" ∧
      mapColumn sampleLibrary (textColumn "v" "null") = Json.null ∧
      mapColumn sampleLibrary (textColumn "v" "\"abc\"") = Json.str "abc" ∧
      mapColumn sampleLibrary (textColumn "v" "42") = Json.str "42" ∧
      mapColumn sampleLibrary (textColumn "v" "\x7b\"a\":1\x7d") =
        Json.obj [("a", Json.int 1)] ∧
      mapResultSet sampleLibrary [[textColumn "flag" "true"]] =
        Json.obj [("count", Json.int 1),
          ("rows", Json.arr [Json.obj [("flag", Json.bool true)]])] := by
  refine ⟨rfl, ?_, rfl, rfl, rfl, rfl, rfl⟩
  intro h
  change Json.bool true = Json.str "true" at h
  cases h

/-- C24, as amended. Result value mapping: for a text column that is not
reformatted as a date, `mapResultSet` emits the parsed value exactly when the
text parses as JSON and the value is not a number (an object or array is
embedded as a structured value; true, false, null and a quoted string become
the boolean, the null and the string without quotes), and emits a string
holding the text when the text does not parse or parses as a number; a NULL
column becomes the empty string and integer and float columns become
numbers. -/
theorem result_value_mapping (L : Library) (name str : String) (text : Option String)
    (newDate : Option String) :
    (∀ d, L.parse str = some d → d.isNumber = false →
      mapColumn L (textColumn name str) = d) ∧
    (∀ d, L.parse str = some d → d.isStructured = true →
      mapColumn L (textColumn name str) = d) ∧
    (∀ d, L.parse str = some d → d.isNumber = true →
      mapColumn L (textColumn name str) = Json.str str) ∧
    (L.parse str = none → mapColumn L (textColumn name str) = Json.str str) ∧
    (mapColumn L (textColumn name str) ≠ Json.str str →
      ∃ d, L.parse str = some d ∧ d.isNumber = false ∧ mapColumn L (textColumn name str) = d) ∧
    mapColumn L (Column.mk name ColumnType.null text newDate) = Json.str "" ∧
    (mapColumn L (Column.mk name ColumnType.integer text newDate)).isNumber = true ∧
    (mapColumn L (Column.mk name ColumnType.float text newDate)).isNumber = true := by
  have hnum : ∀ d, L.parse str = some d → d.isNumber = false →
      mapColumn L (textColumn name str) = d := by
    intro d hd hn
    simp [mapColumn, textColumn, mapText, hd, hn]
  refine ⟨hnum, ?_, ?_, ?_, ?_, rfl, rfl, rfl⟩
  · intro d hd hs
    apply hnum d hd
    cases d <;> simp_all [Json.isStructured, Json.isNumber]
  · intro d hd hn
    simp [mapColumn, textColumn, mapText, hd, hn]
  · intro hd
    simp [mapColumn, textColumn, mapText, hd]
  · intro hne
    cases hd : L.parse str with
    | none => exact absurd (by simp [mapColumn, textColumn, mapText, hd]) hne
    | some d =>
      cases hn : d.isNumber with
      | true => exact absurd (by simp [mapColumn, textColumn, mapText, hd, hn]) hne
      | false => exact ⟨d, rfl, hn, hnum d hd hn⟩

/-- C24, witness. The text `true` under the sample library. -/
theorem result_value_mapping_witness :
    mapColumn sampleLibrary (textColumn "v" "true") = Json.bool true :=
  (result_value_mapping sampleLibrary "v" "true" none none).1 (Json.bool true) rfl rfl

/-! ## Properties of the writers counter -/

/-- C28, counterexample. With no other writer the counter is 0; a block of
`purgeReadings` executes its `DELETE` with the counter still 0, and so do the
blocks of a run of the delete loop with the cursors 21, 41 and 50 and the block
of the purge of the rows 1, 2, 3. -/
theorem purge_block_runs_with_counter_zero :
    counterDuring 0 purgeBlockWrite = [(WriteStatement.deletePurgeBlock, 0)] ∧
      counterDuring 0 (purgeWrites [21, 41, 50]) =
        [(WriteStatement.deletePurgeBlock, 0), (WriteStatement.deletePurgeBlock, 0),
          (WriteStatement.deletePurgeBlock, 0)] ∧
      counterDuring 0 (purgeWrites
        (purgeReadings tableSql scaleExact 100 (Table.range 1 3 3) 20 1 0 0).cursors) =
        [(WriteStatement.deletePurgeBlock, 0)] := by
  refine ⟨by decide, by decide, by decide⟩

/-- C28, as amended. Writer counter coverage: the INSERT of `appendReadings`
and the DELETE of `deleteRows` are executed between an increment and a
decrement of the counter: whatever the counter is on entry it is higher by one
while the statement executes, so positive, and back to its value afterwards.
The block DELETE of `purgeReadings` does not change the counter: it waits on
the condition variable when the counter is not zero and executes with the
counter as it finds it. -/
theorem writer_counter_coverage (n : Int) (h : 0 ≤ n) :
    (counterDuring n appendReadingsWrite = [(WriteStatement.insertReadings, n + 1)] ∧
      0 < n + 1 ∧ counterAfter n appendReadingsWrite = n) ∧
    (counterDuring n deleteRowsWrite = [(WriteStatement.deleteCommon, n + 1)] ∧
      0 < n + 1 ∧ counterAfter n deleteRowsWrite = n) ∧
    (counterDuring n purgeBlockWrite =
        (if n ≠ 0 then [] else [(WriteStatement.deletePurgeBlock, 0)]) ∧
      counterAfter n purgeBlockWrite = n ∧
      SyncOp.fetchAdd ∉ purgeBlockWrite ∧ SyncOp.fetchSub ∉ purgeBlockWrite) := by
  refine ⟨⟨?_, by omega, ?_⟩, ⟨?_, by omega, ?_⟩, ?_, ?_, by decide, by decide⟩
  · simp [counterDuring, appendReadingsWrite]
  · simp [counterAfter, appendReadingsWrite]
  · simp [counterDuring, deleteRowsWrite]
  · simp [counterAfter, deleteRowsWrite]
  · by_cases h0 : n = 0
    · simp [counterDuring, purgeBlockWrite, h0]
    · simp [counterDuring, purgeBlockWrite, h0]
  · by_cases h0 : n = 0
    · simp [counterAfter, purgeBlockWrite, h0]
    · simp [counterAfter, purgeBlockWrite, h0]

/-- C28, witness. Two other writers at work. -/
theorem writer_counter_coverage_witness :
    (0 : Int) ≤ 2 ∧
    ((counterDuring 2 appendReadingsWrite = [(WriteStatement.insertReadings, 2 + 1)] ∧
        (0 : Int) < 2 + 1 ∧ counterAfter 2 appendReadingsWrite = 2) ∧
      (counterDuring 2 deleteRowsWrite = [(WriteStatement.deleteCommon, 2 + 1)] ∧
        (0 : Int) < 2 + 1 ∧ counterAfter 2 deleteRowsWrite = 2) ∧
      (counterDuring 2 purgeBlockWrite =
          (if (2 : Int) ≠ 0 then [] else [(WriteStatement.deletePurgeBlock, 0)]) ∧
        counterAfter 2 purgeBlockWrite = 2 ∧
        SyncOp.fetchAdd ∉ purgeBlockWrite ∧ SyncOp.fetchSub ∉ purgeBlockWrite)) :=
  ⟨by decide, writer_counter_coverage 2 (by decide)⟩

/-! ## Properties of the Python filter plugin -/

/-- C27, failing input. An enabled filter whose Python method returns `None`
(or any object that is not a list): the returned data cannot be converted, yet
`getFilteredReadings` returns an empty vector instead of NULL, and
`plugin_ingest` deletes the input set and passes on a new, empty set. A
returned reading with a datapoint value that is no number and no `str` makes
`getFilteredReadings` delete a pointer without a value. When the method fails,
or an element lacks the key `reading`, the input set is passed on. -/
theorem filter_returning_no_list_drops_input (readingsList : PyObj) :
    plugin_ingest true (some readingsList) (fun _ => some PyObj.none) =
        Ingested.returned [Passed.filtered []] true ∧
      plugin_ingest true (some readingsList) (fun _ => some (PyObj.str "failed")) =
        Ingested.returned [Passed.filtered []] true ∧
      plugin_ingest true (some readingsList) (fun _ => some (PyObj.list [PyObj.dict
          [(PyObj.str "asset_code", PyObj.str "pump"),
            (PyObj.str "reading", PyObj.dict [(PyObj.str "speed", PyObj.none)])]])) =
        Ingested.undefined ∧
      plugin_ingest true (some readingsList) (fun _ => Option.none) =
        Ingested.returned [Passed.input] false ∧
      plugin_ingest true (some readingsList) (fun _ => some (PyObj.list [PyObj.dict
          [(PyObj.str "asset_code", PyObj.str "pump")]])) =
        Ingested.returned [Passed.input] false ∧
      plugin_ingest true (some readingsList) (fun _ => some (PyObj.list [PyObj.dict
          [(PyObj.str "asset_code", PyObj.str "pump"),
            (PyObj.str "reading", PyObj.dict [(PyObj.str "speed", PyObj.int 7)])]])) =
        Ingested.returned [Passed.filtered [some
          { assetName := "pump", datapoints := [("speed", DatapointValue.integer 7)] }]] true := by
  refine ⟨rfl, rfl, rfl, rfl, rfl, ?_⟩
  have h : getFilteredReadings (PyObj.list [PyObj.dict
      [(PyObj.str "asset_code", PyObj.str "pump"),
        (PyObj.str "reading", PyObj.dict [(PyObj.str "speed", PyObj.int 7)])]]) =
      Converted.vector [some
        { assetName := "pump", datapoints := [("speed", DatapointValue.integer 7)] }] := by
    decide
  simp [plugin_ingest, h]

/-! ## Properties of the block-size update -/

theorem average_eq (c : Ctl) :
    average c =
      Int.tdiv ((if prevAvg c ≠ 0 then prevAvg c else currAvg c) * 5 + currAvg c * 5) 10 := rfl

/-- The ratio of line 1296 after the tests of lines 1297-1298 is between one
half and two. -/
theorem ratioSingle_clamped (avg : Int) :
    (ratioSingle avg).2 ≤ 2 * (ratioSingle avg).1 ∧ (ratioSingle avg).1 ≤ 2 * (ratioSingle avg).2 := by
  unfold ratioSingle
  split
  · exact ⟨by decide, by decide⟩
  · split
    · exact ⟨by decide, by decide⟩
    · simp only []
      split
      · exact ⟨by decide, by decide⟩
      · split
        · exact ⟨by decide, by decide⟩
        · constructor <;> omega

set_option maxRecDepth 8192 in
/-- C29, counterexample. At the first recalculation, after 30 blocks of 70000
microseconds, the long-term average is 0 and the code takes the average of the
window, 70000, as `avg`: the block size stays 20. Half the previous average
plus half the average of the window is 35000, for which the rule doubles the
block size. And for the block size 90 and `avg` = 50400 the product in `float`
is below 125 and truncates to 124, so the new size is 120, where
90 * 70000 / 50400 is 125. -/
theorem first_recalculation_uses_window_average :
    prevAvg firstWindow = 0 ∧ currAvg firstWindow = 70000 ∧ average firstWindow = 70000 ∧
      statedAverage (prevAvg firstWindow) (currAvg firstWindow) = 35000 ∧
      (recalc scaleSingle firstWindow).purgeBlockSize = 20 ∧
      ((List.replicate 30 70000).foldl (afterBlock scaleSingle) (Ctl.start 20)).purgeBlockSize =
        20 ∧
      resize scaleSingle 20 (statedAverage (prevAvg firstWindow) (currAvg firstWindow)) = 40 ∧
      scaleSingle 90 50400 = 124 ∧ resize scaleSingle 90 50400 = 120 ∧
      Int.tdiv (90 * 70000) 50400 = 125 ∧ resize scaleExact 90 50400 = 125 := by
  refine ⟨by decide, by decide, by decide, by decide, by decide, by decide, by decide,
    by decide, by decide, by decide, by decide⟩

/-- The weights 5 and 5 over 10 give half of the sum, truncated. -/
theorem half_of_sum (a b : Int) : Int.tdiv (a * 5 + b * 5) 10 = Int.tdiv (a + b) 2 := by
  rcases le_or_lt 0 (a + b) with h | h
  · rw [Int.tdiv_eq_ediv (by omega) (by decide), Int.tdiv_eq_ediv h (by decide)]
    omega
  · have e1 : a * 5 + b * 5 = -((-(a + b)) * 5) := by ring
    have e2 : a + b = -(-(a + b)) := by ring
    rw [e1, Int.neg_tdiv, Int.tdiv_eq_ediv (by omega) (by decide)]
    conv_rhs => rw [e2, Int.neg_tdiv, Int.tdiv_eq_ediv (by omega) (by decide)]
    omega

/-- C29, as amended. Block-size update rule: the block size changes only at
every 30th block of a call. There `avg` is half of the sum, truncated, of the
long-term average and the average of the current window, the long-term average
being the time of the blocks before the window over their number, replaced by
the average of the window when it is 0, as at the first recalculation. If
`|avg - 70000| ≤ 7000` the block size is left unchanged; otherwise the new size
is the old size times the ratio `70000 / avg`, the ratio and the product
computed in `float` and the ratio clamped to [0.5, 2.0], converted to `int` by
truncation, rounded down to a multiple of 5 and then clamped to [20, 1500]. -/
theorem block_size_update_rule (c : Ctl) (usecs : Int) (w : Ctl) (avg : Int)
    (hw : w = { c with blocks := c.blocks + 1, totTime := (c.totTime + toU32 usecs) % U32 })
    (havg : avg =
      Int.tdiv ((if prevAvg w ≠ 0 then prevAvg w else currAvg w) + currAvg w) 2) :
    ((c.blocks + 1) % 30 ≠ 0 →
      (afterBlock scaleSingle c usecs).purgeBlockSize = c.purgeBlockSize) ∧
    ((c.blocks + 1) % 30 = 0 → |avg - 70000| ≤ 7000 →
      (afterBlock scaleSingle c usecs).purgeBlockSize = c.purgeBlockSize) ∧
    ((c.blocks + 1) % 30 = 0 → 7000 < |avg - 70000| →
      (afterBlock scaleSingle c usecs).purgeBlockSize =
        min 1500 (max 20 (Int.tdiv (scaleSingle c.purgeBlockSize avg) 5 * 5)) ∧
      (ratioSingle avg).2 ≤ 2 * (ratioSingle avg).1 ∧
      (ratioSingle avg).1 ≤ 2 * (ratioSingle avg).2 ∧
      scaleSingle c.purgeBlockSize avg =
        (if c.purgeBlockSize < 0 then -1 else 1) *
          (((roundSingle ((roundSingle c.purgeBlockSize.natAbs 1).1 * (ratioSingle avg).1)
              ((roundSingle c.purgeBlockSize.natAbs 1).2 * (ratioSingle avg).2)).1 /
            (roundSingle ((roundSingle c.purgeBlockSize.natAbs 1).1 * (ratioSingle avg).1)
              ((roundSingle c.purgeBlockSize.natAbs 1).2 * (ratioSingle avg).2)).2 : Nat) : Int)) := by
  have hav : average w = avg := by rw [average_eq, half_of_sum, havg]
  have hT : TARGET_PURGE_BLOCK_DEL_TIME = 70000 := by decide
  have hT10 : Int.tdiv (70000 : Int) 10 = 7000 := by decide
  have hpbs : w.purgeBlockSize = c.purgeBlockSize := by rw [hw]
  have hblocks : w.blocks = c.blocks + 1 := by rw [hw]
  have hafter : afterBlock scaleSingle c usecs =
      if w.blocks % RECALC_PURGE_BLOCK_SIZE_NUM_BLOCKS = 0 then recalc scaleSingle w else w := by
    rw [hw]; rfl
  have h30 : RECALC_PURGE_BLOCK_SIZE_NUM_BLOCKS = 30 := rfl
  refine ⟨?_, ?_, ?_⟩
  · intro h
    rw [hafter, hblocks, h30, if_neg h, hpbs]
  · intro h hdev
    rw [hafter, hblocks, h30, if_pos h]
    simp only [recalc, resize, hav, hT, hT10, hpbs]
    rw [if_neg (by omega)]
  · intro h hdev
    refine ⟨?_, (ratioSingle_clamped avg).1, (ratioSingle_clamped avg).2, rfl⟩
    rw [hafter, hblocks, h30, if_pos h]
    simp only [recalc, resize, hav, hT, hT10, hpbs]
    rw [if_pos (by omega)]
    unfold clampBlockSize MIN_PURGE_DELETE_BLOCK_SIZE MAX_PURGE_DELETE_BLOCK_SIZE
      PURGE_BLOCK_SZ_GRANULARITY
    simp only []
    split <;> split <;> omega

set_option maxRecDepth 8192 in
/-- C29, witness. The 30th block of a call whose blocks take 70000 microseconds
each. -/
theorem block_size_update_rule_witness :
    (firstWindow = { beforeFirstWindow with
        blocks := beforeFirstWindow.blocks + 1,
        totTime := (beforeFirstWindow.totTime + toU32 70000) % U32 } ∧
      (70000 : Int) = Int.tdiv ((if prevAvg firstWindow ≠ 0 then prevAvg firstWindow
        else currAvg firstWindow) + currAvg firstWindow) 2) ∧
    (((beforeFirstWindow.blocks + 1) % 30 ≠ 0 →
      (afterBlock scaleSingle beforeFirstWindow 70000).purgeBlockSize =
        beforeFirstWindow.purgeBlockSize) ∧
    ((beforeFirstWindow.blocks + 1) % 30 = 0 → |(70000 : Int) - 70000| ≤ 7000 →
      (afterBlock scaleSingle beforeFirstWindow 70000).purgeBlockSize =
        beforeFirstWindow.purgeBlockSize) ∧
    ((beforeFirstWindow.blocks + 1) % 30 = 0 → 7000 < |(70000 : Int) - 70000| →
      (afterBlock scaleSingle beforeFirstWindow 70000).purgeBlockSize =
        min 1500 (max 20 (Int.tdiv (scaleSingle beforeFirstWindow.purgeBlockSize 70000) 5 * 5)) ∧
      (ratioSingle 70000).2 ≤ 2 * (ratioSingle 70000).1 ∧
      (ratioSingle 70000).1 ≤ 2 * (ratioSingle 70000).2 ∧
      scaleSingle beforeFirstWindow.purgeBlockSize 70000 =
        (if beforeFirstWindow.purgeBlockSize < 0 then -1 else 1) *
          (((roundSingle ((roundSingle beforeFirstWindow.purgeBlockSize.natAbs 1).1 *
                (ratioSingle 70000).1)
              ((roundSingle beforeFirstWindow.purgeBlockSize.natAbs 1).2 *
                (ratioSingle 70000).2)).1 /
            (roundSingle ((roundSingle beforeFirstWindow.purgeBlockSize.natAbs 1).1 *
                (ratioSingle 70000).1)
              ((roundSingle beforeFirstWindow.purgeBlockSize.natAbs 1).2 *
                (ratioSingle 70000).2)).2 : Nat) : Int))) :=
  ⟨⟨by decide, by decide⟩,
    block_size_update_rule beforeFirstWindow 70000 firstWindow 70000 (by decide) (by decide)⟩

/-! ## Further properties of the Python filter plugin -/

/-- C40, failing input. For the list with one element whose `reading` dict is
empty the loop over the datapoints is not entered, `newReading` stays NULL and
is pushed: the vector is not NULL and its entry is a NULL pointer, which
`plugin_ingest` passes on in the new reading set. With a datapoint the entry is
the reading. -/
theorem empty_reading_dict_gives_null_entry (readingsList : PyObj) :
    getFilteredReadings (PyObj.list [PyObj.dict
        [(PyObj.str "asset_code", PyObj.str "pump"), (PyObj.str "reading", PyObj.dict [])]]) =
      Converted.vector [Option.none] ∧
    plugin_ingest true (some readingsList) (fun _ => some (PyObj.list [PyObj.dict
        [(PyObj.str "asset_code", PyObj.str "pump"), (PyObj.str "reading", PyObj.dict [])]])) =
      Ingested.returned [Passed.filtered [Option.none]] true ∧
    getFilteredReadings (PyObj.list [PyObj.dict
        [(PyObj.str "asset_code", PyObj.str "pump"),
          (PyObj.str "reading", PyObj.dict [(PyObj.str "speed", PyObj.float "1.5")])]]) =
      Converted.vector [some
        { assetName := "pump", datapoints := [("speed", DatapointValue.float "1.5")] }] := by
  refine ⟨rfl, rfl, rfl⟩

/-! ## Further properties of appendReadings -/

/-- C35. Empty batch statement: when the `readings` array is empty or every
element is an object whose `user_ts` is rejected, `appendReadings` does not
return before the statement: it hands to `SQLexec` exactly
`INSERT INTO foglamp.readings ( user_ts, asset_code, read_key, reading ) VALUES ;`
and returns what the execution of that statement gives. -/
theorem empty_batch_statement (formatDate : String → Option String) (now : String)
    (exec : String → Option Nat) (objs : List ReadingObject)
    (hrej : ∀ o ∈ objs, accepted formatDate o = false) :
    appendReadingsSql formatDate now (Payload.readings (objs.map ReadingValue.object)) =
        some "INSERT INTO foglamp.readings ( user_ts, asset_code, read_key, reading ) VALUES ;" ∧
      appendReadings formatDate now exec (Payload.readings (objs.map ReadingValue.object)) =
        (match exec
            "INSERT INTO foglamp.readings ( user_ts, asset_code, read_key, reading ) VALUES ;" with
          | some changes => (changes : Int)
          | none => -1) := by
  have hfilter : objs.filter (accepted formatDate) = [] := by
    rw [List.filter_eq_nil_iff]
    intro o ho
    simp [hrej o ho]
  have hsql : appendReadingsSql formatDate now
      (Payload.readings (objs.map ReadingValue.object)) =
      some "INSERT INTO foglamp.readings ( user_ts, asset_code, read_key, reading ) VALUES ;" := by
    simp only [appendReadingsSql]
    rw [appendLoop_objects, hfilter]
    simp only [if_true, List.map_nil, String.intercalate, Option.map_some']
    decide
  refine ⟨hsql, ?_⟩
  simp only [appendReadings, hsql]

/-- C35, witness. A batch of one reading whose `user_ts` is not a date. -/
theorem empty_batch_statement_witness :
    (∀ o ∈ [rejectedReading], accepted formatDate o = false) ∧
    (appendReadingsSql formatDate "datetime('now')" (Payload.readings
        ([rejectedReading].map ReadingValue.object)) =
        some "INSERT INTO foglamp.readings ( user_ts, asset_code, read_key, reading ) VALUES ;" ∧
      appendReadings formatDate "datetime('now')" (fun _ => none) (Payload.readings
        ([rejectedReading].map ReadingValue.object)) =
        (match (fun _ => none : String → Option Nat)
            "INSERT INTO foglamp.readings ( user_ts, asset_code, read_key, reading ) VALUES ;" with
          | some changes => (changes : Int)
          | none => -1)) :=
  ⟨by decide, empty_batch_statement formatDate "datetime('now')" (fun _ => none)
    [rejectedReading] (by decide)⟩

/-- C36. Append does no quote escaping: for every reading that gets a tuple the
loop body appends `asset_code`, `read_key` and the text of `reading` between
single quotes as they are. For the asset code `pump's` the literal that starts
at the quote before it is `pump` and `s'` is left after it; for a reading with
the string datapoint `it's` the literal of the reading ends after `it`. -/
theorem append_copies_without_escaping (formatDate : String → Option String) (now sql : String)
    (row : Nat) (o : ReadingObject) :
    appendElement formatDate now sql row o =
        (if accepted formatDate o then
          (sql ++ (separator row ++ ("(" ++ (userTsLiteral formatDate now o ++ (",'" ++
            (o.asset_code ++ ("', " ++ (readKeyLiteral o.read_key ++ (", '" ++
              (o.reading ++ "')"))))))))), row + 1)
        else (sql, row)) ∧
      appendReadingsSql formatDate now (Payload.readings [ReadingValue.object
          { user_ts := "now()", asset_code := "pump's", read_key := none,
            reading := "\x7b\x7d" }]) =
        some (((INSERT_HEADER ++ "(") ++ now) ++ ",'pump's', NULL, '\x7b\x7d');") ∧
      firstLiteral ",'pump's', NULL, '\x7b\x7d');" = some ("pump", "s', NULL, '\x7b\x7d');") ∧
      appendReadingsSql formatDate now (Payload.readings [ReadingValue.object
          { user_ts := "now()", asset_code := "pump", read_key := some "k",
            reading := "\x7b\"note\":\"it's\"\x7d" }]) =
        some (((INSERT_HEADER ++ "(") ++ now) ++
          ",'pump', 'k', '\x7b\"note\":\"it's\"\x7d');") ∧
      firstLiteral "'\x7b\"note\":\"it's\"\x7d');" =
        some ("\x7b\"note\":\"it", "s\"\x7d');") := by
  refine ⟨?_, ?_, by decide, ?_, by decide⟩
  · rw [appendElement_eq]
    rfl
  · simp only [appendReadingsSql, appendLoop, appendElement, appendUserTs, if_true, opener,
      appendColumns, Option.map_some']
    congr 1
    apply String.ext
    simp [String.data_append]
  · simp only [appendReadingsSql, appendLoop, appendElement, appendUserTs, if_true, opener,
      appendColumns, Option.map_some']
    congr 1
    apply String.ext
    simp [String.data_append]

/-! ## Further properties of the locator and of purgeReadings -/

/-- C33. Locator stays in range: for every `minRowid ≥ 1`, every `U ≥ minRowid`
(below `2 ^ 64 - 1`, as every rowid is) and every answer of the age probe, each
rowid the binary search probes lies in `[minRowid, U]` and is at least 1, so
that `r = m - 1` computed on the `unsigned long` is `m - 1` and does not wrap;
and the final `rowidLimit` lies in `[minRowid, U]`. -/
theorem locator_stays_in_range (probe : Nat → Option Nat) (fuel minRowid U : Nat)
    (hL : 1 ≤ minRowid) (hLU : minRowid ≤ U) (hU : U + 1 < U64) :
    (∀ p ∈ (locate probe fuel minRowid U minRowid).probed,
      minRowid ≤ p ∧ p ≤ U ∧ 1 ≤ p ∧ (p + U64 - 1) % U64 = p - 1) ∧
    minRowid ≤ (locate probe fuel minRowid U minRowid).m ∧
    (locate probe fuel minRowid U minRowid).m ≤ U := by
  have h := locate_range probe minRowid U hL hU fuel minRowid U minRowid (le_refl _) (le_refl _)
    (by omega) (le_refl _) hLU
  refine ⟨?_, h.1.1, h.1.2⟩
  intro p hp
  obtain ⟨h1, h2⟩ := h.2 p hp
  refine ⟨h1, h2, by omega, ?_⟩
  have e : p + U64 - 1 = (p - 1) + U64 := by omega
  rw [e, Nat.add_mod_right, Nat.mod_eq_of_lt (by omega)]

/-- C33, witness. The search over the rowids 1 to 8 when no probe finds a
row. -/
theorem locator_stays_in_range_witness :
    (1 ≤ 1 ∧ 1 ≤ 8 ∧ 8 + 1 < U64) ∧
    (locate (fun _ => some 0) 10 1 8 1).probed = [4, 2, 1] ∧
    ((∀ p ∈ (locate (fun _ => some 0) 10 1 8 1).probed,
      1 ≤ p ∧ p ≤ 8 ∧ 1 ≤ p ∧ (p + U64 - 1) % U64 = p - 1) ∧
    1 ≤ (locate (fun _ => some 0) 10 1 8 1).m ∧
    (locate (fun _ => some 0) 10 1 8 1).m ≤ 8) :=
  ⟨⟨by decide, by decide, by decide⟩, by decide,
    locator_stays_in_range (fun _ => some 0) 10 1 8 (by decide) (by decide) (by decide)⟩

/-- C34. Two-row table is never purged: when the bounds of the search are
`minRowid` and `minRowid + 1` the first midpoint is `minRowid`, equal to the
initial `m`: the loop is left on its first iteration without a probe, whatever
the probe would answer; `rowidLimit` is `minRowid`, and `purgeReadings` returns
0 with the result document of lines 1031-1034 and the database as it was,
without a DELETE, whatever the age, the timestamps and the answer to the age
query. -/
theorem two_row_table_never_purged {σ : Type} (ops : Sql σ) (scale : Int → Int → Int)
    (fuel : Nat) (s : σ) (purgeBlockSize : Int) (age flags sent lo hi : Nat)
    (hmax : ops.selectMaxRowid s = some hi) (hmin : ops.selectMinRowid s = some lo)
    (hbounds : (searchBounds flags sent lo hi).2 = lo + 1) (hfuel : 0 < fuel) :
    (∀ probe : Nat → Option Nat, locate probe fuel lo (lo + 1) lo =
      { status := Status.completed, m := lo, probed := [], iters := 1 }) ∧
    (purgeReadings ops scale fuel s purgeBlockSize age flags sent).cursors = [] ∧
    (purgeReadings ops scale fuel s purgeBlockSize age flags sent).ret = 0 ∧
    (purgeReadings ops scale fuel s purgeBlockSize age flags sent).result =
      { removed := 0, unsentPurged := 0, unsentRetained := 0, readings := 0 } ∧
    (purgeReadings ops scale fuel s purgeBlockSize age flags sent).db = s := by
  have hloc : ∀ probe : Nat → Option Nat, locate probe fuel lo (lo + 1) lo =
      { status := Status.completed, m := lo, probed := [], iters := 1 } := by
    intro probe
    obtain ⟨n, rfl⟩ : ∃ n, fuel = n + 1 := ⟨fuel - 1, by omega⟩
    have hm : lo + (lo + 1 - lo) / 2 = lo := by omega
    simp [locate, hm]
  have hb1 : (searchBounds flags sent lo hi).1 = lo := rfl
  have hp : purgeReadings ops scale fuel s purgeBlockSize age flags sent =
      Purged.early Status.earlyReturn purgeBlockSize s := by
    unfold purgeReadings
    simp only [hmax, hmin]
    cases effectiveAge ops s age hi with
    | none => rfl
    | some age1 =>
      have hsb : searchBounds flags sent lo hi = (lo, lo + 1) :=
        Prod.ext hb1 hbounds
      simp [hsb, hloc]
  rw [hp]
  exact ⟨hloc, rfl, rfl, rfl, rfl⟩

/-- C34, witness. The table with the rowids 5 and 6, both rows a day old,
purged with an age of one hour. -/
theorem two_row_table_never_purged_witness :
    (tableSql.selectMaxRowid (Table.range 5 2 6) = some 6 ∧
      tableSql.selectMinRowid (Table.range 5 2 6) = some 5 ∧
      (searchBounds 0 0 5 6).2 = 5 + 1 ∧ 0 < 100) ∧
    ((∀ probe : Nat → Option Nat, locate probe 100 5 (5 + 1) 5 =
      { status := Status.completed, m := 5, probed := [], iters := 1 }) ∧
    (purgeReadings tableSql scaleExact 100 (Table.range 5 2 6) 20 1 0 0).cursors = [] ∧
    (purgeReadings tableSql scaleExact 100 (Table.range 5 2 6) 20 1 0 0).ret = 0 ∧
    (purgeReadings tableSql scaleExact 100 (Table.range 5 2 6) 20 1 0 0).result =
      { removed := 0, unsentPurged := 0, unsentRetained := 0, readings := 0 } ∧
    (purgeReadings tableSql scaleExact 100 (Table.range 5 2 6) 20 1 0 0).db =
      Table.range 5 2 6) :=
  ⟨⟨by decide, by decide, by decide, by decide⟩,
    two_row_table_never_purged tableSql scaleExact 100 (Table.range 5 2 6) 20 1 0 0 5 6
      (by decide) (by decide) (by decide) (by decide)⟩

/-- When `purgeReadings` runs to completion, the value of `unsentPurged` in the
result document is assembled from the value computed before the delete
loop. -/
theorem purgeReadings_completed_unsent {σ : Type} (ops : Sql σ) (scale : Int → Int → Int)
    (fuel : Nat) (s : σ) (purgeBlockSize : Int) (age flags sent : Nat)
    (hdone : (purgeReadings ops scale fuel s purgeBlockSize age flags sent).status
      = Status.completed) :
    ∃ hi lo age1 unsent deleted, ops.selectMaxRowid s = some hi ∧
      ops.selectMinRowid s = some lo ∧ effectiveAge ops s age hi = some age1 ∧
      unsentBefore ops s flags sent (locate (fun m => ops.selectIdOlder s m age1) fuel
          (searchBounds flags sent lo hi).1 (searchBounds flags sent lo hi).2
          (searchBounds flags sent lo hi).1).m = some unsent ∧
      (purgeReadings ops scale fuel s purgeBlockSize age flags sent).result =
        finalResult hi lo (locate (fun m => ops.selectIdOlder s m age1) fuel
          (searchBounds flags sent lo hi).1 (searchBounds flags sent lo hi).2
          (searchBounds flags sent lo hi).1).m sent deleted unsent := by
  unfold purgeReadings at hdone ⊢
  cases hmax : ops.selectMaxRowid s with
  | none => simp [hmax, Purged.early] at hdone
  | some hi =>
    cases hmin : ops.selectMinRowid s with
    | none => simp [hmax, hmin, Purged.early] at hdone
    | some lo =>
      cases hage : effectiveAge ops s age hi with
      | none => simp [hmax, hmin, hage, Purged.early] at hdone
      | some age1 =>
        simp only [hmax, hmin, hage] at hdone ⊢
        by_cases hlr : (searchBounds flags sent lo hi).1 = (searchBounds flags sent lo hi).2
        · simp [hlr, Purged.early] at hdone
        · simp only [hlr, if_false] at hdone ⊢
          by_cases hloc : (locate (fun m => ops.selectIdOlder s m age1) fuel
              (searchBounds flags sent lo hi).1 (searchBounds flags sent lo hi).2
              (searchBounds flags sent lo hi).1).status = Status.completed
          · simp only [hloc, ne_eq, not_true_eq_false, if_false] at hdone ⊢
            split at hdone
            · simp [Purged.early] at hdone
            · rename_i hne
              simp only [hne, if_false]
              cases hun : unsentBefore ops s flags sent (locate (fun m => ops.selectIdOlder s m age1)
                  fuel (searchBounds flags sent lo hi).1 (searchBounds flags sent lo hi).2
                  (searchBounds flags sent lo hi).1).m with
              | none => simp [hun, Purged.early] at hdone
              | some unsent =>
                simp only [hun] at hdone ⊢
                split at hdone
                · rename_i hd
                  simp only [hd]
                  exact ⟨hi, lo, age1, unsent, _, rfl, rfl, hage, hun, rfl⟩
                · rename_i hd
                  exact absurd hdone (by simpa using hd)
          · simp only [ne_eq, hloc, not_false_eq_true, if_true, Purged.early] at hdone

/-- C31. Unsent-purged overshoot: when `purgeReadings` completes with bit 0 of
the flags off and `sent > 0`, there are the final `rowidLimit` R of the search
and the id that `select id ... where rowid = R` left in `lastPurgedId`, and the
document reports `unsentPurged` as `(int)(R - sent)` when that id exceeds
`sent` and as 0 otherwise; for an id that is a non-negative `int` and an
overshoot `R - sent` in the range of `int` the value is `R - sent`. -/
theorem unsent_purged_overshoot {σ : Type} (ops : Sql σ) (scale : Int → Int → Int)
    (fuel : Nat) (s : σ) (purgeBlockSize : Int) (age flags sent : Nat)
    (hdone : (purgeReadings ops scale fuel s purgeBlockSize age flags sent).status
      = Status.completed)
    (hflag : flags % 2 = 0) (hsent : 0 < sent) (hsent64 : sent < U64) :
    ∃ (R : Nat) (id : Int) (hi lo age1 : Nat),
      ops.selectMaxRowid s = some hi ∧ ops.selectMinRowid s = some lo ∧
      effectiveAge ops s age hi = some age1 ∧
      R = (locate (fun m => ops.selectIdOlder s m age1) fuel (searchBounds flags sent lo hi).1
        (searchBounds flags sent lo hi).2 (searchBounds flags sent lo hi).1).m ∧
      ops.selectId s R = some id ∧
      (purgeReadings ops scale fuel s purgeBlockSize age flags sent).result.unsentPurged =
        (if toU64 id > sent then toInt32 ((R + U64 - sent) % U64) else 0) ∧
      (0 ≤ id → id < 2 ^ 31 → (sent : Int) < id → sent ≤ R → R - sent < 2 ^ 31 →
        (purgeReadings ops scale fuel s purgeBlockSize age flags sent).result.unsentPurged =
          (R : Int) - (sent : Int)) ∧
      (0 ≤ id → id < 2 ^ 31 → id ≤ (sent : Int) →
        (purgeReadings ops scale fuel s purgeBlockSize age flags sent).result.unsentPurged = 0) := by
  obtain ⟨hi, lo, age1, unsent, deleted, hmax, hmin, hage, hun, hres⟩ :=
    purgeReadings_completed_unsent ops scale fuel s purgeBlockSize age flags sent hdone
  generalize hR : (locate (fun m => ops.selectIdOlder s m age1) fuel
    (searchBounds flags sent lo hi).1 (searchBounds flags sent lo hi).2
    (searchBounds flags sent lo hi).1).m = R at hun hres
  unfold unsentBefore at hun
  simp only [hflag, if_true] at hun
  cases hid : ops.selectId s R with
  | none => simp [hid] at hun
  | some id =>
    simp only [hid, Option.map_some', Option.some.injEq] at hun
    have hsent0 : sent ≠ 0 := by omega
    simp only [hsent0, ne_eq, not_false_eq_true, true_and] at hun
    have hval : (purgeReadings ops scale fuel s purgeBlockSize age flags sent).result.unsentPurged =
        (if toU64 id > sent then toInt32 ((R + U64 - sent) % U64) else 0) := by
      rw [hres]
      simp only [finalResult, hsent0, if_false]
      exact hun.symm
    have hto : 0 ≤ id → id < 2 ^ 31 → toU64 id = id.toNat := by
      intro h0 h1
      unfold toU64
      rw [Int.emod_eq_of_lt h0 (by rw [U64_eq]; norm_num; omega)]
    refine ⟨R, id, hi, lo, age1, hmax, hmin, hage, hR.symm, hid, hval, ?_, ?_⟩
    · intro h0 h1 hgt hle hsmall
      rw [hval, hto h0 h1, if_pos (by omega)]
      have e : (R + U64 - sent) % U64 = R - sent := by
        have : R + U64 - sent = (R - sent) + U64 := by omega
        rw [this, Nat.add_mod_right, Nat.mod_eq_of_lt (by rw [U64_eq]; omega)]
      rw [e]
      unfold toInt32
      rw [U32_eq]
      rw [Nat.mod_eq_of_lt (by omega), if_pos (by omega)]
      omega
    · intro h0 h1 hle
      rw [hval, hto h0 h1, if_neg (by omega)]

/-- C31, witness. The rows 1 to 6, all a day old, purged with an age of one
hour, the flags 0 and `sent` = 2: the search ends on 6 and the document reports
4 unsent readings purged. -/
theorem unsent_purged_overshoot_witness :
    ((purgeReadings tableSql scaleExact 100 (Table.range 1 6 6) 20 1 0 2).status =
        Status.completed ∧ 0 % 2 = 0 ∧ 0 < 2 ∧ 2 < U64) ∧
    (purgeReadings tableSql scaleExact 100 (Table.range 1 6 6) 20 1 0 2).result.unsentPurged = 4 ∧
    (∃ (R : Nat) (id : Int) (hi lo age1 : Nat),
      tableSql.selectMaxRowid (Table.range 1 6 6) = some hi ∧
      tableSql.selectMinRowid (Table.range 1 6 6) = some lo ∧
      effectiveAge tableSql (Table.range 1 6 6) 1 hi = some age1 ∧
      R = (locate (fun m => tableSql.selectIdOlder (Table.range 1 6 6) m age1) 100
        (searchBounds 0 2 lo hi).1 (searchBounds 0 2 lo hi).2 (searchBounds 0 2 lo hi).1).m ∧
      tableSql.selectId (Table.range 1 6 6) R = some id ∧
      (purgeReadings tableSql scaleExact 100 (Table.range 1 6 6) 20 1 0 2).result.unsentPurged =
        (if toU64 id > 2 then toInt32 ((R + U64 - 2) % U64) else 0) ∧
      (0 ≤ id → id < 2 ^ 31 → ((2 : Nat) : Int) < id → 2 ≤ R → R - 2 < 2 ^ 31 →
        (purgeReadings tableSql scaleExact 100 (Table.range 1 6 6) 20 1 0 2).result.unsentPurged =
          (R : Int) - ((2 : Nat) : Int)) ∧
      (0 ≤ id → id < 2 ^ 31 → id ≤ ((2 : Nat) : Int) →
        (purgeReadings tableSql scaleExact 100 (Table.range 1 6 6) 20 1 0 2).result.unsentPurged =
          0)) :=
  ⟨⟨by decide, by decide, by decide, by decide⟩, by decide,
    unsent_purged_overshoot tableSql scaleExact 100 (Table.range 1 6 6) 20 1 0 2 (by decide)
      (by decide) (by decide) (by decide)⟩

/-! ## Properties of deleteRows -/

/-- C39. No accidental unconditional delete: for an empty condition `deleteRows`
executes `DELETE FROM foglamp.<table>;`, and whenever it executes that statement
the condition is empty; for a condition that is not JSON, for a document
without the member `where`, and for a where clause on which `jsonWhereClause`
returns false it returns -1 and executes nothing. -/
theorem no_accidental_unconditional_delete (H : Helpers) (exec : String → Option Nat)
    (table : String) (condition : Condition) :
    (condition = Condition.empty →
      ∃ ret, deleteRows H exec table condition =
        some (ret, ["DELETE FROM foglamp." ++ table ++ ";"])) ∧
    (∀ ret statements, deleteRows H exec table condition = some (ret, statements) →
      ("DELETE FROM foglamp." ++ table ++ ";") ∈ statements → condition = Condition.empty) ∧
    (condition = Condition.malformed → deleteRows H exec table condition = some (-1, [])) ∧
    (∀ payload, condition = Condition.document (Json.obj payload) →
      lookup "where" payload = none → deleteRows H exec table condition = some (-1, [])) ∧
    (∀ payload whereClause b, condition = Condition.document (Json.obj payload) →
      lookup "where" payload = some whereClause →
      jsonWhereClause H H.convertLocaltime whereClause
        ((((Buffers.mk "" "").append "DELETE FROM foglamp.").append table).append " WHERE ") =
        Res.error b →
      deleteRows H exec table condition = some (-1, [])) := by
  refine ⟨?_, ?_, ?_, ?_, ?_⟩
  · intro h
    subst h
    have hsql : ("" ++ "DELETE FROM foglamp." ++ table) ++ ";" =
        "DELETE FROM foglamp." ++ table ++ ";" := by
      apply String.ext
      simp [String.data_append]
    refine ⟨match exec ("DELETE FROM foglamp." ++ table ++ ";") with
      | some changes => (changes : Int)
      | none => -1, ?_⟩
    simp only [deleteRows, deleteRowsSql, Buffers.append, hsql]
  · intro ret statements h hmem
    cases condition with
    | empty => rfl
    | malformed =>
      simp only [deleteRows, deleteRowsSql, Option.some.injEq, Prod.mk.injEq] at h
      rw [← h.2] at hmem
      simp at hmem
    | document j =>
      exfalso
      cases j with
      | obj payload =>
        simp only [deleteRows, deleteRowsSql] at h
        cases hw : lookup "where" payload with
        | none =>
          simp only [hw, Option.some.injEq, Prod.mk.injEq] at h
          rw [← h.2] at hmem
          simp at hmem
        | some w =>
          simp only [hw] at h
          cases hj : jsonWhereClause H H.convertLocaltime w
              ((((Buffers.mk "" "").append "DELETE FROM foglamp.").append table).append
                " WHERE ") with
          | ok b1 =>
            obtain ⟨t, hb1⟩ := jsonWhereClause_appends H H.convertLocaltime w _ b1 hj
            simp only [hj, Res.andThen, Option.some.injEq, Prod.mk.injEq] at h
            rw [← h.2, List.mem_singleton, hb1] at hmem
            have hd := congrArg String.data hmem
            simp only [Buffers.append, String.data_append, List.append_assoc] at hd
            have hd2 := List.append_cancel_left (List.append_cancel_left hd)
            have hl := congrArg List.length hd2
            simp at hl
          | error b1 =>
            simp only [hj, Res.andThen, Option.some.injEq, Prod.mk.injEq] at h
            rw [← h.2] at hmem
            simp at hmem
          | undefined => simp [hj, Res.andThen] at h
      | null => simp [deleteRows, deleteRowsSql] at h
      | bool _ => simp [deleteRows, deleteRowsSql] at h
      | int _ => simp [deleteRows, deleteRowsSql] at h
      | real _ => simp [deleteRows, deleteRowsSql] at h
      | str _ => simp [deleteRows, deleteRowsSql] at h
      | arr _ => simp [deleteRows, deleteRowsSql] at h
  · intro h
    subst h
    rfl
  · intro payload h hw
    subst h
    simp [deleteRows, deleteRowsSql, hw]
  · intro payload w b h hw hj
    subst h
    simp [deleteRows, deleteRowsSql, hw, hj, Res.andThen]

/-- C39, witness. A condition that is not JSON. -/
theorem no_accidental_unconditional_delete_witness :
    deleteRows sampleHelpers (fun _ => some 3) "log" Condition.malformed = some (-1, []) ∧
      (∃ ret, deleteRows sampleHelpers (fun _ => some 3) "log" Condition.empty =
        some (ret, ["DELETE FROM foglamp." ++ "log" ++ ";"])) :=
  ⟨(no_accidental_unconditional_delete sampleHelpers (fun _ => some 3) "log"
      Condition.malformed).2.2.1 rfl,
    (no_accidental_unconditional_delete sampleHelpers (fun _ => some 3) "log"
      Condition.empty).1 rfl⟩

/-! ## Lemmas on the single-precision arithmetic -/

/-- When the integer part has at most 24 bits only the numerator is doubled. -/
theorem scaleToMantissa_up :
    ∀ (fuel n d : Nat), 0 < d → n / d < 2 ^ 24 →
      ∃ a, scaleToMantissa fuel n d = (n * 2 ^ a, d) := by
  intro fuel
  induction fuel with
  | zero => intro n d _ _; exact ⟨0, by simp [scaleToMantissa]⟩
  | succ k ih =>
    intro n d hd h
    unfold scaleToMantissa
    by_cases h1 : n / d < 2 ^ 23
    · simp only [h1, if_true]
      have h2 : 2 * n / d < 2 ^ 24 := by
        rw [Nat.div_lt_iff_lt_mul hd] at h1 ⊢
        omega
      obtain ⟨a, ha⟩ := ih (2 * n) d hd h2
      exact ⟨a + 1, by rw [ha, pow_succ]; congr 1; ring⟩
    · simp only [h1, if_false]
      rw [if_neg (by omega)]
      exact ⟨0, by simp⟩

/-- When the integer part has at least 24 bits only the denominator is
doubled, and at least 24 bits are kept. -/
theorem scaleToMantissa_down :
    ∀ (fuel n d : Nat), 0 < d → 2 ^ 23 ≤ n / d →
      ∃ b, scaleToMantissa fuel n d = (n, d * 2 ^ b) ∧ 2 ^ 23 ≤ n / (d * 2 ^ b) := by
  intro fuel
  induction fuel with
  | zero => intro n d _ h; exact ⟨0, by simp [scaleToMantissa], by simpa using h⟩
  | succ k ih =>
    intro n d hd h
    unfold scaleToMantissa
    rw [if_neg (by omega)]
    by_cases h2 : 2 ^ 24 ≤ n / d
    · simp only [h2, if_true]
      have h3 : 2 ^ 23 ≤ n / (2 * d) := by
        rw [Nat.le_div_iff_mul_le (by omega)] at h2 ⊢
        nlinarith
      obtain ⟨b, hb, hq⟩ := ih n (2 * d) (by omega) h3
      refine ⟨b + 1, ?_, ?_⟩
      · rw [hb, pow_succ]; congr 1; ring
      · have e : d * 2 ^ (b + 1) = 2 * d * 2 ^ b := by rw [pow_succ]; ring
        rw [e]; exact hq
    · simp only [h2, if_false]
      exact ⟨0, by simp, by simpa using h⟩

/-- The shape of a rounded fraction: the mantissa is the integer part of the
scaled fraction or one more, the latter only when there is a remainder. -/
theorem roundSingle_cases (num den : Nat) (hnum : 0 < num) (hden : 0 < den) :
    ∃ n d m, roundSingle num den = (m * d * num, den * n) ∧ n / d ≤ m ∧
      (m = n / d ∨ (m = n / d + 1 ∧ 0 < n % d)) ∧
      ((∃ a, n = num * 2 ^ a ∧ d = den) ∨
        (∃ b, n = num ∧ d = den * 2 ^ b ∧ 2 ^ 24 ≤ num / den ∧ 2 ^ 23 ≤ n / d)) := by
  have hshape : (∃ a, scaleToMantissa 300 num den = (num * 2 ^ a, den)) ∨
      (∃ b, scaleToMantissa 300 num den = (num, den * 2 ^ b) ∧ 2 ^ 24 ≤ num / den ∧
        2 ^ 23 ≤ num / (den * 2 ^ b)) := by
    by_cases hq : num / den < 2 ^ 24
    · exact Or.inl (scaleToMantissa_up 300 num den hden hq)
    · obtain ⟨b, hb, hb2⟩ := scaleToMantissa_down 300 num den hden (by omega)
      exact Or.inr ⟨b, hb, by omega, hb2⟩
  have hround : ∀ n d : Nat,
      n / d ≤ (if 2 * (n % d) > d ∨ (2 * (n % d) = d ∧ n / d % 2 = 1) then n / d + 1 else n / d) ∧
      ((if 2 * (n % d) > d ∨ (2 * (n % d) = d ∧ n / d % 2 = 1) then n / d + 1 else n / d) = n / d ∨
        ((if 2 * (n % d) > d ∨ (2 * (n % d) = d ∧ n / d % 2 = 1) then n / d + 1 else n / d) =
          n / d + 1 ∧ 0 < n % d)) := by
    intro n d
    split
    · rename_i h
      refine ⟨by omega, Or.inr ⟨rfl, ?_⟩⟩
      rcases h with h | h
      · omega
      · rcases Nat.eq_zero_or_pos (n % d) with h0 | h0
        · exfalso
          rw [h0] at h
          have hd0 : d = 0 := by omega
          rw [hd0, Nat.div_zero] at h
          omega
        · exact h0
    · exact ⟨le_refl _, Or.inl rfl⟩
  unfold roundSingle
  rw [if_neg (by omega)]
  simp only []
  rcases hshape with ⟨a, ha⟩ | ⟨b, hb, h24, h23⟩
  · rw [ha]
    exact ⟨num * 2 ^ a, den, _, rfl, (hround _ _).1, (hround _ _).2, Or.inl ⟨a, rfl, rfl⟩⟩
  · rw [hb]
    exact ⟨num, den * 2 ^ b, _, rfl, (hround _ _).1, (hround _ _).2,
      Or.inr ⟨b, rfl, rfl, h24, h23⟩⟩

/-- Rounding does not go below an integer, of at most 24 bits, that the fraction
reaches. -/
theorem roundSingle_ge (num den k : Nat) (hnum : 0 < num) (hden : 0 < den) (hk : k < 2 ^ 24)
    (h : k * den ≤ num) : k * (roundSingle num den).2 ≤ (roundSingle num den).1 := by
  obtain ⟨n, d, m, hr, hm, -, hshape⟩ := roundSingle_cases num den hnum hden
  rw [hr]
  simp only []
  rcases hshape with ⟨a, hn, hd⟩ | ⟨b, hn, hd, h24, h23⟩
  · rw [hn, hd] at hm
    rw [hn, hd]
    have hq : k * 2 ^ a ≤ num * 2 ^ a / den := by
      rw [Nat.le_div_iff_mul_le hden]
      calc k * 2 ^ a * den = k * den * 2 ^ a := by ring
        _ ≤ num * 2 ^ a := Nat.mul_le_mul_right _ h
    have hkm : k * 2 ^ a ≤ m := le_trans hq hm
    calc k * (den * (num * 2 ^ a)) = k * 2 ^ a * (den * num) := by ring
      _ ≤ m * (den * num) := Nat.mul_le_mul_right _ hkm
      _ = m * den * num := by ring
  · rw [hn, hd] at hm h23
    rw [hn, hd]
    have hkm : k ≤ m * 2 ^ b := by
      rcases Nat.eq_zero_or_pos b with hb0 | hb0
      · subst hb0
        simp only [pow_zero, Nat.mul_one] at hm ⊢
        omega
      · have h2 : 2 ≤ 2 ^ b := by
          calc 2 = 2 ^ 1 := by norm_num
            _ ≤ 2 ^ b := Nat.pow_le_pow_right (by norm_num) hb0
        have hm23 : 2 ^ 23 ≤ m := le_trans h23 hm
        calc k ≤ 2 ^ 23 * 2 := by omega
          _ ≤ m * 2 ^ b := Nat.mul_le_mul hm23 h2
    calc k * (den * num) = k * (den * num) := rfl
      _ ≤ m * 2 ^ b * (den * num) := Nat.mul_le_mul_right _ hkm
      _ = m * (den * 2 ^ b) * num := by ring

/-- Rounding does not go above an integer, of at most 24 bits, that bounds the
fraction. -/
theorem roundSingle_le (num den k : Nat) (hnum : 0 < num) (hden : 0 < den) (hk : k < 2 ^ 24)
    (h : num ≤ k * den) : (roundSingle num den).1 ≤ k * (roundSingle num den).2 := by
  obtain ⟨n, d, m, hr, -, hm, hshape⟩ := roundSingle_cases num den hnum hden
  rw [hr]
  simp only []
  rcases hshape with ⟨a, hn, hd⟩ | ⟨b, hn, hd, h24, h23⟩
  · rw [hn, hd] at hm
    rw [hn, hd]
    have hle : num * 2 ^ a ≤ k * 2 ^ a * den := by
      calc num * 2 ^ a ≤ k * den * 2 ^ a := Nat.mul_le_mul_right _ h
        _ = k * 2 ^ a * den := by ring
    have hmk : m ≤ k * 2 ^ a := by
      rcases hm with hm | ⟨hm, hrem⟩
      · rw [hm]
        exact Nat.div_le_of_le_mul (le_trans hle (le_of_eq (Nat.mul_comm _ _)))
      · rw [hm]
        have hdm := Nat.div_add_mod (num * 2 ^ a) den
        have hlt : den * (num * 2 ^ a / den) < den * (k * 2 ^ a) := by
          calc den * (num * 2 ^ a / den) < den * (num * 2 ^ a / den) + num * 2 ^ a % den := by
                omega
            _ = num * 2 ^ a := hdm
            _ ≤ k * 2 ^ a * den := hle
            _ = den * (k * 2 ^ a) := by ring
        have := Nat.lt_of_mul_lt_mul_left hlt
        omega
    calc m * den * num = m * (den * num) := by ring
      _ ≤ k * 2 ^ a * (den * num) := Nat.mul_le_mul_right _ hmk
      _ = k * (den * (num * 2 ^ a)) := by ring
  · exfalso
    have : num / den ≤ k := Nat.div_le_of_le_mul (le_trans h (le_of_eq (Nat.mul_comm _ _)))
    omega

/-- A rounded positive fraction has a positive denominator. -/
theorem roundSingle_den_pos (num den : Nat) (hnum : 0 < num) (hden : 0 < den) :
    0 < (roundSingle num den).2 := by
  obtain ⟨n, d, m, hr, -, -, hshape⟩ := roundSingle_cases num den hnum hden
  rw [hr]
  simp only []
  rcases hshape with ⟨a, hn, -⟩ | ⟨b, hn, -, -, -⟩
  · rw [hn]
    exact Nat.mul_pos hden (Nat.mul_pos hnum (pow_pos (by norm_num) a))
  · rw [hn]
    exact Nat.mul_pos hden hnum

/-- The numerator and the denominator of the ratio are positive. -/
theorem ratioSingle_pos (avg : Int) : 0 < (ratioSingle avg).1 ∧ 0 < (ratioSingle avg).2 := by
  unfold ratioSingle
  split
  · exact ⟨by decide, by decide⟩
  · split
    · exact ⟨by decide, by decide⟩
    · rename_i h0 hneg
      have havg : 0 < avg.toNat := by omega
      have ha2 := roundSingle_den_pos avg.toNat 1 havg (by decide)
      have ha1 := roundSingle_ge avg.toNat 1 1 havg (by decide) (by decide) (by omega)
      have hT : 0 < TARGET_PURGE_BLOCK_DEL_TIME.toNat := by decide
      have hr2 := roundSingle_den_pos (TARGET_PURGE_BLOCK_DEL_TIME.toNat *
        (roundSingle avg.toNat 1).2) (roundSingle avg.toNat 1).1 (Nat.mul_pos hT ha2) (by omega)
      simp only []
      split
      · exact ⟨by decide, by decide⟩
      · split
        · exact ⟨by decide, by decide⟩
        · exact ⟨by omega, hr2⟩

/-- An average of at least the target gives a ratio of at most one. -/
theorem ratioSingle_le_one (avg : Int) (h : 70000 ≤ avg) :
    (ratioSingle avg).1 ≤ (ratioSingle avg).2 := by
  unfold ratioSingle
  rw [if_neg (by omega), if_neg (by omega)]
  have havg : 0 < avg.toNat := by omega
  have hT : TARGET_PURGE_BLOCK_DEL_TIME.toNat = 70000 := by decide
  have ha2 := roundSingle_den_pos avg.toNat 1 havg (by decide)
  have ha := roundSingle_ge avg.toNat 1 70000 havg (by decide) (by norm_num) (by omega)
  have hr := roundSingle_le (TARGET_PURGE_BLOCK_DEL_TIME.toNat * (roundSingle avg.toNat 1).2)
    (roundSingle avg.toNat 1).1 1 (by rw [hT]; omega) (by omega) (by norm_num)
    (by rw [hT]; omega)
  simp only []
  split
  · omega
  · split
    · decide
    · omega

/-- A positive average of at most the target, below `2 ^ 24`, gives a ratio of
at least one; so does the average 0. -/
theorem ratioSingle_ge_one (avg : Int) (h0 : 0 ≤ avg) (h : avg ≤ 70000) :
    (ratioSingle avg).2 ≤ (ratioSingle avg).1 := by
  unfold ratioSingle
  by_cases hz : avg = 0
  · rw [if_pos hz]
    decide
  · rw [if_neg hz, if_neg (by omega)]
    have havg : 0 < avg.toNat := by omega
    have hT : TARGET_PURGE_BLOCK_DEL_TIME.toNat = 70000 := by decide
    have ha2 := roundSingle_den_pos avg.toNat 1 havg (by decide)
    have ha1 := roundSingle_ge avg.toNat 1 1 havg (by decide) (by decide) (by omega)
    have ha := roundSingle_le avg.toNat 1 avg.toNat havg (by decide)
      (by have : avg.toNat ≤ 70000 := by omega
          omega) (by omega)
    have hle : (roundSingle avg.toNat 1).1 ≤ 70000 * (roundSingle avg.toNat 1).2 := by
      have h7 : avg.toNat ≤ 70000 := by omega
      calc (roundSingle avg.toNat 1).1 ≤ avg.toNat * (roundSingle avg.toNat 1).2 := ha
        _ ≤ 70000 * (roundSingle avg.toNat 1).2 := Nat.mul_le_mul_right _ h7
    have hr := roundSingle_ge (TARGET_PURGE_BLOCK_DEL_TIME.toNat * (roundSingle avg.toNat 1).2)
      (roundSingle avg.toNat 1).1 1 (by rw [hT]; omega) (by omega) (by norm_num)
      (by rw [hT]; omega)
    simp only []
    split
    · decide
    · split
      · omega
      · omega

/-- The product of a block size and the ratio, rounded and truncated, against an
integer bound on the exact product. -/
theorem scaleSingle_bounds (s avg : Int) (hs : BlockSizeOk s) (k : Nat) (hk : k < 2 ^ 24) :
    (k * (ratioSingle avg).2 ≤ s.toNat * (ratioSingle avg).1 → (k : Int) ≤ scaleSingle s avg) ∧
    (s.toNat * (ratioSingle avg).1 ≤ k * (ratioSingle avg).2 → scaleSingle s avg ≤ (k : Int)) := by
  obtain ⟨h20, h1500, -⟩ := hs
  have hS : s.natAbs = s.toNat := by omega
  have hSpos : 0 < s.toNat := by omega
  have hSlt : s.toNat < 2 ^ 24 := by omega
  obtain ⟨hr1, hr2⟩ := ratioSingle_pos avg
  have hp2 := roundSingle_den_pos s.toNat 1 hSpos (by decide)
  have hpge := roundSingle_ge s.toNat 1 s.toNat hSpos (by decide) hSlt (by omega)
  have hple := roundSingle_le s.toNat 1 s.toNat hSpos (by decide) hSlt (by omega)
  have hp1 : (roundSingle s.toNat 1).1 = s.toNat * (roundSingle s.toNat 1).2 := le_antisymm hple hpge
  have hnum : 0 < (roundSingle s.toNat 1).1 * (ratioSingle avg).1 := by
    rw [hp1]
    exact Nat.mul_pos (Nat.mul_pos hSpos hp2) hr1
  have hden : 0 < (roundSingle s.toNat 1).2 * (ratioSingle avg).2 := Nat.mul_pos hp2 hr2
  have hx2 := roundSingle_den_pos _ _ hnum hden
  have hval : scaleSingle s avg =
      (((roundSingle ((roundSingle s.toNat 1).1 * (ratioSingle avg).1)
          ((roundSingle s.toNat 1).2 * (ratioSingle avg).2)).1 /
        (roundSingle ((roundSingle s.toNat 1).1 * (ratioSingle avg).1)
          ((roundSingle s.toNat 1).2 * (ratioSingle avg).2)).2 : Nat) : Int) := by
    unfold scaleSingle
    simp only [hS]
    rw [if_neg (by omega)]
    simp
  rw [hval]
  constructor
  · intro h
    have hge := roundSingle_ge _ _ k hnum hden hk (by
      rw [hp1]
      calc k * ((roundSingle s.toNat 1).2 * (ratioSingle avg).2)
          = (roundSingle s.toNat 1).2 * (k * (ratioSingle avg).2) := by ring
        _ ≤ (roundSingle s.toNat 1).2 * (s.toNat * (ratioSingle avg).1) :=
            Nat.mul_le_mul_left _ h
        _ = s.toNat * (roundSingle s.toNat 1).2 * (ratioSingle avg).1 := by ring)
    exact_mod_cast (Nat.le_div_iff_mul_le hx2).2 hge
  · intro h
    have hle := roundSingle_le _ _ k hnum hden hk (by
      rw [hp1]
      calc s.toNat * (roundSingle s.toNat 1).2 * (ratioSingle avg).1
          = (roundSingle s.toNat 1).2 * (s.toNat * (ratioSingle avg).1) := by ring
        _ ≤ (roundSingle s.toNat 1).2 * (k * (ratioSingle avg).2) := Nat.mul_le_mul_left _ h
        _ = k * ((roundSingle s.toNat 1).2 * (ratioSingle avg).2) := by ring)
    exact_mod_cast Nat.div_le_of_le_mul (le_trans hle (le_of_eq (Nat.mul_comm _ _)))

/-- The value stored by line 1299, divided and multiplied by the granularity, for
a valid block size: a sandwich between the multiples of 5 around the exact
product. -/
theorem scaleSingle_granular (s avg : Int) (hs : BlockSizeOk s) :
    0 ≤ scaleSingle s avg ∧ s / 2 ≤ scaleSingle s avg ∧ scaleSingle s avg ≤ 2 * s ∧
    (70000 ≤ avg → scaleSingle s avg ≤ s) ∧
    (0 ≤ avg → avg ≤ 70000 → s ≤ scaleSingle s avg) := by
  have hs0 := hs
  obtain ⟨h20, h1500, -⟩ := hs
  obtain ⟨hc1, hc2⟩ := ratioSingle_clamped avg
  obtain ⟨hr1, hr2⟩ := ratioSingle_pos avg
  have hcast : ((s.toNat : Nat) : Int) = s := Int.toNat_of_nonneg (by omega)
  refine ⟨?_, ?_, ?_, ?_, ?_⟩
  · have h := (scaleSingle_bounds s avg hs0 0 (by norm_num)).1 (by simp)
    exact_mod_cast h
  · have hk : s.toNat / 2 * (ratioSingle avg).2 ≤ s.toNat * (ratioSingle avg).1 := by
      have h1 : s.toNat / 2 * 2 ≤ s.toNat := Nat.div_mul_le_self _ _
      have h2 : s.toNat / 2 * (ratioSingle avg).2 ≤ s.toNat / 2 * (2 * (ratioSingle avg).1) :=
        Nat.mul_le_mul_left _ hc1
      have h3 : s.toNat / 2 * 2 * (ratioSingle avg).1 ≤ s.toNat * (ratioSingle avg).1 :=
        Nat.mul_le_mul_right _ h1
      calc s.toNat / 2 * (ratioSingle avg).2 ≤ s.toNat / 2 * (2 * (ratioSingle avg).1) := h2
        _ = s.toNat / 2 * 2 * (ratioSingle avg).1 := by ring
        _ ≤ s.toNat * (ratioSingle avg).1 := h3
    have h := (scaleSingle_bounds s avg hs0 (s.toNat / 2) (by omega)).1 hk
    have e : ((s.toNat / 2 : Nat) : Int) = s / 2 := by
      rw [Int.ofNat_ediv, hcast]
      rfl
    rw [e] at h
    exact h
  · have hk : s.toNat * (ratioSingle avg).1 ≤ 2 * s.toNat * (ratioSingle avg).2 := by
      calc s.toNat * (ratioSingle avg).1 ≤ s.toNat * (2 * (ratioSingle avg).2) :=
            Nat.mul_le_mul_left _ hc2
        _ = 2 * s.toNat * (ratioSingle avg).2 := by ring
    have h := (scaleSingle_bounds s avg hs0 (2 * s.toNat) (by omega)).2 hk
    have e : ((2 * s.toNat : Nat) : Int) = 2 * s := by
      push_cast
      rw [hcast]
    rw [e] at h
    exact h
  · intro havg
    have hk : s.toNat * (ratioSingle avg).1 ≤ s.toNat * (ratioSingle avg).2 :=
      Nat.mul_le_mul_left _ (ratioSingle_le_one avg havg)
    have h := (scaleSingle_bounds s avg hs0 s.toNat (by omega)).2 hk
    rw [hcast] at h
    exact h
  · intro h0 havg
    have hk : s.toNat * (ratioSingle avg).2 ≤ s.toNat * (ratioSingle avg).1 :=
      Nat.mul_le_mul_left _ (ratioSingle_ge_one avg h0 havg)
    have h := (scaleSingle_bounds s avg hs0 s.toNat (by omega)).1 hk
    rw [hcast] at h
    exact h

/-! ## Direction and reach of one recalculation -/

/-- C38. Controller moves the right way: for a block size `s` in [20, 1500] that
is a multiple of 5, with the float statements of lines 1296-1299 computed in
single precision, a recalculation with `avg` above 77000 gives a new size of at
most `s` and one with `avg` from 0 to below 63000 gives a new size of at least
`s`, before the two clamps of lines 1301-1304 as well as after them. Before the
clamps the new size is at most `2 * s` and at least `s / 10 * 5`, which is the
largest multiple of 5 that does not exceed half of `s`. Whenever the deviation is
above 7000 the new size is the clamped value. -/
theorem controller_moves_the_right_way (s avg : Int) (hs : BlockSizeOk s) :
    (77000 < avg →
      Int.tdiv (scaleSingle s avg) PURGE_BLOCK_SZ_GRANULARITY * PURGE_BLOCK_SZ_GRANULARITY ≤ s ∧
        resize scaleSingle s avg ≤ s) ∧
    (0 ≤ avg → avg < 63000 →
      s ≤ Int.tdiv (scaleSingle s avg) PURGE_BLOCK_SZ_GRANULARITY * PURGE_BLOCK_SZ_GRANULARITY ∧
        s ≤ resize scaleSingle s avg) ∧
    Int.tdiv (scaleSingle s avg) PURGE_BLOCK_SZ_GRANULARITY * PURGE_BLOCK_SZ_GRANULARITY
      ≤ 2 * s ∧
    s / 10 * 5
      ≤ Int.tdiv (scaleSingle s avg) PURGE_BLOCK_SZ_GRANULARITY * PURGE_BLOCK_SZ_GRANULARITY ∧
    (2 * (s / 10 * 5) ≤ s ∧ ∀ m : Int, 5 ∣ m → 2 * m ≤ s → m ≤ s / 10 * 5) ∧
    (7000 < |avg - 70000| →
      resize scaleSingle s avg =
        clampBlockSize
          (Int.tdiv (scaleSingle s avg) PURGE_BLOCK_SZ_GRANULARITY *
            PURGE_BLOCK_SZ_GRANULARITY)) := by
  obtain ⟨hT0, hlo, hup, hdown, hrise⟩ := scaleSingle_granular s avg hs
  obtain ⟨h20, h1500, k, hk⟩ := hs
  have hG : PURGE_BLOCK_SZ_GRANULARITY = 5 := rfl
  have hT : TARGET_PURGE_BLOCK_DEL_TIME = 70000 := by decide
  have hT10 : Int.tdiv (70000 : Int) 10 = 7000 := by decide
  have hMin : MIN_PURGE_DELETE_BLOCK_SIZE = 20 := rfl
  have hMax : MAX_PURGE_DELETE_BLOCK_SIZE = 1500 := rfl
  have hdiv : Int.tdiv (scaleSingle s avg) 5 = scaleSingle s avg / 5 :=
    Int.tdiv_eq_ediv hT0 (by decide)
  have hres : 7000 < |avg - 70000| →
      resize scaleSingle s avg = clampBlockSize (scaleSingle s avg / 5 * 5) := by
    intro hdev
    unfold resize
    simp only [hT, hT10, hG, hdiv]
    rw [if_pos hdev]
  have hclamp : ∀ b : Int, clampBlockSize b =
      if (if b < 20 then 20 else b) > 1500 then 1500 else (if b < 20 then 20 else b) := by
    intro b
    unfold clampBlockSize
    simp only [hMin, hMax]
  rw [hG, hdiv]
  refine ⟨?_, ?_, ?_, ?_, ⟨?_, ?_⟩, hres⟩
  · intro havg
    have h1 := hdown (by omega)
    have hdev : 7000 < |avg - 70000| := by
      rw [abs_of_nonneg (by omega)]
      omega
    refine ⟨by omega, ?_⟩
    rw [hres hdev, hclamp]
    split <;> split <;> omega
  · intro h0 havg
    have h1 := hrise h0 (by omega)
    have hdev : 7000 < |avg - 70000| := by
      rw [abs_of_neg (by omega)]
      omega
    refine ⟨by omega, ?_⟩
    rw [hres hdev, hclamp]
    split <;> split <;> omega
  · omega
  · omega
  · omega
  · rintro m ⟨j, rfl⟩ hm
    omega

/-- C38, witness: the block size 100 with the averages 100000 and 50000. -/
theorem controller_moves_the_right_way_witness :
    BlockSizeOk 100 ∧
    ((77000 < (100000 : Int) →
      Int.tdiv (scaleSingle 100 100000) PURGE_BLOCK_SZ_GRANULARITY *
          PURGE_BLOCK_SZ_GRANULARITY ≤ 100 ∧
        resize scaleSingle 100 100000 ≤ 100) ∧
    ((0 : Int) ≤ 100000 → (100000 : Int) < 63000 →
      100 ≤ Int.tdiv (scaleSingle 100 100000) PURGE_BLOCK_SZ_GRANULARITY *
          PURGE_BLOCK_SZ_GRANULARITY ∧
        100 ≤ resize scaleSingle 100 100000) ∧
    Int.tdiv (scaleSingle 100 100000) PURGE_BLOCK_SZ_GRANULARITY * PURGE_BLOCK_SZ_GRANULARITY
      ≤ 2 * 100 ∧
    (100 : Int) / 10 * 5
      ≤ Int.tdiv (scaleSingle 100 100000) PURGE_BLOCK_SZ_GRANULARITY *
          PURGE_BLOCK_SZ_GRANULARITY ∧
    (2 * ((100 : Int) / 10 * 5) ≤ 100 ∧ ∀ m : Int, 5 ∣ m → 2 * m ≤ 100 → m ≤ 100 / 10 * 5) ∧
    (7000 < |(100000 : Int) - 70000| →
      resize scaleSingle 100 100000 =
        clampBlockSize
          (Int.tdiv (scaleSingle 100 100000) PURGE_BLOCK_SZ_GRANULARITY *
            PURGE_BLOCK_SZ_GRANULARITY))) :=
  ⟨⟨by decide, by decide, ⟨20, by decide⟩⟩,
    controller_moves_the_right_way 100 100000 ⟨by decide, by decide, ⟨20, by decide⟩⟩⟩

end FogLAMP

